import Mathlib

/-!
# snapraid scrub core (`scrub.c`)

A shallow embedding of `state_scrub_process` and `state_scrub`.

* Block indices, slot indices and counters are `Nat`; `time_t` values and C `int`
  return codes are `Int` (a failing call returns `-1`, as in the source).
* The outcome of every external call (`handle_open`, `handle_read`, `parity_read`,
  `handle_close`, `state_progress`, the hash and the RAID syndromes) is supplied by
  an environment record `ScrubEnv`; every call site is reached at most once for a
  given block index and slot, so indexing the outcomes by `(i, j)` loses nothing.
* The calls made by the code are recorded, in order, in `ScrubState.trace`.
* `state_write` belongs to `state.c`: the call is recorded, and the value that it leaves in
  `need_write` is a field of the environment.
* The `unsigned` counters `error` and `autosavemissing` wrap modulo `2 ^ 32`
  (`error_total` is a ghost copy of `error` that does not wrap);
  `countsize` (`data_off_t`) wraps modulo `2 ^ 64`; `autosavelimit` is a quotient by a
  32-bit product, stored on 32 bits (`scrub_autosavelimit`).  `countmax`, `countpos` and
  `autosavedone` are only incremented, at most once per loop iteration over
  `block_off_t` indices, so they are plain `Nat`.
-/

namespace Snapraid

/-! ## Data model -/

/-- Modelled from the spec: the block info record of `elem.h` (not in the sources):
a `used` bit, the `time` of the last check and an `error` bit. -/
structure snapraid_info where
  used : Bool
  time : Int
  error : Bool
deriving DecidableEq, Repr

/-- Modelled from the spec: the special value zero, "unused / no info"
(the value the source compares with in `info == 0`). -/
def info_zero : snapraid_info := ⟨false, 0, false⟩

/-- Modelled from the spec: `info_make(t, err)` is the used record `{time = t, error = err}`;
it is never the zero value. -/
def info_make (t : Int) (err : Int) : snapraid_info := ⟨true, t, decide (err ≠ 0)⟩

/-- Modelled from the spec: `info_get_time(info)`. -/
def info_get_time (info : snapraid_info) : Int := info.time

/-- Modelled from the spec: `info_set_error(info)` sets the error bit and preserves the time. -/
def info_set_error (info : snapraid_info) : snapraid_info := { info with error := true }

/-- Modelled from the spec: `info_get(arr, i)`. -/
def info_get (arr : Nat → snapraid_info) (i : Nat) : snapraid_info := arr i

/-- Modelled from the spec: `info_set(arr, i, info)`. -/
def info_set (arr : Nat → snapraid_info) (i : Nat) (info : snapraid_info) : Nat → snapraid_info :=
  fun k => if k = i then info else arr k

/-- Block descriptor returned by `disk_block_get`: the file it belongs to (if any),
its position in the file and its stored hash (if any). -/
structure snapraid_block where
  file : Option Nat
  pos : Nat
  hash : Option (List Nat)
deriving DecidableEq, Repr

/-- Source of an error log line: a data disk slot, `parity` or `qarity`. -/
inductive LogSource where
  | disk (j : Nat)
  | parity
  | qarity
deriving DecidableEq, Repr

/-- Kind of an error log line. -/
inductive LogKind where
  | open_error
  | read_error
  | data_error
deriving DecidableEq, Repr

/-- Calls and log lines of a run, in program order. -/
inductive Event where
  | state_progress_begin (blockstart blockmax countmax : Nat)
  | handle_close (i j : Nat)
  | handle_open (i j : Nat)
  | handle_read (i j : Nat)
  | memhash (i j : Nat)
  | log (i : Nat) (src : LogSource) (kind : LogKind)
  | parity_read (i : Nat) (buf : Nat)
  | qarity_read (i : Nat) (buf : Nat)
  | raid_gen (i : Nat)
  | info_set (i : Nat) (info : snapraid_info)
  | state_progress (i countpos countmax countsize autosavedone autosavemissing : Nat)
  | state_write
  | state_progress_end (countpos countmax countsize : Nat)
  | teardown_close (j : Nat)
  | parity_open
  | qarity_open
  | parity_close
  | qarity_close
deriving DecidableEq, Repr

/-- The configuration constants of `state` and the outcome of every external call. -/
structure ScrubEnv where
  diskmax : Nat
  level : Nat
  block_size : Nat
  autosave : Nat
  HASH_SIZE : Nat
  /-- Whether `handle[j].disk` is assigned. -/
  disk : Nat → Bool
  /-- Result of `disk_block_get(handle[j].disk, i)`, as `disk_block_get j i`. -/
  disk_block_get : Nat → Nat → snapraid_block
  /-- Return code of the `handle_close` issued at block `i`, slot `j` during the scan. -/
  handle_close_ret : Nat → Nat → Int
  /-- Return code of `handle_open` at block `i`, slot `j`. -/
  handle_open_ret : Nat → Nat → Int
  /-- Return value (`read_size` or `-1`) of `handle_read` at block `i`, slot `j`. -/
  handle_read_ret : Nat → Nat → Int
  /-- Content of `buffer[j]` after `handle_read` at block `i`, slot `j`. -/
  handle_read_data : Nat → Nat → List Nat
  /-- The keyed hash of the first `len` bytes of a buffer. -/
  memhash : List Nat → Int → List Nat
  parity_read_ret : Nat → Int
  parity_read_data : Nat → List Nat
  qarity_read_ret : Nat → Int
  qarity_read_data : Nat → List Nat
  /-- P syndrome of the data buffers. -/
  raid_par : List (List Nat) → List Nat
  /-- Q syndrome of the data buffers. -/
  raid_qar : List (List Nat) → List Nat
  /-- Return value of `state_progress(state, i, countpos, countmax, countsize)`. -/
  state_progress_ret : Nat → Nat → Nat → Nat → Int
  /-- Return code of the `handle_close` of slot `j` in the teardown. -/
  teardown_close_ret : Nat → Int
  parity_open_ret : Int
  qarity_open_ret : Int
  parity_close_ret : Int
  qarity_close_ret : Int
  /-- The value that `state_write(state)` (of `state.c`, not in the sources) leaves in
  `state->need_write`, from the value it finds there. -/
  state_write_need_write : Int → Int

/-- The mutable part of `state` and the local variables of `state_scrub_process`. -/
structure ScrubState where
  infoarr : Nat → snapraid_info
  need_write : Int
  /-- The `file` field of each handle (`none` is the null pointer). -/
  handle_file : Nat → Option Nat
  buffer : List (List Nat)
  error : Nat
  /-- Ghost field: how many times `++error` was executed (`error` without the wrap). -/
  error_total : Nat
  countsize : Nat
  countpos : Nat
  autosavedone : Nat
  autosavemissing : Nat
  trace : List Event

/-- The per-block flags `error_on_this_block` and `silent_error_on_this_block`. -/
structure BlockFlags where
  error_on_this_block : Bool
  silent_error_on_this_block : Bool
deriving DecidableEq, Repr

/-! ## Small helpers -/

/-- `++error` on an `unsigned`. -/
def inc_error (st : ScrubState) : ScrubState :=
  { st with error := (st.error + 1) % 2 ^ 32, error_total := st.error_total + 1 }

/-- Append an event to the trace. -/
def emit (st : ScrubState) (e : Event) : ScrubState := { st with trace := st.trace ++ [e] }

/-- `memset(buffer[j], 0, block_size)`. -/
def memset_zero (st : ScrubState) (j size : Nat) : ScrubState :=
  { st with buffer := st.buffer.set j (List.replicate size 0) }

/-- `memcmp(a, b, n) != 0`: the first `n` bytes differ. -/
def memcmp_ne (a b : List Nat) (n : Nat) : Bool := decide (a.take n ≠ b.take n)

/-- Modelled from the spec: `raid_gen(level, buffer, diskmax, block_size)` of `raid.c`
(not in the sources) writes the P syndrome of `buffer[0..diskmax)` into `buffer[diskmax]`
and, for `level ≥ 2`, the Q syndrome into `buffer[diskmax + 1]`. -/
def raid_gen (env : ScrubEnv) (buffer : List (List Nat)) : List (List Nat) :=
  let data := buffer.take env.diskmax
  let b1 := buffer.set env.diskmax (env.raid_par data)
  if 2 ≤ env.level then b1.set (env.diskmax + 1) (env.raid_qar data) else b1

/-! ## `state_scrub_process` -/

/-- Result of one iteration of the slot loop: go on with the next slot, or `goto bail`. -/
inductive SlotResult where
  | next (st : ScrubState) (fl : BlockFlags)
  | bail (st : ScrubState)

/-- Source lines 181-194 at block `i`, slot `j`: after a read that returned `read_size`,
count the bytes, hash the buffer and compare with the stored hash, if any. -/
def slot_hash (env : ScrubEnv) (i j : Nat) (block : snapraid_block) (read_size : Int)
    (st : ScrubState) (fl : BlockFlags) : ScrubState × BlockFlags :=
  let st1 : ScrubState :=
    { st with countsize := (st.countsize + (read_size % 2 ^ 64).toNat) % 2 ^ 64 }
  -- now compute the hash
  let hash := env.memhash (st1.buffer.getD j []) read_size
  let st2 := emit st1 (.memhash i j)
  match block.hash with
  | some stored =>
    -- compare the hash
    if memcmp_ne hash stored env.HASH_SIZE then
      (inc_error (emit st2 (.log i (.disk j) .data_error)),
        { fl with silent_error_on_this_block := true })
    else (st2, fl)
  | none => (st2, fl)

/-- Source lines 173-194: `handle_read` into `buffer[j]`, then the hash check. -/
def slot_read (env : ScrubEnv) (i j : Nat) (block : snapraid_block)
    (st : ScrubState) (fl : BlockFlags) : ScrubState × BlockFlags :=
  let read_size := env.handle_read_ret i j
  let st1 := emit { st with buffer := st.buffer.set j (env.handle_read_data i j) }
    (.handle_read i j)
  if read_size = -1 then
    (inc_error (emit st1 (.log i (.disk j) .read_error)), { fl with error_on_this_block := true })
  else
    slot_hash env i j block read_size st1 fl

/-- Source lines 165-194: `handle_open`, then the read. -/
def slot_open (env : ScrubEnv) (i j : Nat) (block : snapraid_block)
    (st : ScrubState) (fl : BlockFlags) : ScrubState × BlockFlags :=
  let st1 := emit st (.handle_open i j)
  if env.handle_open_ret i j = -1 then
    (inc_error (emit st1 (.log i (.disk j) .open_error)), { fl with error_on_this_block := true })
  else
    slot_read env i j block
      { st1 with handle_file := fun k => if k = j then block.file else st1.handle_file k } fl

/-- Body of `for(j=0;j<diskmax;++j)` (source lines 132-195) at block `i`, slot `j`. -/
def scrub_slot (env : ScrubEnv) (i j : Nat) (st : ScrubState) (fl : BlockFlags) : SlotResult :=
  -- if the disk position is not used
  if env.disk j = false then
    .next (memset_zero st j env.block_size) fl
  else
    -- if the block is not used
    let block := env.disk_block_get j i
    if block.file.isSome = false then
      .next (memset_zero st j env.block_size) fl
    -- if the file is different than the current one, close it
    else if st.handle_file j ≠ block.file then
      if env.handle_close_ret i j = -1 then
        .bail (inc_error (emit st (.handle_close i j)))
      else
        let r := slot_open env i j block
          (emit { st with handle_file := fun k => if k = j then none else st.handle_file k }
            (.handle_close i j)) fl
        .next r.1 r.2
    else
      let r := slot_open env i j block st fl
      .next r.1 r.2

/-- The loop `for(j=0;j<diskmax;++j)` at block `i`: `n` iterations starting at slot `j`. -/
def scrub_slots (env : ScrubEnv) (i : Nat) : Nat → Nat → ScrubState → BlockFlags → SlotResult
  | 0, _, st, fl => .next st fl
  | n + 1, j, st, fl =>
    match scrub_slot env i j st fl with
    | .next st1 fl1 => scrub_slots env i n (j + 1) st1 fl1
    | .bail st1 => .bail st1

/-- Source lines 211-218: read the on-disk P parity of block `i` into `buffer[buf]`; returns the
state, the flags and the pointer `buffer_parity` (`none` is the null pointer). -/
def parity_read_p (env : ScrubEnv) (i buf : Nat) (st : ScrubState) (fl : BlockFlags) :
    ScrubState × BlockFlags × Option Nat :=
  let st1 := emit { st with buffer := st.buffer.set buf (env.parity_read_data i) }
    (.parity_read i buf)
  if env.parity_read_ret i = -1 then
    (inc_error (emit st1 (.log i .parity .read_error)),
      { fl with error_on_this_block := true }, none)
  else (st1, fl, some buf)

/-- Source lines 220-229: for `level >= 2`, read the on-disk Q parity of block `i` into the
buffer `buffer_qarity`; returns the state, the flags and the pointer `buffer_qarity`. -/
def parity_read_q (env : ScrubEnv) (i : Nat) (buffer_qarity : Option Nat) (st : ScrubState)
    (fl : BlockFlags) : ScrubState × BlockFlags × Option Nat :=
  if 2 ≤ env.level then
    let st1 := emit
      { st with buffer := match buffer_qarity with
                          | some b => st.buffer.set b (env.qarity_read_data i)
                          | none => st.buffer }
      (.qarity_read i (buffer_qarity.getD 0))
    if env.qarity_read_ret i = -1 then
      (inc_error (emit st1 (.log i .qarity .read_error)),
        { fl with error_on_this_block := true }, none)
    else (st1, fl, buffer_qarity)
  else (st, fl, buffer_qarity)

/-- Source lines 235-239: compare the computed P with the on-disk one. -/
def parity_cmp_p (env : ScrubEnv) (i : Nat) (buffer_parity : Option Nat) (st : ScrubState)
    (fl : BlockFlags) : ScrubState × BlockFlags :=
  match buffer_parity with
  | some b =>
    if memcmp_ne (st.buffer.getD env.diskmax []) (st.buffer.getD b []) env.block_size then
      (inc_error (emit st (.log i .parity .data_error)),
        { fl with silent_error_on_this_block := true })
    else (st, fl)
  | none => (st, fl)

/-- Source lines 240-246: for `level >= 2`, compare the computed Q with the on-disk one. -/
def parity_cmp_q (env : ScrubEnv) (i : Nat) (buffer_qarity : Option Nat) (st : ScrubState)
    (fl : BlockFlags) : ScrubState × BlockFlags :=
  if 2 ≤ env.level then
    match buffer_qarity with
    | some b =>
      if memcmp_ne (st.buffer.getD (env.diskmax + 1) []) (st.buffer.getD b []) env.block_size then
        (inc_error (emit st (.log i .qarity .data_error)),
          { fl with silent_error_on_this_block := true })
      else (st, fl)
    | none => (st, fl)
  else (st, fl)

/-- The parity pass (source lines 199-246), entered when neither flag is set.
A buffer pointer is the index of the buffer; `none` is the null pointer. -/
def scrub_parity (env : ScrubEnv) (i : Nat) (st : ScrubState) (fl : BlockFlags) :
    ScrubState × BlockFlags :=
  -- buffers for parity read and not computed
  let buffer_parity : Nat := if env.level = 1 then env.diskmax + 1 else env.diskmax + 2
  let buffer_qarity : Option Nat := if env.level = 1 then none else some (env.diskmax + 3)
  -- read the parity
  let rp := parity_read_p env i buffer_parity st fl
  -- read the qarity
  let rq := parity_read_q env i buffer_qarity rp.1 rp.2.1
  -- compute the parity
  let st3 := emit { rq.1 with buffer := raid_gen env rq.1.buffer } (.raid_gen i)
  -- compare the parity
  let cp := parity_cmp_p env i rp.2.2 st3 rq.2.1
  parity_cmp_q env i rq.2.2 cp.1 cp.2

/-- The classification (source lines 249-263): update the info of block `i` and set
`need_write`. -/
def scrub_classify (now : Int) (i : Nat) (st : ScrubState) (fl : BlockFlags) : ScrubState :=
  let st1 : ScrubState :=
    if fl.error_on_this_block then
      -- do nothing, as this is a generic error
      st
    else if fl.silent_error_on_this_block then
      -- set the error status keeping the existing time
      let info := info_get st.infoarr i
      emit { st with infoarr := info_set st.infoarr i (info_set_error info) }
        (.info_set i (info_set_error info))
    else
      -- update the time info of the block
      emit { st with infoarr := info_set st.infoarr i (info_make now 0) }
        (.info_set i (info_make now 0))
  -- mark the state as needing write
  { st1 with need_write := 1 }

/-- Result of one iteration of the main loop. -/
inductive BlockResult where
  | next (st : ScrubState)
  | stop (st : ScrubState)
  | bail (st : ScrubState)

/-- Modelled from the spec: `state_write(state)` of `state.c` (not in the sources), the full
checkpoint of the info store called by the autosave.  It is recorded as an event.  The spec
says that the dirty flag `need_write` is never cleared by the core and is consumed by the
autosave; what the call leaves in the flag is a parameter of the environment. -/
def state_write (env : ScrubEnv) (st : ScrubState) : ScrubState :=
  emit { st with need_write := env.state_write_need_write st.need_write } .state_write

/-- Source lines 265-286: count the processed block, report the progress, autosave. -/
def scrub_progress (env : ScrubEnv) (countmax autosavelimit : Nat) (i : Nat) (st : ScrubState) :
    BlockResult :=
  -- count the number of processed block
  let st1 : ScrubState := { st with countpos := st.countpos + 1 }
  let st2 := emit st1 (.state_progress i st1.countpos countmax st1.countsize
    st1.autosavedone st1.autosavemissing)
  if env.state_progress_ret i st1.countpos countmax st1.countsize ≠ 0 then
    .stop st2
  else if env.autosave ≠ 0 ∧ st2.autosavedone ≥ autosavelimit
      ∧ st2.autosavemissing ≥ autosavelimit then
    .next (state_write env { st2 with autosavedone := 0 })
  else
    .next st2

/-- Body of the main loop (source lines 102-287) at block `i`. -/
def scrub_block (env : ScrubEnv) (timelimit now : Int) (countmax autosavelimit : Nat)
    (i : Nat) (st : ScrubState) : BlockResult :=
  let info := info_get st.infoarr i
  -- if it's unused
  if info = info_zero then
    .next st
  -- if it's too new
  else if info_get_time info > timelimit then
    .next st
  else
    -- one more block processed for autosave
    let st1 : ScrubState :=
      { st with autosavedone := st.autosavedone + 1,
                autosavemissing := (st.autosavemissing + (2 ^ 32 - 1)) % 2 ^ 32 }
    match scrub_slots env i env.diskmax 0 st1 ⟨false, false⟩ with
    | .bail st2 => .bail st2
    | .next st2 fl2 =>
      -- if we have read all the data required, proceed with the parity
      let r := if fl2.error_on_this_block = false ∧ fl2.silent_error_on_this_block = false
        then scrub_parity env i st2 fl2 else (st2, fl2)
      scrub_progress env countmax autosavelimit i (scrub_classify now i r.1 r.2)

/-- Result of the main loop: it ended (normally or by `break`), or jumped to `bail`. -/
inductive LoopResult where
  | done (st : ScrubState)
  | bail (st : ScrubState)

/-- The main loop `for(i=blockstart;i<blocklimit;++i)`: `n` iterations starting at `i`. -/
def scrub_loop (env : ScrubEnv) (timelimit now : Int) (countmax autosavelimit : Nat) :
    Nat → Nat → ScrubState → LoopResult
  | 0, _, st => .done st
  | n + 1, i, st =>
    match scrub_block env timelimit now countmax autosavelimit i st with
    | .next st1 => scrub_loop env timelimit now countmax autosavelimit n (i + 1) st1
    | .stop st1 => .done st1
    | .bail st1 => .bail st1

/-- The pre-pass (source lines 64-90): `n` iterations starting at `i`; returns
`(countmax, blocklimit)`. -/
def scrub_count (infoarr : Nat → snapraid_info) (timelimit : Int) (countlimit blockmax : Nat) :
    Nat → Nat → Nat → Nat × Nat
  | 0, _, countmax => (countmax, blockmax)
  | n + 1, i, countmax =>
    let info := info_get infoarr i
    if info = info_zero then
      scrub_count infoarr timelimit countlimit blockmax n (i + 1) countmax
    else if info_get_time info > timelimit then
      scrub_count infoarr timelimit countlimit blockmax n (i + 1) countmax
    else if countmax ≥ countlimit then
      (countmax, i)
    else
      scrub_count infoarr timelimit countlimit blockmax n (i + 1) (countmax + 1)

/-- The teardown loop at `bail:` (source lines 292-299): `n` iterations starting at slot `j`. -/
def scrub_teardown (env : ScrubEnv) : Nat → Nat → ScrubState → ScrubState
  | 0, _, st => st
  | n + 1, j, st =>
    let st1 := emit { st with handle_file := fun k => if k = j then none else st.handle_file k }
      (.teardown_close j)
    let st2 := if env.teardown_close_ret j = -1 then inc_error st1 else st1
    scrub_teardown env n (j + 1) st2

/-- The state at the entry of the main loop of `state_scrub_process`. -/
def scrub_init (env : ScrubEnv) (infoarr : Nat → snapraid_info) (need_write : Int)
    (blockstart blockmax countmax : Nat) : ScrubState :=
  { infoarr := infoarr
    need_write := need_write
    handle_file := fun _ => none
    buffer := List.replicate (env.diskmax + env.level * 2) (List.replicate env.block_size 0)
    error := 0
    error_total := 0
    countsize := 0
    countpos := 0
    autosavedone := 0
    autosavemissing := countmax
    trace := [.state_progress_begin blockstart blockmax countmax] }

/-- The divisor of source line 95, `diskmax * state->block_size`, a product on 32 bits
(`unsigned`).  When it is `0` the division of the source is undefined (the process traps
before the main loop): what is proved about a run that reaches the loop assumes that it is
not `0`. -/
def scrub_stripe_size (env : ScrubEnv) : Nat := (env.diskmax * env.block_size) % 2 ^ 32

/-- The value of `autosavelimit` (source line 95):
`state->autosave / (diskmax * state->block_size)`, the quotient stored in a `block_off_t`
(32 bits).  The division is the total one: the value is `0` when `scrub_stripe_size` is `0`,
where the division of the source is undefined. -/
def scrub_autosavelimit (env : ScrubEnv) : Nat :=
  (env.autosave / scrub_stripe_size env) % 2 ^ 32

/-- The function `state_scrub_process`: returns the return code and the final state. -/
def state_scrub_process (env : ScrubEnv) (infoarr : Nat → snapraid_info) (need_write : Int)
    (blockstart blockmax : Nat) (timelimit : Int) (countlimit : Nat) (now : Int) :
    Int × ScrubState :=
  -- first count the number of blocks to process
  let cb := scrub_count infoarr timelimit countlimit blockmax (blockmax - blockstart) blockstart 0
  let countmax := cb.1
  let blocklimit := cb.2
  let autosavelimit := scrub_autosavelimit env
  let st0 := scrub_init env infoarr need_write blockstart blockmax countmax
  let st1 : ScrubState :=
    match scrub_loop env timelimit now countmax autosavelimit (blocklimit - blockstart)
        blockstart st0 with
    | .done st => emit st (.state_progress_end st.countpos countmax st.countsize)
    | .bail st => st
  let st2 := scrub_teardown env env.diskmax 0 st1
  (if st2.error ≠ 0 then -1 else 0, st2)

/-! ## `state_scrub` -/

/-- Modelled from the spec: `info_time_compare` (of `elem.h`, not in the sources) is the
total order on the time of the records. -/
def info_time_le (a b : snapraid_info) : Prop := info_get_time a ≤ info_get_time b

instance info_time_le_decidable : DecidableRel info_time_le :=
  fun a b => inferInstanceAs (Decidable (info_get_time a ≤ info_get_time b))

/-- The copy loop of `state_scrub` (source lines 346-355): the used entries of
`[0, blockmax)`, in index order. -/
def scrub_infomap (infoarr : Nat → snapraid_info) (blockmax : Nat) : List snapraid_info :=
  ((List.range blockmax).map (info_get infoarr)).filter (fun info => decide (info ≠ info_zero))

/-- The call `qsort(infomap, count, sizeof(snapraid_info), info_time_compare)`: the entries
sorted by ascending time. -/
def qsort_infomap (infomap : List snapraid_info) : List snapraid_info :=
  infomap.insertionSort info_time_le

/-- The planner of `state_scrub` (source lines 334-377): `none` when the array is empty
(the code exits), otherwise `(timelimit, countlimit)`. -/
def scrub_plan (infoarr : Nat → snapraid_info) (blockmax : Nat) (now : Int) : Option (Int × Nat) :=
  -- by default scrub 1/12 of the array
  let countlimit := blockmax / 12
  -- by default use a 10 day time limit
  let recentlimit := now - 10 * 24 * 3600
  let infomap := scrub_infomap infoarr blockmax
  let count := infomap.length
  if count = 0 then
    none
  else
    let infomap := qsort_infomap infomap
    -- don't check more block than the available ones
    let countlimit := if countlimit ≥ count then count - 1 else countlimit
    -- get the time limit
    let timelimit := info_get_time (infomap.getD countlimit info_zero)
    -- don't scrub too recent blocks
    let timelimit := if timelimit > recentlimit then recentlimit else timelimit
    some (timelimit, countlimit)

/-- Result of `state_scrub`: the process exits with `EXIT_FAILURE`, or the function returns. -/
inductive ScrubOutcome where
  | exit_failure (trace : List Event)
  | ret (r : Int) (st : ScrubState)

/-- The function `state_scrub`, for a parity of `blockmax` blocks at time `now`.  The trace of
the returned state holds the calls of the whole function. -/
def state_scrub (env : ScrubEnv) (infoarr : Nat → snapraid_info) (need_write : Int)
    (blockmax : Nat) (now : Int) : ScrubOutcome :=
  match scrub_plan infoarr blockmax now with
  | none => .exit_failure []
  | some (timelimit, countlimit) =>
    if env.parity_open_ret = -1 then
      .exit_failure [.parity_open]
    else if 2 ≤ env.level ∧ env.qarity_open_ret = -1 then
      .exit_failure [.parity_open, .qarity_open]
    else
      let opens : List Event :=
        if 2 ≤ env.level then [.parity_open, .qarity_open] else [.parity_open]
      let r := state_scrub_process env infoarr need_write 0 blockmax timelimit countlimit now
      let error0 : Nat := if r.1 = -1 then 1 else 0
      let error1 : Nat := if env.parity_close_ret = -1 then error0 + 1 else error0
      let error2 : Nat :=
        if 2 ≤ env.level ∧ env.qarity_close_ret = -1 then error1 + 1 else error1
      let closes : List Event :=
        if 2 ≤ env.level then [.parity_close, .qarity_close] else [.parity_close]
      .ret (if error2 ≠ 0 then -1 else 0) { r.2 with trace := opens ++ r.2.trace ++ closes }

/-! ## Predicates used to state the properties -/

/-- The event is the call `state_progress` for block `i`. -/
def Event.is_progress_at (i : Nat) : Event → Bool
  | .state_progress k _ _ _ _ _ => decide (k = i)
  | _ => false

/-- The event belongs to the data pass of block `i`. -/
def Event.is_slot_event (i : Nat) : Event → Bool
  | .handle_close k _ => decide (k = i)
  | .handle_open k _ => decide (k = i)
  | .handle_read k _ => decide (k = i)
  | .memhash k _ => decide (k = i)
  | .log k (.disk _) _ => decide (k = i)
  | _ => false

/-- Slot `j` has a disk and a block with a file at index `i`. -/
def slot_active (env : ScrubEnv) (i j : Nat) : Bool :=
  env.disk j && (env.disk_block_get j i).file.isSome

/-- The open or the read of slot `j` fails at block `i`. -/
def slot_io_error (env : ScrubEnv) (i j : Nat) : Bool :=
  slot_active env i j &&
    (decide (env.handle_open_ret i j = -1) || decide (env.handle_read_ret i j = -1))

/-- The hash of what was read differs from the stored hash of the block, if it has one. -/
def slot_hash_mismatch (env : ScrubEnv) (i j : Nat) : Bool :=
  match (env.disk_block_get j i).hash with
  | some stored =>
    memcmp_ne (env.memhash (env.handle_read_data i j) (env.handle_read_ret i j)) stored
      env.HASH_SIZE
  | none => false

/-- Slot `j` is read at block `i` and its stored hash does not match. -/
def slot_hash_error (env : ScrubEnv) (i j : Nat) : Bool :=
  slot_active env i j && !slot_io_error env i j && slot_hash_mismatch env i j

/-- The content of `buffer[j]` after the data pass of block `i` when slot `j` has no I/O error. -/
def stripe_slot (env : ScrubEnv) (i j : Nat) : List Nat :=
  if slot_active env i j then env.handle_read_data i j else List.replicate env.block_size 0

/-- The trace of `st1` extends the trace of `st` by events satisfying `p`. -/
def TraceExt (p : Event → Bool) (st st1 : ScrubState) : Prop :=
  ∃ evs, st1.trace = st.trace ++ evs ∧ ∀ e ∈ evs, p e = true

/-- The part of the state that the data pass and the parity pass leave alone. -/
def SameStore (st st1 : ScrubState) : Prop :=
  st1.infoarr = st.infoarr ∧ st1.need_write = st.need_write ∧ st1.countpos = st.countpos ∧
  st1.autosavedone = st.autosavedone ∧ st1.autosavemissing = st.autosavemissing ∧
  st1.buffer.length = st.buffer.length

/-- The state reached by a slot iteration, whatever its result. -/
def SlotResult.state : SlotResult → ScrubState
  | .next st _ => st
  | .bail st => st

/-- Some open or read fails in the data pass of block `i`. -/
def data_io_error (env : ScrubEnv) (i : Nat) : Bool :=
  (List.range env.diskmax).any (slot_io_error env i)

/-- Some slot read in the data pass of block `i` has a stored hash that does not match. -/
def data_hash_error (env : ScrubEnv) (i : Nat) : Bool :=
  (List.range env.diskmax).any (slot_hash_error env i)

/-- The data buffers `buffer[0..diskmax)` after a data pass of block `i` without I/O error. -/
def stripe (env : ScrubEnv) (i : Nat) : List (List Nat) :=
  (List.range env.diskmax).map (stripe_slot env i)

/-- The event belongs to the parity pass of block `i`. -/
def Event.is_parity_event (i : Nat) : Event → Bool
  | .parity_read k _ => decide (k = i)
  | .qarity_read k _ => decide (k = i)
  | .raid_gen k => decide (k = i)
  | .log k .parity _ => decide (k = i)
  | .log k .qarity _ => decide (k = i)
  | _ => false

/-- A parity read of block `i` fails (the Q parity is read only for `level >= 2`). -/
def parity_io_error (env : ScrubEnv) (i : Nat) : Bool :=
  decide (env.parity_read_ret i = -1) ||
    (decide (2 ≤ env.level) && decide (env.qarity_read_ret i = -1))

/-- The P parity generated from the data of block `i` differs from the on-disk one. -/
def parity_mismatch (env : ScrubEnv) (i : Nat) : Bool :=
  memcmp_ne (env.raid_par (stripe env i)) (env.parity_read_data i) env.block_size

/-- The Q parity generated from the data of block `i` differs from the on-disk one. -/
def qarity_mismatch (env : ScrubEnv) (i : Nat) : Bool :=
  memcmp_ne (env.raid_qar (stripe env i)) (env.qarity_read_data i) env.block_size

/-- A parity that was read differs from the generated one. -/
def parity_silent_error (env : ScrubEnv) (i : Nat) : Bool :=
  (!decide (env.parity_read_ret i = -1) && parity_mismatch env i) ||
    (decide (2 ≤ env.level) && !decide (env.qarity_read_ret i = -1) && qarity_mismatch env i)

/-- The flag `error_on_this_block` at the classification of block `i`. -/
def block_io_error (env : ScrubEnv) (i : Nat) : Bool :=
  data_io_error env i || (!data_hash_error env i && parity_io_error env i)

/-- The flag `silent_error_on_this_block` at the classification of block `i`. -/
def block_silent_error (env : ScrubEnv) (i : Nat) : Bool :=
  data_hash_error env i || (!data_io_error env i && parity_silent_error env i)

/-- The info written by the classification, from the two flags and the current info. -/
def class_info (now : Int) (io silent : Bool) (info : snapraid_info) : snapraid_info :=
  if io then info else if silent then info_set_error info else info_make now 0

/-- Block `i` passes the skip filter: it is used and not newer than `timelimit`. -/
def eligible (infoarr : Nat → snapraid_info) (timelimit : Int) (i : Nat) : Bool :=
  decide (info_get infoarr i ≠ info_zero) && decide (info_get_time (info_get infoarr i) ≤ timelimit)

/-- The event is one that the iteration of block `i` can append. -/
def Event.is_block_event (i : Nat) (e : Event) : Bool :=
  Event.is_slot_event i e || Event.is_parity_event i e ||
    match e with
    | .info_set k _ => decide (k = i)
    | .state_progress k _ _ _ _ _ => decide (k = i)
    | .state_write => true
    | _ => false

/-- The run reached the call of `state_progress` for block `i`: the block was visited and
classified.  A block that the scan never reaches, or whose data pass is cut by a failing
`handle_close`, is not; in a run that is not interrupted these are exactly the used blocks
of `[blockstart, blocklimit)` with time at most `timelimit` (`processed_iff_uninterrupted`). -/
def processed (trace : List Event) (i : Nat) : Bool := trace.any (Event.is_progress_at i)

/-- The state reached by an iteration of the main loop, whatever its result. -/
def BlockResult.state : BlockResult → ScrubState
  | .next st => st
  | .stop st => st
  | .bail st => st

/-- The iteration jumped to `bail`. -/
def BlockResult.is_bail : BlockResult → Bool
  | .bail _ => true
  | _ => false

/-- The state reached by the main loop, whatever its result. -/
def LoopResult.state : LoopResult → ScrubState
  | .done st => st
  | .bail st => st

/-- The event is a `handle_close` of the teardown or the call `state_progress_end`. -/
def Event.is_exit_event : Event → Bool
  | .teardown_close _ => true
  | .state_progress_end _ _ _ => true
  | _ => false

/-- The value of `countmax` after the pre-pass. -/
def scrub_countmax (infoarr : Nat → snapraid_info) (blockstart blockmax : Nat) (timelimit : Int)
    (countlimit : Nat) : Nat :=
  (scrub_count infoarr timelimit countlimit blockmax (blockmax - blockstart) blockstart 0).1

/-- The value of `blocklimit` after the pre-pass. -/
def scrub_blocklimit (infoarr : Nat → snapraid_info) (blockstart blockmax : Nat)
    (timelimit : Int) (countlimit : Nat) : Nat :=
  (scrub_count infoarr timelimit countlimit blockmax (blockmax - blockstart) blockstart 0).2

/-- The state at the exit of the main loop of `state_scrub_process`. -/
def scrub_loop_state (env : ScrubEnv) (infoarr : Nat → snapraid_info) (need_write : Int)
    (blockstart blockmax : Nat) (timelimit : Int) (countlimit : Nat) (now : Int) : ScrubState :=
  (scrub_loop env timelimit now (scrub_countmax infoarr blockstart blockmax timelimit countlimit)
    (scrub_autosavelimit env)
    (scrub_blocklimit infoarr blockstart blockmax timelimit countlimit - blockstart) blockstart
    (scrub_init env infoarr need_write blockstart blockmax
      (scrub_countmax infoarr blockstart blockmax timelimit countlimit))).state

/-- Test fixture: bytewise XOR of the data buffers, on two-byte blocks. -/
def demo_par (bs : List (List Nat)) : List Nat :=
  bs.foldl (fun acc b => List.zipWith Nat.xor acc b) [0, 0]

/-- Test fixture: a second syndrome of the data buffers, on two-byte blocks. -/
def demo_qar (bs : List (List Nat)) : List Nat :=
  bs.foldl (fun acc b => List.zipWith (fun x y => (2 * x + y) % 256) acc b) [0, 0]

/-- Test fixture: the content of block `i` of disk `j`. -/
def demo_data (i j : Nat) : List Nat := [(i + 3 * j) % 256, 7]

/-- Test fixture: a two-byte hash of the first `len` bytes of a buffer. -/
def demo_hash (d : List Nat) (len : Int) : List Nat :=
  [(d.take len.toNat).sum % 256, len.toNat % 256]

/-- Test fixture (scenario S1): three data disks, single parity, two-byte blocks, every
block of every disk in a file with a correct stored hash, correct on-disk parity, no failing
call; `state_write` leaves the dirty flag at `0`. -/
def env_s1 : ScrubEnv :=
  { diskmax := 3, level := 1, block_size := 2, autosave := 0, HASH_SIZE := 2
    disk := fun _ => true
    disk_block_get := fun j i => ⟨some (j + 1), i, some (demo_hash (demo_data i j) 2)⟩
    handle_close_ret := fun _ _ => 0
    handle_open_ret := fun _ _ => 0
    handle_read_ret := fun _ _ => 2
    handle_read_data := demo_data
    memhash := demo_hash
    parity_read_ret := fun _ => 0
    parity_read_data := fun i => demo_par [demo_data i 0, demo_data i 1, demo_data i 2]
    qarity_read_ret := fun _ => 0
    qarity_read_data := fun i => demo_qar [demo_data i 0, demo_data i 1, demo_data i 2]
    raid_par := demo_par
    raid_qar := demo_qar
    state_progress_ret := fun _ _ _ _ => 0
    teardown_close_ret := fun _ => 0
    parity_open_ret := 0, qarity_open_ret := 0, parity_close_ret := 0, qarity_close_ret := 0
    state_write_need_write := fun _ => 0 }

/-- Test fixture (scenario S1): ten used blocks, block `i` last checked at time `10 + i`. -/
def arr_s1 : Nat → snapraid_info := fun i => if i < 10 then info_make (10 + i) 0 else info_zero

/-- Test fixture (scenario S2): as S1, but the content of slot 1 of block 4 was flipped
after it was hashed. -/
def env_s2 : ScrubEnv :=
  { env_s1 with handle_read_data := fun i j => if i = 4 ∧ j = 1 then [99, 7] else demo_data i j }

/-- Test fixture: as S1, but the read of slot 2 of block 5 fails and the content of slot 0
of the same block does not match its stored hash. -/
def env_s4 : ScrubEnv :=
  { env_s1 with
    handle_read_ret := fun i j => if i = 5 ∧ j = 2 then -1 else 2
    handle_read_data := fun i j => if i = 5 ∧ j = 0 then [99, 7] else demo_data i j }

/-- The times of the used entries of `[0, blockmax)`, in index order. -/
def used_times (infoarr : Nat → snapraid_info) (blockmax : Nat) : List Int :=
  (scrub_infomap infoarr blockmax).map info_get_time

/-- The sequence `T`: the times of the used entries, sorted ascending. -/
def sorted_times (infoarr : Nat → snapraid_info) (blockmax : Nat) : List Int :=
  (used_times infoarr blockmax).insertionSort (fun a b => a ≤ b)

/-- Test fixture: twelve used blocks; blocks 0 to 5 were last checked on day 1, blocks 6
to 11 at time `1000000`. -/
def arr_recent : Nat → snapraid_info := fun i =>
  if i < 6 then info_make 86400 0 else if i < 12 then info_make 1000000 0 else info_zero

/-- Test fixture: 24 used blocks with distinct times; block 0 was checked at time 30,
block 1 at time 10, block 2 at time 20 and block `i >= 3` at time `100 + i`. -/
def arr_order : Nat → snapraid_info := fun i =>
  if i = 0 then info_make 30 0
  else if i = 1 then info_make 10 0
  else if i = 2 then info_make 20 0
  else if i < 24 then info_make (100 + i) 0
  else info_zero

/-- Test fixture: as S1, but the read of slot 1 of block 1 is short: it returns 1 byte of
the 2-byte block (the last block of a file that ends there), and the stored hash of that
block is the hash of the byte read. -/
def env_short : ScrubEnv :=
  { env_s1 with
    handle_read_ret := fun i j => if i = 1 ∧ j = 1 then 1 else 2
    disk_block_get := fun j i =>
      if i = 1 ∧ j = 1 then ⟨some (j + 1), i, some (demo_hash (demo_data i j) 1)⟩
      else ⟨some (j + 1), i, some (demo_hash (demo_data i j) 2)⟩ }

/-- The event is an error log line. -/
def Event.is_log : Event → Bool
  | .log _ _ _ => true
  | _ => false

/-- The event is the call `parity_read` of the P parity for block `i`. -/
def Event.is_parity_read_at (i : Nat) : Event → Bool
  | .parity_read k _ => decide (k = i)
  | _ => false

/-- The event is the call `parity_read` of the Q parity for block `i`. -/
def Event.is_qarity_read_at (i : Nat) : Event → Bool
  | .qarity_read k _ => decide (k = i)
  | _ => false

/-- The event is the call `raid_gen` for block `i`. -/
def Event.is_raid_gen_at (i : Nat) : Event → Bool
  | .raid_gen k => decide (k = i)
  | _ => false

/-- The event is appended after the parity pass of block `i`: the info update, the progress
call or the autosave. -/
def Event.is_tail_event (i : Nat) : Event → Bool
  | .info_set k _ => decide (k = i)
  | .state_progress k _ _ _ _ _ => decide (k = i)
  | .state_write => true
  | _ => false

/-- The list holds only error log lines of the parity pass of block `i`. -/
def ParityLogs (i : Nat) (l : List Event) : Prop :=
  ∀ e ∈ l, Event.is_log e = true ∧ Event.is_parity_event i e = true

/-- The events of a parity pass of block `i`: the read of P, the read of Q for
`level >= 2`, then `raid_gen`, each possibly followed by error log lines. -/
def ParityShape (env : ScrubEnv) (i : Nat) (pl : List Event) : Prop :=
  ∃ l1 l2 l3, ParityLogs i l1 ∧ ParityLogs i l2 ∧ ParityLogs i l3 ∧
    pl = (Event.parity_read i (if env.level = 1 then env.diskmax + 1 else env.diskmax + 2) :: l1)
      ++ (if 2 ≤ env.level then Event.qarity_read i (env.diskmax + 3) :: l2 else [])
      ++ (Event.raid_gen i :: l3)

/-- The run is not interrupted: no `handle_close` of the scan fails and `state_progress`
never asks to stop. -/
def uninterrupted (env : ScrubEnv) : Prop :=
  (∀ i j, env.handle_close_ret i j ≠ -1) ∧ (∀ i cp cm cs, env.state_progress_ret i cp cm cs = 0)

/-- The event ends the scan: a `handle_close` of the scan that fails, or a call of
`state_progress` that asks to stop. -/
def Event.is_stopper (env : ScrubEnv) : Event → Bool
  | .handle_close i j => decide (env.handle_close_ret i j = -1)
  | .state_progress i cp cm cs _ _ => decide (env.state_progress_ret i cp cm cs ≠ 0)
  | _ => false

/-- The event is an open, a read, a hash or a log line of the data pass of block `i`. -/
def Event.is_rw_event (i : Nat) : Event → Bool
  | .handle_open k _ => decide (k = i)
  | .handle_read k _ => decide (k = i)
  | .memhash k _ => decide (k = i)
  | .log k (.disk _) _ => decide (k = i)
  | _ => false

/-- The event belongs to the work on block `i` before its progress call (data pass, parity
pass, info update) and does not end the scan. -/
def Event.is_work_event (env : ScrubEnv) (i : Nat) (e : Event) : Bool :=
  (Event.is_slot_event i e || Event.is_parity_event i e ||
    match e with
    | .info_set k _ => decide (k = i)
    | _ => false) && !Event.is_stopper env e

/-- The event is one that the iteration of block `i` can append and does not end the scan. -/
def Event.is_quiet (env : ScrubEnv) (i : Nat) (e : Event) : Bool :=
  Event.is_block_event i e && !Event.is_stopper env e

/-- The event is an error that the scan counts: an error log line (open or read failure,
hash or parity mismatch), a `handle_close` of the scan that fails, or a `handle_close` of the
teardown that fails. -/
def Event.is_error (env : ScrubEnv) : Event → Bool
  | .log _ _ _ => true
  | .handle_close i j => decide (env.handle_close_ret i j = -1)
  | .teardown_close j => decide (env.teardown_close_ret j = -1)
  | _ => false

/-- The error counters agree with the trace: `error` is `error_total` modulo `2 ^ 32`, and
`error_total` is the number of error events of the trace. -/
def ErrInv (env : ScrubEnv) (st : ScrubState) : Prop :=
  st.error = st.error_total % 2 ^ 32 ∧ st.error_total = st.trace.countP (Event.is_error env)

/-- A step that keeps the error counters in agreement with the trace and does not decrease
the count. -/
def ErrStep (env : ScrubEnv) (st st1 : ScrubState) : Prop :=
  (ErrInv env st → ErrInv env st1) ∧ st.error_total ≤ st1.error_total

/-- The event belongs to the iteration of a block of index at most `i` (the call
`state_write` of the autosave carries no index). -/
def Event.is_upto (i : Nat) : Event → Bool
  | .handle_close k _ => decide (k ≤ i)
  | .handle_open k _ => decide (k ≤ i)
  | .handle_read k _ => decide (k ≤ i)
  | .memhash k _ => decide (k ≤ i)
  | .log k _ _ => decide (k ≤ i)
  | .parity_read k _ => decide (k ≤ i)
  | .qarity_read k _ => decide (k ≤ i)
  | .raid_gen k => decide (k ≤ i)
  | .info_set k _ => decide (k ≤ i)
  | .state_progress k _ _ _ _ _ => decide (k ≤ i)
  | .state_write => true
  | _ => false

/-- The event is the call `state_write` of the autosave. -/
def Event.is_save : Event → Bool
  | .state_write => true
  | _ => false

/-- Test fixture: as S1, but slot 1 moves to another file at block 3 and the `handle_close`
of the previous file fails. -/
def env_close : ScrubEnv :=
  { env_s1 with
    disk_block_get := fun j i =>
      ⟨if j = 1 ∧ 3 ≤ i then some 9 else some (j + 1), i, some (demo_hash (demo_data i j) 2)⟩
    handle_close_ret := fun i j => if i = 3 ∧ j = 1 then -1 else 0 }

/-- Test fixture: as S1, but `state_progress` asks to stop after block 5. -/
def env_stop : ScrubEnv :=
  { env_s1 with state_progress_ret := fun i _ _ _ => if i = 5 then 1 else 0 }

/-- Test fixture: as S1, with an autosave budget of four stripes (`4 * diskmax * block_size`
bytes). -/
def env_s6 : ScrubEnv := { env_s1 with autosave := 24 }

/-- Test fixture (scenario S6): twenty used blocks, block `i` last checked at time `10 + i`. -/
def arr_s6 : Nat → snapraid_info := fun i => if i < 20 then info_make (10 + i) 0 else info_zero

/-- The number of blocks of `[i0, i0 + n)` that pass the skip filter. -/
def eligible_count (infoarr : Nat → snapraid_info) (timelimit : Int) (i0 n : Nat) : Nat :=
  (List.range' i0 n).countP (eligible infoarr timelimit)

/-- The counters reported by a call of `state_progress` are consistent with `countmax`: the
call reports `countmax`, `countpos <= countmax` and `autosavemissing = countmax - countpos`. -/
def Event.progress_ok (countmax : Nat) : Event → Bool
  | .state_progress _ cp cm _ _ m => decide (cm = countmax ∧ cp ≤ countmax ∧ m + cp = countmax)
  | _ => true

/-- The counters at the top of the iteration of block `i` in a loop over the blocks before
`iend`: the blocks still to process bring `countpos` to `countmax`, `autosavemissing` is the
number of blocks still to process, and the progress calls made so far are consistent. -/
def CountInv (timelimit : Int) (countmax iend i : Nat) (st : ScrubState) : Prop :=
  st.countpos + eligible_count st.infoarr timelimit i (iend - i) = countmax ∧
  st.autosavemissing + st.countpos = countmax ∧
  ∀ e ∈ st.trace, Event.progress_ok countmax e = true

/-- The counters where the loop leaves: the progress calls are consistent, and a loop that is
not interrupted has processed `countmax` blocks. -/
def CountExit (env : ScrubEnv) (countmax : Nat) (st : ScrubState) : Prop :=
  (∀ e ∈ st.trace, Event.progress_ok countmax e = true) ∧ st.countpos ≤ countmax ∧
  (uninterrupted env → st.countpos = countmax)

/-- The number of blocks of `[0, blockmax)` visited by a run with trace `trace`. -/
def visited_count (trace : List Event) (blockmax : Nat) : Nat :=
  (List.range blockmax).countP (processed trace)

/-- What the autosave schedule observes of a run: the `k`-th processed block (the call of
`state_progress` with `countpos = k`) and the calls of `state_write`. -/
inductive SaveTick where
  | processed (k : Nat)
  | saved
deriving DecidableEq, Repr

/-- The observation of the autosave schedule that an event makes, if any. -/
def Event.tick : Event → Option SaveTick
  | .state_progress _ cp _ _ _ _ => some (.processed cp)
  | .state_write => some .saved
  | _ => none

/-- The processed blocks and the saves of a trace, in order. -/
def save_ticks (trace : List Event) : List SaveTick := trace.filterMap Event.tick

/-- The schedule of the spec for the first `n` processed blocks of a plan of `countmax`
blocks with an autosave limit of `L` blocks: a save follows the `k`-th processed block exactly
when `k` is a multiple of `L` and at least `L` blocks remain (`countmax - k >= L`). -/
def save_schedule (L countmax : Nat) : Nat → List SaveTick
  | 0 => []
  | n + 1 => save_schedule L countmax n ++
      (.processed (n + 1) :: if L ∣ (n + 1) ∧ L ≤ countmax - (n + 1) then [.saved] else [])

/-- The counter `autosavedone` reported by a call of `state_progress` is the number of blocks
processed since the last save, as long as a save is still possible: `(countpos - 1) % L + 1`. -/
def Event.done_ok (L countmax : Nat) : Event → Bool
  | .state_progress _ cp _ _ d _ => decide (L ≤ countmax - (cp - 1) → d = (cp - 1) % L + 1)
  | _ => true

/-- The autosave state at the top of an iteration: the processed blocks and the saves so far
follow the schedule, and `autosavedone` counts the blocks since the last save while a save is
still possible. -/
def SaveInv (L countmax : Nat) (st : ScrubState) : Prop :=
  save_ticks st.trace = save_schedule L countmax st.countpos ∧
  (L ≤ countmax - st.countpos → st.autosavedone = st.countpos % L) ∧
  ∀ e ∈ st.trace, Event.done_ok L countmax e = true

/-- Test fixture: as S1, with two parity levels. -/
def env_dual : ScrubEnv := { env_s1 with level := 2 }

/-- The number of blocks visited by a run of `state_scrub` (`0` when it exits before the
scan). -/
def scrub_visited (env : ScrubEnv) (infoarr : Nat → snapraid_info) (need_write : Int)
    (blockmax : Nat) (now : Int) : Nat :=
  match state_scrub env infoarr need_write blockmax now with
  | .ret _ st => visited_count st.trace blockmax
  | .exit_failure _ => 0

/-- The info array left by a run of `state_scrub` (the input array when it exits before the
scan). -/
def scrub_next_info (env : ScrubEnv) (infoarr : Nat → snapraid_info) (need_write : Int)
    (blockmax : Nat) (now : Int) : Nat → snapraid_info :=
  match state_scrub env infoarr need_write blockmax now with
  | .ret _ st => st.infoarr
  | .exit_failure _ => infoarr

/-- A step of the data or parity pass keeps the block flags in step with the error counter:
a flag is set after the step exactly when one was set before it or the step counted an
error. -/
def FlagStep (st : ScrubState) (fl : BlockFlags) (st1 : ScrubState) (fl1 : BlockFlags) : Prop :=
  ((fl1.error_on_this_block || fl1.silent_error_on_this_block) = true ↔
    ((fl.error_on_this_block || fl.silent_error_on_this_block) = true ∨
      st.error_total < st1.error_total)) ∧
  st.error_total ≤ st1.error_total

/-- The block has an I/O error or a silent error: one of the two flags is set at its
classification. -/
def block_error (env : ScrubEnv) (i : Nat) : Bool :=
  block_io_error env i || block_silent_error env i

/-- The errors counted so far and their causes, between two iterations of the main loop: the
counter agrees with the trace, a classified block with an error was counted, every error log
line belongs to a classified block with an error, and the teardown has not started. -/
def ErrCause (env : ScrubEnv) (st : ScrubState) : Prop :=
  ErrInv env st ∧
  (∀ k, processed st.trace k = true → block_error env k = true → 0 < st.error_total) ∧
  (∀ e ∈ st.trace, Event.is_log e = true →
    ∃ k, processed st.trace k = true ∧ block_error env k = true) ∧
  (∀ j, Event.teardown_close j ∉ st.trace)

/-- The errors counted and their causes where the main loop leaves: as `ErrCause`, but the
error log lines of a block cut by a failing `handle_close` come with that failing call. -/
def ErrCauseExit (env : ScrubEnv) (st : ScrubState) : Prop :=
  ErrInv env st ∧
  (∀ k, processed st.trace k = true → block_error env k = true → 0 < st.error_total) ∧
  ((∀ e ∈ st.trace, Event.is_log e = true →
      ∃ k, processed st.trace k = true ∧ block_error env k = true) ∨
    ∃ i j, Event.handle_close i j ∈ st.trace ∧ env.handle_close_ret i j = -1) ∧
  (∀ j, Event.teardown_close j ∉ st.trace)

/-- Test fixture: as S1, but the close of the parity file fails. -/
def env_pclose : ScrubEnv := { env_s1 with parity_close_ret := -1 }

/-- Test fixture: as S1, but the `handle_close` of slot 2 fails in the teardown. -/
def env_tclose : ScrubEnv :=
  { env_s1 with teardown_close_ret := fun j => if j = 2 then -1 else 0 }

/-- The dirty flag between two iterations: `need_write` has its pre-run value `nw` while no
block was classified; afterwards it is `1` when the last of the classifications and saves is
a classification, and what `state_write` left when it is a save. -/
def DirtyInv (env : ScrubEnv) (nw : Int) (st : ScrubState) : Prop :=
  ((∀ i, processed st.trace i = false) → st.need_write = nw ∧ save_ticks st.trace = []) ∧
  (∀ k, (save_ticks st.trace).getLast? = some (.processed k) → st.need_write = 1) ∧
  ((save_ticks st.trace).getLast? = some .saved →
    st.need_write = env.state_write_need_write 1)

/-- Test fixture: as `env_close` (the `handle_close` of slot 1 fails at block 3), with an
autosave budget of three stripes, so that a save follows the third block. -/
def env_save_close : ScrubEnv := { env_close with autosave := 18 }

/-- Test fixture: as S1, with an autosave budget of one byte, below one stripe: the limit is
`0` and a save follows every block. -/
def env_save_all : ScrubEnv := { env_s1 with autosave := 1 }

/-- Test fixture: as S1, with an autosave budget of `6 * (2 ^ 32 + 2)` bytes: the quotient by
the stripe size `6` is `2 ^ 32 + 2`, which the 32-bit `autosavelimit` stores as `2`. -/
def env_wrap : ScrubEnv := { env_s1 with autosave := 25769803788 }

/-! ## Theorems -/

theorem traceExt_refl (p : Event → Bool) (st : ScrubState) : TraceExt p st st :=
  ⟨[], by simp, by simp⟩

theorem traceExt_trans {p : Event → Bool} {a b c : ScrubState}
    (h1 : TraceExt p a b) (h2 : TraceExt p b c) : TraceExt p a c := by
  obtain ⟨e1, h1, h1p⟩ := h1
  obtain ⟨e2, h2, h2p⟩ := h2
  refine ⟨e1 ++ e2, by rw [h2, h1, List.append_assoc], ?_⟩
  intro e he
  rcases List.mem_append.mp he with h | h
  · exact h1p e h
  · exact h2p e h

theorem traceExt_mono {p q : Event → Bool} {a b : ScrubState}
    (hpq : ∀ e, p e = true → q e = true) (h : TraceExt p a b) : TraceExt q a b := by
  obtain ⟨e1, h1, h1p⟩ := h
  exact ⟨e1, h1, fun e he => hpq e (h1p e he)⟩

theorem sameStore_refl (st : ScrubState) : SameStore st st := by simp [SameStore]

theorem sameStore_trans {a b c : ScrubState} (h1 : SameStore a b) (h2 : SameStore b c) :
    SameStore a c := by
  unfold SameStore at h1 h2 ⊢
  refine ⟨?_, ?_, ?_, ?_, ?_, ?_⟩
  · rw [h2.1, h1.1]
  · rw [h2.2.1, h1.2.1]
  · rw [h2.2.2.1, h1.2.2.1]
  · rw [h2.2.2.2.1, h1.2.2.2.1]
  · rw [h2.2.2.2.2.1, h1.2.2.2.2.1]
  · rw [h2.2.2.2.2.2, h1.2.2.2.2.2]

theorem slot_hash_spec (env : ScrubEnv) (i j : Nat) (block : snapraid_block) (rs : Int)
    (st : ScrubState) (fl : BlockFlags) :
    SameStore st (slot_hash env i j block rs st fl).1 ∧
    TraceExt (Event.is_slot_event i) st (slot_hash env i j block rs st fl).1 ∧
    (slot_hash env i j block rs st fl).1.buffer = st.buffer ∧
    (slot_hash env i j block rs st fl).2.error_on_this_block = fl.error_on_this_block ∧
    (slot_hash env i j block rs st fl).2.silent_error_on_this_block =
      (fl.silent_error_on_this_block ||
        match block.hash with
        | some stored => memcmp_ne (env.memhash (st.buffer.getD j []) rs) stored env.HASH_SIZE
        | none => false) := by
  unfold slot_hash
  cases hh : block.hash with
  | none => simp [SameStore, TraceExt, emit, Event.is_slot_event]
  | some stored =>
    simp only []
    split_ifs with hm
    · refine ⟨?_, ?_, ?_, ?_, ?_⟩
      · simp [SameStore, emit, inc_error]
      · simp [TraceExt, emit, inc_error, Event.is_slot_event]
      · simp [emit, inc_error]
      · simp
      · rw [hm]; simp
    · refine ⟨?_, ?_, ?_, ?_, ?_⟩
      · simp [SameStore, emit]
      · simp [TraceExt, emit, Event.is_slot_event]
      · simp [emit]
      · simp
      · rw [Bool.not_eq_true] at hm; rw [hm]; simp

theorem slot_read_spec (env : ScrubEnv) (i j : Nat) (block : snapraid_block)
    (st : ScrubState) (fl : BlockFlags) (hj : j < st.buffer.length) :
    SameStore st (slot_read env i j block st fl).1 ∧
    TraceExt (Event.is_slot_event i) st (slot_read env i j block st fl).1 ∧
    (slot_read env i j block st fl).1.buffer = st.buffer.set j (env.handle_read_data i j) ∧
    (slot_read env i j block st fl).2.error_on_this_block =
      (fl.error_on_this_block || decide (env.handle_read_ret i j = -1)) ∧
    (slot_read env i j block st fl).2.silent_error_on_this_block =
      (fl.silent_error_on_this_block || (!decide (env.handle_read_ret i j = -1) &&
        match block.hash with
        | some stored =>
          memcmp_ne (env.memhash (env.handle_read_data i j) (env.handle_read_ret i j)) stored
            env.HASH_SIZE
        | none => false)) := by
  unfold slot_read
  by_cases hr : env.handle_read_ret i j = -1
  · simp [SameStore, TraceExt, emit, inc_error, Event.is_slot_event, hr]
  · simp only [hr, if_false]
    have h := slot_hash_spec env i j block (env.handle_read_ret i j)
      (emit { st with buffer := st.buffer.set j (env.handle_read_data i j) } (.handle_read i j)) fl
    obtain ⟨h1, h2, h3, h4, h5⟩ := h
    refine ⟨sameStore_trans ?_ h1, traceExt_trans ?_ h2, ?_, ?_, ?_⟩
    · simp [SameStore, emit]
    · simp [TraceExt, emit, Event.is_slot_event]
    · rw [h3]; simp [emit]
    · rw [h4]; simp [hr]
    · rw [h5]; simp [hr, emit, List.getD_eq_getElem?_getD, hj]

theorem slot_open_spec (env : ScrubEnv) (i j : Nat) (block : snapraid_block)
    (st : ScrubState) (fl : BlockFlags) (hj : j < st.buffer.length) :
    SameStore st (slot_open env i j block st fl).1 ∧
    TraceExt (Event.is_slot_event i) st (slot_open env i j block st fl).1 ∧
    (∀ k, k ≠ j → (slot_open env i j block st fl).1.buffer[k]? = st.buffer[k]?) ∧
    (env.handle_open_ret i j ≠ -1 →
      (slot_open env i j block st fl).1.buffer[j]? = some (env.handle_read_data i j)) ∧
    (slot_open env i j block st fl).2.error_on_this_block =
      (fl.error_on_this_block ||
        (decide (env.handle_open_ret i j = -1) || decide (env.handle_read_ret i j = -1))) ∧
    (slot_open env i j block st fl).2.silent_error_on_this_block =
      (fl.silent_error_on_this_block ||
        (!(decide (env.handle_open_ret i j = -1) || decide (env.handle_read_ret i j = -1)) &&
        match block.hash with
        | some stored =>
          memcmp_ne (env.memhash (env.handle_read_data i j) (env.handle_read_ret i j)) stored
            env.HASH_SIZE
        | none => false)) := by
  unfold slot_open
  by_cases ho : env.handle_open_ret i j = -1
  · simp [SameStore, TraceExt, emit, inc_error, Event.is_slot_event, ho]
  · simp only [ho, if_false]
    obtain ⟨h1, h2, h3, h4, h5⟩ := slot_read_spec env i j block
      { emit st (.handle_open i j) with
        handle_file := fun k => if k = j then block.file else (emit st (.handle_open i j)).handle_file k }
      fl (by simpa [emit] using hj)
    refine ⟨sameStore_trans ?_ h1, traceExt_trans ?_ h2, ?_, ?_, ?_, ?_⟩
    · simp [SameStore, emit]
    · simp [TraceExt, emit, Event.is_slot_event]
    · intro k hk
      rw [h3]
      simp [emit, List.getElem?_set_ne (Ne.symm hk)]
    · intro _
      rw [h3]
      simp [emit, hj]
    · rw [h4]; simp [ho]
    · rw [h5]; simp [ho]

theorem scrub_slot_state (env : ScrubEnv) (i j : Nat) (st : ScrubState) (fl : BlockFlags)
    (hj : j < st.buffer.length) :
    SameStore st (scrub_slot env i j st fl).state ∧
    TraceExt (Event.is_slot_event i) st (scrub_slot env i j st fl).state := by
  unfold scrub_slot
  simp only []
  split_ifs with h1 h2 h3 h4
  · simp [SlotResult.state, SameStore, TraceExt, memset_zero]
  · simp [SlotResult.state, SameStore, TraceExt, memset_zero]
  · simp [SlotResult.state, SameStore, TraceExt, emit, inc_error, Event.is_slot_event]
  · obtain ⟨a1, a2, -⟩ := slot_open_spec env i j (env.disk_block_get j i)
      (emit { st with handle_file := fun k => if k = j then none else st.handle_file k }
        (.handle_close i j)) fl (by simpa [emit] using hj)
    refine ⟨sameStore_trans ?_ a1, traceExt_trans ?_ a2⟩
    · simp [SameStore, emit]
    · simp [TraceExt, emit, Event.is_slot_event]
  · obtain ⟨a1, a2, -⟩ := slot_open_spec env i j (env.disk_block_get j i) st fl hj
    exact ⟨a1, a2⟩

theorem scrub_slot_next (env : ScrubEnv) (i j : Nat) (st : ScrubState) (fl : BlockFlags)
    (hj : j < st.buffer.length) (st1 : ScrubState) (fl1 : BlockFlags)
    (h : scrub_slot env i j st fl = .next st1 fl1) :
    (∀ k, k ≠ j → st1.buffer[k]? = st.buffer[k]?) ∧
    (slot_io_error env i j = false → st1.buffer[j]? = some (stripe_slot env i j)) ∧
    fl1.error_on_this_block = (fl.error_on_this_block || slot_io_error env i j) ∧
    fl1.silent_error_on_this_block = (fl.silent_error_on_this_block || slot_hash_error env i j) := by
  unfold scrub_slot at h
  simp only [] at h
  split_ifs at h with h1 h2 h3 h4
  · cases h
    refine ⟨?_, ?_, ?_, ?_⟩
    · intro k hk; simp [memset_zero, List.getElem?_set_ne (Ne.symm hk)]
    · intro _; simp [memset_zero, stripe_slot, slot_active, h1, hj]
    · simp [slot_io_error, slot_active, h1]
    · simp [slot_hash_error, slot_active, h1]
  · cases h
    refine ⟨?_, ?_, ?_, ?_⟩
    · intro k hk; simp [memset_zero, List.getElem?_set_ne (Ne.symm hk)]
    · intro _; simp [memset_zero, stripe_slot, slot_active, h2, hj]
    · simp [slot_io_error, slot_active, h2]
    · simp [slot_hash_error, slot_active, h2]
  · obtain ⟨-, -, a3, a4, a5, a6⟩ := slot_open_spec env i j (env.disk_block_get j i)
      (emit { st with handle_file := fun k => if k = j then none else st.handle_file k }
        (.handle_close i j)) fl (by simpa [emit] using hj)
    have hd : env.disk j = true := by simpa using h1
    have hf : (env.disk_block_get j i).file.isSome = true := by
      cases hx : (env.disk_block_get j i).file.isSome
      · exact absurd hx h2
      · rfl
    cases h
    refine ⟨?_, ?_, ?_, ?_⟩
    · intro k hk; rw [a3 k hk]; simp [emit]
    · intro hio
      have : env.handle_open_ret i j ≠ -1 := by
        intro hc; simp [slot_io_error, slot_active, hd, hf, hc] at hio
      rw [a4 this]; simp [stripe_slot, slot_active, hd, hf]
    · rw [a5]; simp [slot_io_error, slot_active, hd, hf]
    · rw [a6]; simp [slot_hash_error, slot_io_error, slot_hash_mismatch, slot_active, hd, hf]
  · obtain ⟨-, -, a3, a4, a5, a6⟩ := slot_open_spec env i j (env.disk_block_get j i) st fl hj
    have hd : env.disk j = true := by simpa using h1
    have hf : (env.disk_block_get j i).file.isSome = true := by
      cases hx : (env.disk_block_get j i).file.isSome
      · exact absurd hx h2
      · rfl
    cases h
    refine ⟨?_, ?_, ?_, ?_⟩
    · intro k hk; rw [a3 k hk]
    · intro hio
      have : env.handle_open_ret i j ≠ -1 := by
        intro hc; simp [slot_io_error, slot_active, hd, hf, hc] at hio
      rw [a4 this]; simp [stripe_slot, slot_active, hd, hf]
    · rw [a5]; simp [slot_io_error, slot_active, hd, hf]
    · rw [a6]; simp [slot_hash_error, slot_io_error, slot_hash_mismatch, slot_active, hd, hf]

theorem scrub_slot_next_state (env : ScrubEnv) (i j : Nat) (st : ScrubState) (fl : BlockFlags)
    (hj : j < st.buffer.length) (st1 : ScrubState) (fl1 : BlockFlags)
    (h : scrub_slot env i j st fl = .next st1 fl1) :
    SameStore st st1 ∧ TraceExt (Event.is_slot_event i) st st1 := by
  have := scrub_slot_state env i j st fl hj
  rw [h] at this
  exact this

theorem scrub_slots_state (env : ScrubEnv) (i : Nat) :
    ∀ (n j : Nat) (st : ScrubState) (fl : BlockFlags), j + n ≤ st.buffer.length →
      SameStore st (scrub_slots env i n j st fl).state ∧
      TraceExt (Event.is_slot_event i) st (scrub_slots env i n j st fl).state := by
  intro n
  induction n with
  | zero =>
    intro j st fl _
    exact ⟨sameStore_refl st, traceExt_refl _ st⟩
  | succ n ih =>
    intro j st fl hlen
    have hj : j < st.buffer.length := by omega
    unfold scrub_slots
    cases hs : scrub_slot env i j st fl with
    | bail st1 =>
      have := scrub_slot_state env i j st fl hj
      rw [hs] at this
      simpa [SlotResult.state] using this
    | next st1 fl1 =>
      obtain ⟨a1, a2⟩ := scrub_slot_next_state env i j st fl hj st1 fl1 hs
      have hlen1 : j + 1 + n ≤ st1.buffer.length := by rw [a1.2.2.2.2.2]; omega
      obtain ⟨b1, b2⟩ := ih (j + 1) st1 fl1 hlen1
      exact ⟨sameStore_trans a1 b1, traceExt_trans a2 b2⟩

theorem scrub_slots_next (env : ScrubEnv) (i : Nat) :
    ∀ (n j : Nat) (st : ScrubState) (fl : BlockFlags), j + n ≤ st.buffer.length →
      ∀ (st1 : ScrubState) (fl1 : BlockFlags), scrub_slots env i n j st fl = .next st1 fl1 →
      (∀ k, k < j ∨ j + n ≤ k → st1.buffer[k]? = st.buffer[k]?) ∧
      (∀ k, j ≤ k → k < j + n → slot_io_error env i k = false →
        st1.buffer[k]? = some (stripe_slot env i k)) ∧
      fl1.error_on_this_block =
        (fl.error_on_this_block || (List.range' j n).any (slot_io_error env i)) ∧
      fl1.silent_error_on_this_block =
        (fl.silent_error_on_this_block || (List.range' j n).any (slot_hash_error env i)) := by
  intro n
  induction n with
  | zero =>
    intro j st fl _ st1 fl1 h
    simp only [scrub_slots, SlotResult.next.injEq] at h
    obtain ⟨rfl, rfl⟩ := h
    refine ⟨fun _ _ => rfl, ?_, by simp, by simp⟩
    intro k h1 h2
    omega
  | succ n ih =>
    intro j st fl hlen st2 fl2 h
    have hj : j < st.buffer.length := by omega
    unfold scrub_slots at h
    cases hs : scrub_slot env i j st fl with
    | bail st1 => rw [hs] at h; simp at h
    | next st1 fl1 =>
      rw [hs] at h
      simp only [] at h
      obtain ⟨a1, -⟩ := scrub_slot_next_state env i j st fl hj st1 fl1 hs
      obtain ⟨c1, c2, c3, c4⟩ := scrub_slot_next env i j st fl hj st1 fl1 hs
      have hlen1 : j + 1 + n ≤ st1.buffer.length := by rw [a1.2.2.2.2.2]; omega
      obtain ⟨d1, d2, d3, d4⟩ := ih (j + 1) st1 fl1 hlen1 st2 fl2 h
      refine ⟨?_, ?_, ?_, ?_⟩
      · intro k hk
        rw [d1 k (by omega), c1 k (by omega)]
      · intro k hk1 hk2 hio
        by_cases hkj : k = j
        · subst hkj
          rw [d1 k (by omega), c2 hio]
        · exact d2 k (by omega) (by omega) hio
      · rw [d3, c3, List.range'_succ, List.any_cons, Bool.or_assoc]
      · rw [d4, c4, List.range'_succ, List.any_cons, Bool.or_assoc]

theorem scrub_slots_all (env : ScrubEnv) (i : Nat) (st : ScrubState)
    (hlen : env.diskmax ≤ st.buffer.length) (st1 : ScrubState) (fl1 : BlockFlags)
    (h : scrub_slots env i env.diskmax 0 st ⟨false, false⟩ = .next st1 fl1) :
    SameStore st st1 ∧ TraceExt (Event.is_slot_event i) st st1 ∧
    fl1.error_on_this_block = data_io_error env i ∧
    fl1.silent_error_on_this_block = data_hash_error env i ∧
    (data_io_error env i = false → st1.buffer.take env.diskmax = stripe env i) := by
  have hs := scrub_slots_state env i env.diskmax 0 st ⟨false, false⟩ (by omega)
  rw [h] at hs
  obtain ⟨a1, a2, a3, a4⟩ := scrub_slots_next env i env.diskmax 0 st ⟨false, false⟩ (by omega) st1 fl1 h
  refine ⟨hs.1, hs.2, ?_, ?_, ?_⟩
  · rw [a3]; simp [data_io_error, List.range_eq_range']
  · rw [a4]; simp [data_hash_error, List.range_eq_range']
  · intro hio
    apply List.ext_getElem?
    intro k
    by_cases hk : k < env.diskmax
    · have hnio : slot_io_error env i k = false := by
        simp only [data_io_error, List.any_eq_false] at hio
        simpa using hio k (List.mem_range.mpr hk)
      rw [List.getElem?_take_of_lt hk, a2 k (by omega) (by omega) hnio]
      simp [stripe, hk]
    · have h1 : (List.take env.diskmax st1.buffer).length ≤ k := by
        rw [List.length_take]; omega
      have h2 : (stripe env i).length ≤ k := by simp [stripe]; omega
      rw [List.getElem?_eq_none h1, List.getElem?_eq_none h2]

theorem take_set_ge {α : Type} (l : List α) (n k : Nat) (v : α) (h : n ≤ k) :
    (l.set k v).take n = l.take n := by
  apply List.ext_getElem?
  intro m
  by_cases hm : m < n
  · rw [List.getElem?_take_of_lt hm, List.getElem?_take_of_lt hm,
      List.getElem?_set_ne (by omega)]
  · rw [List.getElem?_eq_none (by rw [List.length_take, List.length_set]; omega),
      List.getElem?_eq_none (by rw [List.length_take]; omega)]

theorem parity_read_p_spec (env : ScrubEnv) (i buf : Nat) (st : ScrubState) (fl : BlockFlags) :
    SameStore st (parity_read_p env i buf st fl).1 ∧
    TraceExt (Event.is_parity_event i) st (parity_read_p env i buf st fl).1 ∧
    (parity_read_p env i buf st fl).1.buffer = st.buffer.set buf (env.parity_read_data i) ∧
    (parity_read_p env i buf st fl).2.1.error_on_this_block =
      (fl.error_on_this_block || decide (env.parity_read_ret i = -1)) ∧
    (parity_read_p env i buf st fl).2.1.silent_error_on_this_block =
      fl.silent_error_on_this_block ∧
    (parity_read_p env i buf st fl).2.2 =
      if env.parity_read_ret i = -1 then none else some buf := by
  unfold parity_read_p
  by_cases hr : env.parity_read_ret i = -1
  · simp [SameStore, TraceExt, emit, inc_error, Event.is_parity_event, hr]
  · simp [SameStore, TraceExt, emit, Event.is_parity_event, hr]

theorem parity_read_q_spec (env : ScrubEnv) (i : Nat) (bq : Option Nat) (st : ScrubState)
    (fl : BlockFlags) :
    SameStore st (parity_read_q env i bq st fl).1 ∧
    TraceExt (Event.is_parity_event i) st (parity_read_q env i bq st fl).1 ∧
    (parity_read_q env i bq st fl).1.buffer =
      (if 2 ≤ env.level then
        match bq with
        | some b => st.buffer.set b (env.qarity_read_data i)
        | none => st.buffer
      else st.buffer) ∧
    (parity_read_q env i bq st fl).2.1.error_on_this_block =
      (fl.error_on_this_block || (decide (2 ≤ env.level) && decide (env.qarity_read_ret i = -1))) ∧
    (parity_read_q env i bq st fl).2.1.silent_error_on_this_block =
      fl.silent_error_on_this_block ∧
    (parity_read_q env i bq st fl).2.2 =
      if 2 ≤ env.level ∧ env.qarity_read_ret i = -1 then none else bq := by
  unfold parity_read_q
  by_cases hl : 2 ≤ env.level
  · by_cases hr : env.qarity_read_ret i = -1
    · cases bq <;> simp [SameStore, TraceExt, emit, inc_error, Event.is_parity_event, hr, hl]
    · cases bq <;> simp [SameStore, TraceExt, emit, Event.is_parity_event, hr, hl]
  · simp [SameStore, TraceExt, hl]

theorem parity_cmp_p_spec (env : ScrubEnv) (i : Nat) (bp : Option Nat) (st : ScrubState)
    (fl : BlockFlags) :
    SameStore st (parity_cmp_p env i bp st fl).1 ∧
    TraceExt (Event.is_parity_event i) st (parity_cmp_p env i bp st fl).1 ∧
    (parity_cmp_p env i bp st fl).1.buffer = st.buffer ∧
    (parity_cmp_p env i bp st fl).2.error_on_this_block = fl.error_on_this_block ∧
    (parity_cmp_p env i bp st fl).2.silent_error_on_this_block =
      (fl.silent_error_on_this_block ||
        match bp with
        | some b =>
          memcmp_ne (st.buffer.getD env.diskmax []) (st.buffer.getD b []) env.block_size
        | none => false) := by
  unfold parity_cmp_p
  cases bp with
  | none => simp [SameStore, TraceExt]
  | some b =>
    simp only []
    split_ifs with hm
    · refine ⟨?_, ?_, ?_, ?_, ?_⟩
      · simp [SameStore, emit, inc_error]
      · simp [TraceExt, emit, inc_error, Event.is_parity_event]
      · simp [emit, inc_error]
      · simp
      · rw [hm]; simp
    · refine ⟨sameStore_refl st, traceExt_refl _ st, rfl, rfl, ?_⟩
      rw [Bool.not_eq_true] at hm; rw [hm]; simp

theorem parity_cmp_q_spec (env : ScrubEnv) (i : Nat) (bq : Option Nat) (st : ScrubState)
    (fl : BlockFlags) :
    SameStore st (parity_cmp_q env i bq st fl).1 ∧
    TraceExt (Event.is_parity_event i) st (parity_cmp_q env i bq st fl).1 ∧
    (parity_cmp_q env i bq st fl).1.buffer = st.buffer ∧
    (parity_cmp_q env i bq st fl).2.error_on_this_block = fl.error_on_this_block ∧
    (parity_cmp_q env i bq st fl).2.silent_error_on_this_block =
      (fl.silent_error_on_this_block || (decide (2 ≤ env.level) &&
        match bq with
        | some b =>
          memcmp_ne (st.buffer.getD (env.diskmax + 1) []) (st.buffer.getD b []) env.block_size
        | none => false)) := by
  unfold parity_cmp_q
  by_cases hl : 2 ≤ env.level
  · cases bq with
    | none => simp [SameStore, TraceExt, hl]
    | some b =>
      simp only [hl, if_true]
      split_ifs with hm
      · refine ⟨?_, ?_, ?_, ?_, ?_⟩
        · simp [SameStore, emit, inc_error]
        · simp [TraceExt, emit, inc_error, Event.is_parity_event]
        · simp [emit, inc_error]
        · simp
        · rw [hm]; simp
      · refine ⟨sameStore_refl st, traceExt_refl _ st, rfl, rfl, ?_⟩
        rw [Bool.not_eq_true] at hm; rw [hm]; simp
  · simp [SameStore, TraceExt, hl]

theorem raid_gen_length (env : ScrubEnv) (b : List (List Nat)) :
    (raid_gen env b).length = b.length := by
  unfold raid_gen
  simp only []
  split_ifs <;> simp

theorem scrub_parity_store (env : ScrubEnv) (i : Nat) (st : ScrubState) (fl : BlockFlags) :
    SameStore st (scrub_parity env i st fl).1 ∧
    TraceExt (Event.is_parity_event i) st (scrub_parity env i st fl).1 := by
  unfold scrub_parity
  simp only []
  generalize (if env.level = 1 then env.diskmax + 1 else env.diskmax + 2) = bufp
  generalize (if env.level = 1 then none else some (env.diskmax + 3)) = bufq
  obtain ⟨p1, p2, -⟩ := parity_read_p_spec env i bufp st fl
  generalize parity_read_p env i bufp st fl = rp at p1 p2 ⊢
  obtain ⟨q1, q2, -⟩ := parity_read_q_spec env i bufq rp.1 rp.2.1
  generalize parity_read_q env i bufq rp.1 rp.2.1 = rq at q1 q2 ⊢
  have g1 : SameStore rq.1 (emit { rq.1 with buffer := raid_gen env rq.1.buffer } (.raid_gen i)) := by
    simp [SameStore, emit, raid_gen_length]
  have g2 : TraceExt (Event.is_parity_event i) rq.1
      (emit { rq.1 with buffer := raid_gen env rq.1.buffer } (.raid_gen i)) := by
    simp [TraceExt, emit, Event.is_parity_event]
  generalize (emit { rq.1 with buffer := raid_gen env rq.1.buffer } (.raid_gen i)) = st3 at g1 g2 ⊢
  obtain ⟨c1, c2, -⟩ := parity_cmp_p_spec env i rp.2.2 st3 rq.2.1
  generalize parity_cmp_p env i rp.2.2 st3 rq.2.1 = cp at c1 c2 ⊢
  obtain ⟨d1, d2, -⟩ := parity_cmp_q_spec env i rq.2.2 cp.1 cp.2
  exact ⟨sameStore_trans p1 (sameStore_trans q1 (sameStore_trans g1 (sameStore_trans c1 d1))),
    traceExt_trans p2 (traceExt_trans q2 (traceExt_trans g2 (traceExt_trans c2 d2)))⟩

theorem scrub_parity_flags (env : ScrubEnv) (i : Nat) (st : ScrubState) (fl : BlockFlags)
    (hl : env.level = 1 ∨ env.level = 2)
    (hlen : st.buffer.length = env.diskmax + env.level * 2)
    (hdata : st.buffer.take env.diskmax = stripe env i) :
    (scrub_parity env i st fl).2.error_on_this_block =
      (fl.error_on_this_block || parity_io_error env i) ∧
    (scrub_parity env i st fl).2.silent_error_on_this_block =
      (fl.silent_error_on_this_block || parity_silent_error env i) := by
  unfold scrub_parity
  simp only []
  obtain ⟨-, -, p3, p4, p5, p6⟩ := parity_read_p_spec env i
    (if env.level = 1 then env.diskmax + 1 else env.diskmax + 2) st fl
  generalize parity_read_p env i (if env.level = 1 then env.diskmax + 1 else env.diskmax + 2)
    st fl = rp at p3 p4 p5 p6 ⊢
  obtain ⟨-, -, q3, q4, q5, q6⟩ := parity_read_q_spec env i
    (if env.level = 1 then none else some (env.diskmax + 3)) rp.1 rp.2.1
  generalize parity_read_q env i (if env.level = 1 then none else some (env.diskmax + 3))
    rp.1 rp.2.1 = rq at q3 q4 q5 q6 ⊢
  obtain ⟨-, -, c3, c4, c5⟩ := parity_cmp_p_spec env i rp.2.2
    (emit { rq.1 with buffer := raid_gen env rq.1.buffer } (.raid_gen i)) rq.2.1
  generalize parity_cmp_p env i rp.2.2
    (emit { rq.1 with buffer := raid_gen env rq.1.buffer } (.raid_gen i)) rq.2.1 = cp at c3 c4 c5 ⊢
  obtain ⟨-, -, -, d4, d5⟩ := parity_cmp_q_spec env i rq.2.2 cp.1 cp.2
  rw [d4, d5, c4, c5, q4, q5, p4, p5, c3, p6, q6]
  simp only [emit, q3, p3]
  rcases hl with hl | hl
  · have hd : (List.take env.diskmax (st.buffer.set (env.diskmax + 1) (env.parity_read_data i)))
        = stripe env i := by rw [take_set_ge _ _ _ _ (by omega), hdata]
    have h1 : env.diskmax < st.buffer.length := by omega
    have h2 : env.diskmax + 1 < st.buffer.length := by omega
    by_cases hr : env.parity_read_ret i = -1
    · simp [hl, hr, parity_io_error, parity_silent_error]
    · simp [hl, hr, parity_io_error, parity_silent_error, parity_mismatch, raid_gen, hd, h1, h2]
  · have hd : (List.take env.diskmax ((st.buffer.set (env.diskmax + 2)
        (env.parity_read_data i)).set (env.diskmax + 3) (env.qarity_read_data i)))
        = stripe env i := by
      rw [take_set_ge _ _ _ _ (by omega), take_set_ge _ _ _ _ (by omega), hdata]
    have h1 : env.diskmax < st.buffer.length := by omega
    have h2 : env.diskmax + 1 < st.buffer.length := by omega
    have h3 : env.diskmax + 2 < st.buffer.length := by omega
    have h4 : env.diskmax + 3 < st.buffer.length := by omega
    by_cases hr : env.parity_read_ret i = -1 <;> by_cases hq : env.qarity_read_ret i = -1
    · simp [hl, hr, hq, parity_io_error, parity_silent_error]
    · simp [hl, hr, hq, parity_io_error, parity_silent_error, qarity_mismatch, raid_gen, hd,
        h1, h2, h3, h4, List.getElem?_set]
    · simp [hl, hr, hq, parity_io_error, parity_silent_error, parity_mismatch, raid_gen, hd,
        h1, h2, h3, h4, List.getElem?_set]
    · simp [hl, hr, hq, parity_io_error, parity_silent_error, parity_mismatch, qarity_mismatch,
        raid_gen, hd, h1, h2, h3, h4, List.getElem?_set, Bool.or_assoc]

theorem slot_event_block (i : Nat) (e : Event) (h : Event.is_slot_event i e = true) :
    Event.is_block_event i e = true := by
  simp [Event.is_block_event, h]

theorem parity_event_block (i : Nat) (e : Event) (h : Event.is_parity_event i e = true) :
    Event.is_block_event i e = true := by
  simp [Event.is_block_event, h]

theorem slot_event_not_progress (i k : Nat) (e : Event) (h : Event.is_slot_event i e = true) :
    Event.is_progress_at k e = false := by
  cases e <;> simp_all [Event.is_slot_event, Event.is_progress_at]

theorem block_event_progress (i k : Nat) (e : Event) (h : Event.is_block_event i e = true)
    (hp : Event.is_progress_at k e = true) : k = i := by
  cases e <;> simp_all [Event.is_block_event, Event.is_slot_event, Event.is_parity_event,
    Event.is_progress_at]

theorem processed_ext {p : Event → Bool} {st st1 : ScrubState} (i : Nat)
    (h : TraceExt p st st1) (hp : ∀ e, p e = true → Event.is_progress_at i e = false) :
    processed st1.trace i = processed st.trace i := by
  obtain ⟨evs, h1, h2⟩ := h
  have : evs.any (Event.is_progress_at i) = false := by
    rw [List.any_eq_false]
    intro e he
    simp [hp e (h2 e he)]
  simp [processed, h1, List.any_append, this]

theorem scrub_classify_spec (now : Int) (i : Nat) (st : ScrubState) (fl : BlockFlags) :
    (scrub_classify now i st fl).infoarr i =
      class_info now fl.error_on_this_block fl.silent_error_on_this_block (st.infoarr i) ∧
    (∀ k, k ≠ i → (scrub_classify now i st fl).infoarr k = st.infoarr k) ∧
    (scrub_classify now i st fl).need_write = 1 ∧
    (scrub_classify now i st fl).countpos = st.countpos ∧
    (scrub_classify now i st fl).autosavedone = st.autosavedone ∧
    (scrub_classify now i st fl).autosavemissing = st.autosavemissing ∧
    (scrub_classify now i st fl).buffer = st.buffer ∧
    TraceExt (Event.is_block_event i) st (scrub_classify now i st fl) := by
  unfold scrub_classify
  cases h1 : fl.error_on_this_block <;> cases h2 : fl.silent_error_on_this_block <;>
    simp [class_info, emit, info_set, info_get, TraceExt, Event.is_block_event,
      Event.is_slot_event, Event.is_parity_event] <;>
    intro k hk <;> simp [hk]

theorem scrub_progress_spec (env : ScrubEnv) (countmax al i : Nat) (st : ScrubState) :
    (scrub_progress env countmax al i st).state.infoarr = st.infoarr ∧
    ((scrub_progress env countmax al i st).state.need_write = st.need_write ∨
      (scrub_progress env countmax al i st).state.need_write
        = env.state_write_need_write st.need_write) ∧
    (scrub_progress env countmax al i st).state.countpos = st.countpos + 1 ∧
    (scrub_progress env countmax al i st).state.buffer = st.buffer ∧
    TraceExt (Event.is_block_event i) st (scrub_progress env countmax al i st).state ∧
    processed (scrub_progress env countmax al i st).state.trace i = true ∧
    (scrub_progress env countmax al i st).is_bail = false := by
  unfold scrub_progress
  simp only []
  split_ifs <;>
    simp [BlockResult.state, BlockResult.is_bail, emit, state_write, TraceExt,
      Event.is_block_event, Event.is_slot_event, Event.is_parity_event, processed,
      Event.is_progress_at]

theorem scrub_block_skip (env : ScrubEnv) (timelimit now : Int) (countmax al i : Nat)
    (st : ScrubState) (h : eligible st.infoarr timelimit i = false) :
    scrub_block env timelimit now countmax al i st = .next st := by
  unfold scrub_block
  simp only []
  by_cases h0 : info_get st.infoarr i = info_zero
  · simp [h0]
  · have : info_get_time (info_get st.infoarr i) > timelimit := by
      simp [eligible, h0] at h
      exact h
    simp [h0, this]

theorem scrub_block_run (env : ScrubEnv) (timelimit now : Int) (countmax al i : Nat)
    (st : ScrubState) (h : eligible st.infoarr timelimit i = true)
    (hlen : st.buffer.length = env.diskmax + env.level * 2) :
    (∀ k, k ≠ i → (scrub_block env timelimit now countmax al i st).state.infoarr k
      = st.infoarr k) ∧
    (scrub_block env timelimit now countmax al i st).state.buffer.length = st.buffer.length ∧
    TraceExt (Event.is_block_event i) st (scrub_block env timelimit now countmax al i st).state ∧
    ((scrub_block env timelimit now countmax al i st).is_bail = true →
      (scrub_block env timelimit now countmax al i st).state.infoarr = st.infoarr ∧
      (scrub_block env timelimit now countmax al i st).state.need_write = st.need_write ∧
      (scrub_block env timelimit now countmax al i st).state.countpos = st.countpos ∧
      TraceExt (Event.is_slot_event i) st
        (scrub_block env timelimit now countmax al i st).state) ∧
    ((scrub_block env timelimit now countmax al i st).is_bail = false →
      (∃ fl : BlockFlags,
        (scrub_block env timelimit now countmax al i st).state.infoarr i =
          class_info now fl.error_on_this_block fl.silent_error_on_this_block (st.infoarr i) ∧
        (env.level = 1 ∨ env.level = 2 →
          fl.error_on_this_block = block_io_error env i ∧
          fl.silent_error_on_this_block = block_silent_error env i)) ∧
      ((scrub_block env timelimit now countmax al i st).state.need_write = 1 ∨
        (scrub_block env timelimit now countmax al i st).state.need_write
          = env.state_write_need_write 1) ∧
      (scrub_block env timelimit now countmax al i st).state.countpos = st.countpos + 1 ∧
      processed (scrub_block env timelimit now countmax al i st).state.trace i = true) := by
  have h0 : info_get st.infoarr i ≠ info_zero := by
    simp [eligible] at h; exact h.1
  have h1 : ¬ info_get_time (info_get st.infoarr i) > timelimit := by
    simp [eligible] at h; exact not_lt.mpr h.2
  unfold scrub_block
  simp only [h0, h1, if_false]
  obtain ⟨st1, hst1⟩ : ∃ st1 : ScrubState, st1 =
      { st with autosavedone := st.autosavedone + 1
                autosavemissing := (st.autosavemissing + (2 ^ 32 - 1)) % 2 ^ 32 } := ⟨_, rfl⟩
  rw [← hst1]
  have e1 : st1.infoarr = st.infoarr := by rw [hst1]
  have e2 : st1.buffer = st.buffer := by rw [hst1]
  have e3 : st1.trace = st.trace := by rw [hst1]
  have e4 : st1.need_write = st.need_write := by rw [hst1]
  have e5 : st1.countpos = st.countpos := by rw [hst1]
  have t01 : ∀ p, TraceExt p st st1 := fun p => ⟨[], by simp [e3], by simp⟩
  have hlen1 : env.diskmax ≤ st1.buffer.length := by rw [e2]; omega
  cases hs : scrub_slots env i env.diskmax 0 st1 ⟨false, false⟩ with
  | bail st2 =>
    have hb := scrub_slots_state env i env.diskmax 0 st1 ⟨false, false⟩ (by omega)
    rw [hs] at hb
    obtain ⟨b1, b2⟩ := hb
    simp only [SlotResult.state] at b1 b2
    obtain ⟨s1, s2, s3, -, -, s6⟩ := b1
    refine ⟨?_, ?_, ?_, ?_, ?_⟩
    · intro k _; simp [BlockResult.state, s1, e1]
    · simp [BlockResult.state, s6, e2]
    · exact traceExt_trans (t01 _) (traceExt_mono (slot_event_block i) b2)
    · intro _
      exact ⟨by simp [BlockResult.state, s1, e1], by simp [BlockResult.state, s2, e4],
        by simp [BlockResult.state, s3, e5], traceExt_trans (t01 _) b2⟩
    · intro hc; simp [BlockResult.is_bail] at hc
  | next st2 fl2 =>
    obtain ⟨b1, b2, b3, b4, b5⟩ := scrub_slots_all env i st1 hlen1 st2 fl2 hs
    obtain ⟨s1, s2, s3, -, -, s6⟩ := b1
    simp only []
    -- the state and the flags after the parity pass, if any
    obtain ⟨st3, fl3, hr, r1, r2, r3, r4, r5, r6⟩ :
        ∃ st3 fl3, (if fl2.error_on_this_block = false ∧ fl2.silent_error_on_this_block = false
          then scrub_parity env i st2 fl2 else (st2, fl2)) = (st3, fl3) ∧
          st3.infoarr = st2.infoarr ∧ st3.need_write = st2.need_write ∧
          st3.countpos = st2.countpos ∧ st3.buffer.length = st2.buffer.length ∧
          TraceExt (Event.is_block_event i) st2 st3 ∧
          (env.level = 1 ∨ env.level = 2 →
            fl3.error_on_this_block = block_io_error env i ∧
            fl3.silent_error_on_this_block = block_silent_error env i) := by
      by_cases hf : fl2.error_on_this_block = false ∧ fl2.silent_error_on_this_block = false
      · have hio : data_io_error env i = false := by rw [← b3]; exact hf.1
        have hha : data_hash_error env i = false := by rw [← b4]; exact hf.2
        obtain ⟨p1, p2⟩ := scrub_parity_store env i st2 fl2
        refine ⟨(scrub_parity env i st2 fl2).1, (scrub_parity env i st2 fl2).2, by simp [hf],
          p1.1, p1.2.1, p1.2.2.1, p1.2.2.2.2.2, traceExt_mono (parity_event_block i) p2, ?_⟩
        intro hl
        obtain ⟨p3, p4⟩ := scrub_parity_flags env i st2 fl2 hl (by rw [s6, e2, hlen]) (b5 hio)
        refine ⟨?_, ?_⟩
        · rw [p3, hf.1]; simp [block_io_error, hio, hha]
        · rw [p4, hf.2]; simp [block_silent_error, hio, hha]
      · refine ⟨st2, fl2, by simp [hf], rfl, rfl, rfl, rfl, traceExt_refl _ _, fun _ => ⟨?_, ?_⟩⟩
        · rw [b3]
          cases hio : data_io_error env i
          · have hha : data_hash_error env i = true := by
              rw [← b4]
              cases hx : fl2.silent_error_on_this_block
              · exact absurd ⟨by rw [b3, hio], hx⟩ hf
              · rfl
            simp [block_io_error, hio, hha]
          · simp [block_io_error, hio]
        · rw [b4]
          cases hha : data_hash_error env i
          · have hio : data_io_error env i = true := by
              rw [← b3]
              cases hx : fl2.error_on_this_block
              · exact absurd ⟨hx, by rw [b4, hha]⟩ hf
              · rfl
            simp [block_silent_error, hio, hha]
          · simp [block_silent_error, hha]
    rw [hr]
    simp only []
    obtain ⟨c1, c2, c3, c4, -, -, c7, c8⟩ := scrub_classify_spec now i st3 fl3
    obtain ⟨d1, d2, d3, d4, d5, d6, d7⟩ :=
      scrub_progress_spec env countmax al i (scrub_classify now i st3 fl3)
    refine ⟨?_, ?_, ?_, ?_, ?_⟩
    · intro k hk; rw [d1, c2 k hk, r1, s1, e1]
    · rw [d4, c7, r4, s6, e2]
    · exact traceExt_trans (t01 _) (traceExt_trans (traceExt_mono (slot_event_block i) b2)
        (traceExt_trans r5 (traceExt_trans c8 d5)))
    · intro hc; rw [d7] at hc; simp at hc
    · intro _
      refine ⟨⟨fl3, ?_, r6⟩, ?_, ?_, d6⟩
      · rw [d1, c1, r1, s1, e1]
      · rw [c3] at d2
        exact d2
      · rw [d3, c4, r3, s3, e5]

theorem eligible_congr (a b : Nat → snapraid_info) (tl : Int) (i : Nat) (h : a i = b i) :
    eligible a tl i = eligible b tl i := by
  simp [eligible, info_get, h]

theorem scrub_block_processed (env : ScrubEnv) (timelimit now : Int) (countmax al i : Nat)
    (st : ScrubState) (h : eligible st.infoarr timelimit i = true)
    (hlen : st.buffer.length = env.diskmax + env.level * 2) (k : Nat) (hk : k ≠ i) :
    processed (scrub_block env timelimit now countmax al i st).state.trace k
      = processed st.trace k := by
  obtain ⟨-, -, a3, -⟩ := scrub_block_run env timelimit now countmax al i st h hlen
  apply processed_ext k a3
  intro e he
  cases hp : Event.is_progress_at k e
  · rfl
  · exact absurd (block_event_progress i k e he hp) hk

theorem scrub_loop_spec (env : ScrubEnv) (timelimit now : Int) (countmax al : Nat) :
    ∀ (n i0 : Nat) (st : ScrubState), st.buffer.length = env.diskmax + env.level * 2 →
      (∀ i, i < i0 ∨ i0 + n ≤ i →
        (scrub_loop env timelimit now countmax al n i0 st).state.infoarr i = st.infoarr i ∧
        processed (scrub_loop env timelimit now countmax al n i0 st).state.trace i
          = processed st.trace i) ∧
      (∀ i, i0 ≤ i → i < i0 + n → processed st.trace i = false →
        (processed (scrub_loop env timelimit now countmax al n i0 st).state.trace i = true →
          eligible st.infoarr timelimit i = true ∧
          ∃ fl : BlockFlags,
            (scrub_loop env timelimit now countmax al n i0 st).state.infoarr i =
              class_info now fl.error_on_this_block fl.silent_error_on_this_block
                (st.infoarr i) ∧
            (env.level = 1 ∨ env.level = 2 →
              fl.error_on_this_block = block_io_error env i ∧
              fl.silent_error_on_this_block = block_silent_error env i)) ∧
        (processed (scrub_loop env timelimit now countmax al n i0 st).state.trace i = false →
          (scrub_loop env timelimit now countmax al n i0 st).state.infoarr i = st.infoarr i)) := by
  intro n
  induction n with
  | zero =>
    intro i0 st _
    refine ⟨fun i _ => ⟨rfl, rfl⟩, ?_⟩
    intro i h1 h2
    omega
  | succ n ih =>
    intro i0 st hlen
    by_cases helig : eligible st.infoarr timelimit i0 = true
    · obtain ⟨a1, a2, a3, a4, a5⟩ :=
        scrub_block_run env timelimit now countmax al i0 st helig hlen
      have hpr := scrub_block_processed env timelimit now countmax al i0 st helig hlen
      unfold scrub_loop
      cases hR : scrub_block env timelimit now countmax al i0 st with
      | bail st1 =>
        rw [hR] at a1 a2 a3 a4 a5 hpr
        simp only [BlockResult.state, BlockResult.is_bail] at a1 a2 a3 a4 a5 hpr
        obtain ⟨b1, -, -, b4⟩ := a4 trivial
        have hsame : ∀ i, processed st1.trace i = processed st.trace i := fun i =>
          processed_ext i b4 (fun e he => slot_event_not_progress i0 i e he)
        simp only [LoopResult.state]
        refine ⟨fun i _ => ⟨by rw [b1], hsame i⟩, ?_⟩
        intro i _ _ hnp
        refine ⟨?_, fun _ => by rw [b1]⟩
        intro hc
        rw [hsame i, hnp] at hc
        exact absurd hc (by simp)
      | stop st1 =>
        rw [hR] at a1 a2 a3 a4 a5 hpr
        simp only [BlockResult.state, BlockResult.is_bail] at a1 a2 a3 a4 a5 hpr
        obtain ⟨c1, -, -, c4⟩ := a5 trivial
        simp only [LoopResult.state]
        refine ⟨fun i hi => ⟨a1 i (by omega), hpr i (by omega)⟩, ?_⟩
        intro i h1 h2 hnp
        by_cases hi : i = i0
        · subst hi
          obtain ⟨fl, c1a, c1b⟩ := c1
          refine ⟨fun _ => ⟨helig, fl, c1a, c1b⟩, ?_⟩
          intro hc
          rw [c4] at hc
          exact absurd hc (by simp)
        · refine ⟨?_, fun _ => a1 i hi⟩
          intro hc
          rw [hpr i hi, hnp] at hc
          exact absurd hc (by simp)
      | next st1 =>
        rw [hR] at a1 a2 a3 a4 a5 hpr
        simp only [BlockResult.state, BlockResult.is_bail] at a1 a2 a3 a4 a5 hpr
        obtain ⟨c1, -, -, c4⟩ := a5 trivial
        obtain ⟨ihA, ihB⟩ := ih (i0 + 1) st1 (by rw [a2, hlen])
        simp only []
        refine ⟨?_, ?_⟩
        · intro i hi
          obtain ⟨x1, x2⟩ := ihA i (by omega)
          exact ⟨by rw [x1, a1 i (by omega)], by rw [x2, hpr i (by omega)]⟩
        · intro i h1 h2 hnp
          by_cases hi : i = i0
          · subst hi
            obtain ⟨x1, x2⟩ := ihA i (by omega)
            obtain ⟨fl, c1a, c1b⟩ := c1
            refine ⟨fun _ => ⟨helig, fl, by rw [x1, c1a], c1b⟩, ?_⟩
            intro hc
            rw [x2, c4] at hc
            exact absurd hc (by simp)
          · obtain ⟨y1, y2⟩ := ihB i (by omega) (by omega) (by rw [hpr i hi, hnp])
            refine ⟨?_, ?_⟩
            · intro hp
              obtain ⟨z1, fl, z2, z3⟩ := y1 hp
              exact ⟨by rw [← z1]; exact eligible_congr _ _ _ _ (a1 i hi).symm,
                fl, by rw [z2, a1 i hi], z3⟩
            · intro hp
              rw [y2 hp, a1 i hi]
    · have hsk := scrub_block_skip env timelimit now countmax al i0 st
        (by simpa using helig)
      obtain ⟨ihA, ihB⟩ := ih (i0 + 1) st hlen
      unfold scrub_loop
      rw [hsk]
      simp only []
      refine ⟨fun i hi => ihA i (by omega), ?_⟩
      intro i h1 h2 hnp
      by_cases hi : i = i0
      · subst hi
        obtain ⟨x1, x2⟩ := ihA i (by omega)
        refine ⟨?_, fun _ => x1⟩
        intro hc
        rw [x2, hnp] at hc
        exact absurd hc (by simp)
      · exact ihB i (by omega) (by omega) hnp

theorem scrub_teardown_spec (env : ScrubEnv) :
    ∀ (n j : Nat) (st : ScrubState),
      (scrub_teardown env n j st).infoarr = st.infoarr ∧
      (scrub_teardown env n j st).need_write = st.need_write ∧
      (scrub_teardown env n j st).countpos = st.countpos ∧
      TraceExt Event.is_exit_event st (scrub_teardown env n j st) := by
  intro n
  induction n with
  | zero => intro j st; exact ⟨rfl, rfl, rfl, traceExt_refl _ _⟩
  | succ n ih =>
    intro j st
    unfold scrub_teardown
    simp only []
    split_ifs with hc
    · obtain ⟨a1, a2, a3, a4⟩ := ih (j + 1) (inc_error (emit
        { st with handle_file := fun k => if k = j then none else st.handle_file k }
        (.teardown_close j)))
      refine ⟨a1, a2, a3, traceExt_trans ?_ a4⟩
      simp [TraceExt, emit, inc_error, Event.is_exit_event]
    · obtain ⟨a1, a2, a3, a4⟩ := ih (j + 1) (emit
        { st with handle_file := fun k => if k = j then none else st.handle_file k }
        (.teardown_close j))
      refine ⟨a1, a2, a3, traceExt_trans ?_ a4⟩
      simp [TraceExt, emit, Event.is_exit_event]

theorem exit_event_not_progress (k : Nat) (e : Event) (h : Event.is_exit_event e = true) :
    Event.is_progress_at k e = false := by
  cases e <;> simp_all [Event.is_exit_event, Event.is_progress_at]

theorem process_exit (env : ScrubEnv) (infoarr : Nat → snapraid_info) (need_write : Int)
    (blockstart blockmax : Nat) (timelimit : Int) (countlimit : Nat) (now : Int) :
    (state_scrub_process env infoarr need_write blockstart blockmax timelimit countlimit now).2.infoarr
      = (scrub_loop_state env infoarr need_write blockstart blockmax timelimit countlimit now).infoarr ∧
    (state_scrub_process env infoarr need_write blockstart blockmax timelimit countlimit now).2.need_write
      = (scrub_loop_state env infoarr need_write blockstart blockmax timelimit countlimit now).need_write ∧
    (state_scrub_process env infoarr need_write blockstart blockmax timelimit countlimit now).2.countpos
      = (scrub_loop_state env infoarr need_write blockstart blockmax timelimit countlimit now).countpos ∧
    TraceExt Event.is_exit_event
      (scrub_loop_state env infoarr need_write blockstart blockmax timelimit countlimit now)
      (state_scrub_process env infoarr need_write blockstart blockmax timelimit countlimit now).2 := by
  unfold state_scrub_process scrub_loop_state scrub_countmax scrub_blocklimit
  simp only []
  generalize scrub_loop env timelimit now _ _ _ blockstart _ = R
  cases R with
  | done st =>
    simp only [LoopResult.state]
    obtain ⟨a1, a2, a3, a4⟩ := scrub_teardown_spec env env.diskmax 0
      (emit st (.state_progress_end st.countpos
        (scrub_count infoarr timelimit countlimit blockmax (blockmax - blockstart) blockstart 0).1
        st.countsize))
    refine ⟨a1, a2, a3, traceExt_trans ?_ a4⟩
    simp [TraceExt, emit, Event.is_exit_event]
  | bail st =>
    simp only [LoopResult.state]
    exact scrub_teardown_spec env env.diskmax 0 st

theorem process_spec (env : ScrubEnv) (infoarr : Nat → snapraid_info) (need_write : Int)
    (blockstart blockmax : Nat) (timelimit : Int) (countlimit : Nat) (now : Int) (i : Nat) :
    (processed (state_scrub_process env infoarr need_write blockstart blockmax timelimit
        countlimit now).2.trace i = true →
      blockstart ≤ i ∧ i < scrub_blocklimit infoarr blockstart blockmax timelimit countlimit ∧
      eligible infoarr timelimit i = true ∧
      ∃ fl : BlockFlags,
        (state_scrub_process env infoarr need_write blockstart blockmax timelimit
          countlimit now).2.infoarr i =
          class_info now fl.error_on_this_block fl.silent_error_on_this_block (infoarr i) ∧
        (env.level = 1 ∨ env.level = 2 →
          fl.error_on_this_block = block_io_error env i ∧
          fl.silent_error_on_this_block = block_silent_error env i)) ∧
    (processed (state_scrub_process env infoarr need_write blockstart blockmax timelimit
        countlimit now).2.trace i = false →
      (state_scrub_process env infoarr need_write blockstart blockmax timelimit
        countlimit now).2.infoarr i = infoarr i) := by
  obtain ⟨e1, -, -, e4⟩ := process_exit env infoarr need_write blockstart blockmax timelimit
    countlimit now
  have hp := processed_ext i e4 (exit_event_not_progress i)
  rw [hp, e1]
  unfold scrub_loop_state
  obtain ⟨A, B⟩ := scrub_loop_spec env timelimit now
    (scrub_countmax infoarr blockstart blockmax timelimit countlimit)
    (scrub_autosavelimit env)
    (scrub_blocklimit infoarr blockstart blockmax timelimit countlimit - blockstart) blockstart
    (scrub_init env infoarr need_write blockstart blockmax
      (scrub_countmax infoarr blockstart blockmax timelimit countlimit))
    (by simp [scrub_init])
  have h0 : processed (scrub_init env infoarr need_write blockstart blockmax
      (scrub_countmax infoarr blockstart blockmax timelimit countlimit)).trace i = false := by
    simp [scrub_init, processed, Event.is_progress_at]
  by_cases hin : blockstart ≤ i ∧
      i < blockstart + (scrub_blocklimit infoarr blockstart blockmax timelimit countlimit - blockstart)
  · obtain ⟨b1, b2⟩ := B i hin.1 hin.2 h0
    refine ⟨?_, ?_⟩
    · intro hpi
      obtain ⟨c1, c2⟩ := b1 hpi
      exact ⟨hin.1, by omega, c1, c2⟩
    · intro hpi
      exact b2 hpi
  · obtain ⟨a1, a2⟩ := A i (by omega)
    refine ⟨?_, fun _ => a1⟩
    intro hpi
    rw [a2, h0] at hpi
    exact absurd hpi (by simp)

theorem any_range_false (n : Nat) (p : Nat → Bool) (h : ∀ j, j < n → p j = false) :
    (List.range n).any p = false := by
  rw [List.any_eq_false]
  intro j hj
  simp [h j (List.mem_range.mp hj)]

/-- C1: a block that the run classifies (`processed`), on which no open or read fails, no
stored hash mismatches, the parity reads succeed and the generated P (and Q for level 2)
equals the on-disk value, ends with the info `info_make(now, 0)`: its time is `now` and its
error bit is 0. -/
theorem scrub_clean_block (env : ScrubEnv) (infoarr : Nat → snapraid_info) (need_write : Int)
    (blockstart blockmax : Nat) (timelimit : Int) (countlimit : Nat) (now : Int) (i : Nat)
    (hl : env.level = 1 ∨ env.level = 2)
    (hp : processed (state_scrub_process env infoarr need_write blockstart blockmax timelimit
      countlimit now).2.trace i = true)
    (hio : ∀ j, j < env.diskmax → slot_io_error env i j = false)
    (hh : ∀ j, j < env.diskmax → slot_hash_error env i j = false)
    (hpr : env.parity_read_ret i ≠ -1)
    (hqr : 2 ≤ env.level → env.qarity_read_ret i ≠ -1)
    (hpm : parity_mismatch env i = false)
    (hqm : 2 ≤ env.level → qarity_mismatch env i = false) :
    (state_scrub_process env infoarr need_write blockstart blockmax timelimit
      countlimit now).2.infoarr i = info_make now 0 ∧
    info_get_time ((state_scrub_process env infoarr need_write blockstart blockmax timelimit
      countlimit now).2.infoarr i) = now ∧
    ((state_scrub_process env infoarr need_write blockstart blockmax timelimit
      countlimit now).2.infoarr i).error = false := by
  obtain ⟨-, -, -, fl, h1, h2⟩ := (process_spec env infoarr need_write blockstart blockmax
    timelimit countlimit now i).1 hp
  obtain ⟨f1, f2⟩ := h2 hl
  have hdio : data_io_error env i = false := any_range_false _ _ hio
  have hdh : data_hash_error env i = false := any_range_false _ _ hh
  have hpio : parity_io_error env i = false := by
    by_cases h2l : 2 ≤ env.level
    · simp [parity_io_error, hpr, hqr h2l]
    · simp [parity_io_error, hpr, h2l]
  have hps : parity_silent_error env i = false := by
    by_cases h2l : 2 ≤ env.level
    · simp [parity_silent_error, hpm, hqm h2l]
    · simp [parity_silent_error, hpm, h2l]
  have e1 : fl.error_on_this_block = false := by
    rw [f1]; simp [block_io_error, hdio, hpio]
  have e2 : fl.silent_error_on_this_block = false := by
    rw [f2]; simp [block_silent_error, hdh, hps]
  rw [h1, e1, e2]
  simp [class_info, info_make, info_get_time]

set_option maxRecDepth 1000000 in
theorem scrub_clean_block_witness :
    (processed (state_scrub_process env_s1 arr_s1 0 0 10 100 10 500).2.trace 3 = true ∧
      (∀ j, j < env_s1.diskmax → slot_io_error env_s1 3 j = false) ∧
      (∀ j, j < env_s1.diskmax → slot_hash_error env_s1 3 j = false) ∧
      env_s1.parity_read_ret 3 ≠ -1 ∧ parity_mismatch env_s1 3 = false) ∧
    (state_scrub_process env_s1 arr_s1 0 0 10 100 10 500).2.infoarr 3 = info_make 500 0 ∧
    info_get_time ((state_scrub_process env_s1 arr_s1 0 0 10 100 10 500).2.infoarr 3) = 500 ∧
    ((state_scrub_process env_s1 arr_s1 0 0 10 100 10 500).2.infoarr 3).error = false :=
  ⟨by decide, scrub_clean_block env_s1 arr_s1 0 0 10 100 10 500 3 (by decide) (by decide)
    (by decide) (by decide) (by decide) (by decide) (by decide) (by decide)⟩

/-- C2: a block that the run classifies, on which no I/O error occurs but a silent error
does (a stored-hash mismatch, or a mismatch of a parity that was read), ends with the info
`info_set_error` of its pre-run info: the time is the pre-run time and the error bit is 1. -/
theorem scrub_silent_block (env : ScrubEnv) (infoarr : Nat → snapraid_info) (need_write : Int)
    (blockstart blockmax : Nat) (timelimit : Int) (countlimit : Nat) (now : Int) (i : Nat)
    (hl : env.level = 1 ∨ env.level = 2)
    (hp : processed (state_scrub_process env infoarr need_write blockstart blockmax timelimit
      countlimit now).2.trace i = true)
    (hio : block_io_error env i = false)
    (hs : block_silent_error env i = true) :
    (state_scrub_process env infoarr need_write blockstart blockmax timelimit
      countlimit now).2.infoarr i = info_set_error (infoarr i) ∧
    info_get_time ((state_scrub_process env infoarr need_write blockstart blockmax timelimit
      countlimit now).2.infoarr i) = info_get_time (infoarr i) ∧
    ((state_scrub_process env infoarr need_write blockstart blockmax timelimit
      countlimit now).2.infoarr i).error = true := by
  obtain ⟨-, -, -, fl, h1, h2⟩ := (process_spec env infoarr need_write blockstart blockmax
    timelimit countlimit now i).1 hp
  obtain ⟨f1, f2⟩ := h2 hl
  rw [h1, f1, f2, hio, hs]
  simp [class_info, info_set_error, info_get_time]

set_option maxRecDepth 1000000 in
theorem scrub_silent_block_witness :
    (processed (state_scrub_process env_s2 arr_s1 0 0 10 100 10 500).2.trace 4 = true ∧
      block_io_error env_s2 4 = false ∧ block_silent_error env_s2 4 = true) ∧
    (state_scrub_process env_s2 arr_s1 0 0 10 100 10 500).2.infoarr 4
      = info_set_error (arr_s1 4) ∧
    info_get_time ((state_scrub_process env_s2 arr_s1 0 0 10 100 10 500).2.infoarr 4)
      = info_get_time (arr_s1 4) ∧
    ((state_scrub_process env_s2 arr_s1 0 0 10 100 10 500).2.infoarr 4).error = true :=
  ⟨by decide, scrub_silent_block env_s2 arr_s1 0 0 10 100 10 500 4 (by decide) (by decide)
    (by decide) (by decide)⟩

/-- C3: when an I/O error occurs on block `i` (an open or read failure in the data pass, or a
failing parity read in the parity pass), the info of the block after the run is its pre-run
info, whether or not a silent error was recorded too. -/
theorem scrub_io_error_block (env : ScrubEnv) (infoarr : Nat → snapraid_info)
    (need_write : Int) (blockstart blockmax : Nat) (timelimit : Int) (countlimit : Nat)
    (now : Int) (i : Nat)
    (hl : env.level = 1 ∨ env.level = 2)
    (hio : block_io_error env i = true) :
    (state_scrub_process env infoarr need_write blockstart blockmax timelimit
      countlimit now).2.infoarr i = infoarr i := by
  cases hp : processed (state_scrub_process env infoarr need_write blockstart blockmax timelimit
      countlimit now).2.trace i
  · exact (process_spec env infoarr need_write blockstart blockmax
      timelimit countlimit now i).2 hp
  · obtain ⟨-, -, -, fl, h1, h2⟩ := (process_spec env infoarr need_write blockstart blockmax
      timelimit countlimit now i).1 hp
    obtain ⟨f1, -⟩ := h2 hl
    rw [h1, f1, hio]
    simp [class_info]

set_option maxRecDepth 1000000 in
theorem scrub_io_error_block_witness :
    (processed (state_scrub_process env_s4 arr_s1 0 0 10 100 10 500).2.trace 5 = true ∧
     block_io_error env_s4 5 = true ∧ block_silent_error env_s4 5 = true) ∧
    (state_scrub_process env_s4 arr_s1 0 0 10 100 10 500).2.infoarr 5 = arr_s1 5 :=
  ⟨by decide, scrub_io_error_block env_s4 arr_s1 0 0 10 100 10 500 5 (by decide)
    (by decide)⟩

/-- C4: an index that the run does not classify keeps its info; in particular an index whose
pre-run info is zero, or whose pre-run time is greater than `timelimit`, or that lies outside
`[blockstart, blocklimit)`, has the same info after the run. -/
theorem scrub_unvisited_unchanged (env : ScrubEnv) (infoarr : Nat → snapraid_info)
    (need_write : Int) (blockstart blockmax : Nat) (timelimit : Int) (countlimit : Nat)
    (now : Int) (i : Nat)
    (h : processed (state_scrub_process env infoarr need_write blockstart blockmax timelimit
        countlimit now).2.trace i = false ∨
      infoarr i = info_zero ∨ info_get_time (infoarr i) > timelimit ∨ i < blockstart ∨
      scrub_blocklimit infoarr blockstart blockmax timelimit countlimit ≤ i) :
    (state_scrub_process env infoarr need_write blockstart blockmax timelimit
      countlimit now).2.infoarr i = infoarr i := by
  obtain ⟨h1, h2⟩ := process_spec env infoarr need_write blockstart blockmax
    timelimit countlimit now i
  cases hp : processed (state_scrub_process env infoarr need_write blockstart blockmax timelimit
      countlimit now).2.trace i
  · exact h2 hp
  · obtain ⟨a1, a2, a3, -⟩ := h1 hp
    exfalso
    simp only [eligible, info_get, Bool.and_eq_true, decide_eq_true_eq] at a3
    rcases h with h | h | h | h | h
    · rw [hp] at h; exact absurd h (by simp)
    · exact a3.1 h
    · exact absurd a3.2 (not_le.mpr h)
    · omega
    · omega

set_option maxRecDepth 1000000 in
theorem scrub_unvisited_unchanged_witness :
    (arr_s1 12 = info_zero ∧ info_get_time (arr_s1 7) > 15) ∧
    (state_scrub_process env_s1 arr_s1 0 0 20 15 10 500).2.infoarr 12 = arr_s1 12 ∧
    (state_scrub_process env_s1 arr_s1 0 0 20 15 10 500).2.infoarr 7 = arr_s1 7 :=
  ⟨by decide,
    scrub_unvisited_unchanged env_s1 arr_s1 0 0 20 15 10 500 12 (Or.inr (Or.inl (by decide))),
    scrub_unvisited_unchanged env_s1 arr_s1 0 0 20 15 10 500 7
      (Or.inr (Or.inr (Or.inl (by decide))))⟩

theorem scrub_count_spec (infoarr : Nat → snapraid_info) (timelimit : Int)
    (countlimit blockmax : Nat) :
    ∀ (n i0 c : Nat), blockmax - i0 = n → c ≤ countlimit →
      (scrub_count infoarr timelimit countlimit blockmax n i0 c).1 ≤ countlimit ∧
      (scrub_count infoarr timelimit countlimit blockmax n i0 c).1 =
        c + (List.range' i0
          ((scrub_count infoarr timelimit countlimit blockmax n i0 c).2 - i0)).countP
            (eligible infoarr timelimit) ∧
      (i0 ≤ blockmax →
        i0 ≤ (scrub_count infoarr timelimit countlimit blockmax n i0 c).2 ∧
        (scrub_count infoarr timelimit countlimit blockmax n i0 c).2 ≤ blockmax) := by
  intro n
  induction n with
  | zero =>
    intro i0 c hn hc
    have : blockmax - i0 = 0 := hn
    simp only [scrub_count]
    refine ⟨hc, by simp [this], fun h => ⟨h, le_refl _⟩⟩
  | succ n ih =>
    intro i0 c hn hc
    have hlt : i0 < blockmax := by omega
    unfold scrub_count
    simp only []
    have key : ∀ c1, c1 ≤ countlimit →
        c1 = c + (if eligible infoarr timelimit i0 = true then 1 else 0) →
        (scrub_count infoarr timelimit countlimit blockmax n (i0 + 1) c1).1 ≤ countlimit ∧
        (scrub_count infoarr timelimit countlimit blockmax n (i0 + 1) c1).1 =
          c + (List.range' i0
            ((scrub_count infoarr timelimit countlimit blockmax n (i0 + 1) c1).2 - i0)).countP
              (eligible infoarr timelimit) ∧
        (i0 ≤ blockmax →
          i0 ≤ (scrub_count infoarr timelimit countlimit blockmax n (i0 + 1) c1).2 ∧
          (scrub_count infoarr timelimit countlimit blockmax n (i0 + 1) c1).2 ≤ blockmax) := by
      intro c1 hc1 hc1e
      obtain ⟨a1, a2, a3⟩ := ih (i0 + 1) c1 (by omega) hc1
      obtain ⟨a4, a5⟩ := a3 (by omega)
      refine ⟨a1, ?_, fun _ => ⟨by omega, a5⟩⟩
      have hsplit : (scrub_count infoarr timelimit countlimit blockmax n (i0 + 1) c1).2 - i0
          = ((scrub_count infoarr timelimit countlimit blockmax n (i0 + 1) c1).2 - (i0 + 1)) + 1 := by
        omega
      rw [a2, hsplit, List.range'_succ, List.countP_cons, hc1e]
      omega
    by_cases h0 : info_get infoarr i0 = info_zero
    · simp only [h0, if_true]
      exact key c hc (by simp [eligible, h0])
    · by_cases h1 : info_get_time (info_get infoarr i0) > timelimit
      · simp only [h0, h1, if_false, if_true]
        exact key c hc (by simp [eligible, h0, not_le.mpr h1])
      · simp only [h0, h1, if_false]
        by_cases h2 : c ≥ countlimit
        · simp only [h2, if_true]
          refine ⟨hc, by simp, fun _ => ⟨le_refl _, by omega⟩⟩
        · simp only [h2, if_false]
          exact key (c + 1) (by omega) (by simp [eligible, h0, not_lt.mp h1])

theorem scrub_countmax_spec (infoarr : Nat → snapraid_info) (blockstart blockmax : Nat)
    (timelimit : Int) (countlimit : Nat) :
    scrub_countmax infoarr blockstart blockmax timelimit countlimit ≤ countlimit ∧
    scrub_countmax infoarr blockstart blockmax timelimit countlimit =
      ((List.range' blockstart
        (scrub_blocklimit infoarr blockstart blockmax timelimit countlimit - blockstart)).filter
          (eligible infoarr timelimit)).length := by
  obtain ⟨a1, a2, -⟩ := scrub_count_spec infoarr timelimit countlimit blockmax
    (blockmax - blockstart) blockstart 0 rfl (Nat.zero_le _)
  refine ⟨a1, ?_⟩
  unfold scrub_countmax scrub_blocklimit
  rw [a2, Nat.zero_add, List.countP_eq_length_filter]

/-- C5: the block indices that a run classifies are at most `countlimit`: every
duplicate-free list of classified indices, and so every duplicate-free list of indices whose
info was changed by the run, has at most `countlimit` entries. -/
theorem scrub_classified_le_countlimit (env : ScrubEnv) (infoarr : Nat → snapraid_info)
    (need_write : Int) (blockstart blockmax : Nat) (timelimit : Int) (countlimit : Nat)
    (now : Int) (l : List Nat) (hnd : l.Nodup)
    (hl : ∀ i ∈ l,
      processed (state_scrub_process env infoarr need_write blockstart blockmax timelimit
        countlimit now).2.trace i = true ∨
      (state_scrub_process env infoarr need_write blockstart blockmax timelimit
        countlimit now).2.infoarr i ≠ infoarr i) :
    l.length ≤ countlimit := by
  obtain ⟨c1, c2⟩ := scrub_countmax_spec infoarr blockstart blockmax timelimit countlimit
  have hsub : l ⊆ (List.range' blockstart
      (scrub_blocklimit infoarr blockstart blockmax timelimit countlimit - blockstart)).filter
        (eligible infoarr timelimit) := by
    intro i hi
    obtain ⟨h1, h2⟩ := process_spec env infoarr need_write blockstart blockmax
      timelimit countlimit now i
    have hp : processed (state_scrub_process env infoarr need_write blockstart blockmax timelimit
        countlimit now).2.trace i = true := by
      rcases hl i hi with h | h
      · exact h
      · cases hx : processed (state_scrub_process env infoarr need_write blockstart blockmax
          timelimit countlimit now).2.trace i
        · exact absurd (h2 hx) h
        · rfl
    obtain ⟨b1, b2, b3, -⟩ := h1 hp
    rw [List.mem_filter, List.mem_range'_1]
    exact ⟨⟨b1, by omega⟩, b3⟩
  have := (List.Nodup.subperm hnd hsub).length_le
  omega

set_option maxRecDepth 1000000 in
theorem scrub_classified_le_countlimit_witness :
    ([0, 1, 2] : List Nat).Nodup ∧
    (∀ i ∈ ([0, 1, 2] : List Nat),
      processed (state_scrub_process env_s1 arr_s1 0 0 10 100 3 500).2.trace i = true ∨
      (state_scrub_process env_s1 arr_s1 0 0 10 100 3 500).2.infoarr i ≠ arr_s1 i) ∧
    ([0, 1, 2] : List Nat).length ≤ 3 :=
  ⟨by decide, by decide,
    scrub_classified_le_countlimit env_s1 arr_s1 0 0 10 100 3 500 [0, 1, 2] (by decide)
      (by decide)⟩

theorem qsort_infomap_times (l : List snapraid_info) :
    (qsort_infomap l).map info_get_time
      = (l.map info_get_time).insertionSort (fun a b => a ≤ b) := by
  unfold qsort_infomap
  apply List.map_insertionSort
  intro a _ b _
  exact Iff.rfl

theorem scrub_infomap_ne_nil (infoarr : Nat → snapraid_info) (blockmax : Nat)
    (h : ∃ i, i < blockmax ∧ infoarr i ≠ info_zero) :
    (scrub_infomap infoarr blockmax).length ≠ 0 := by
  obtain ⟨i, hi, hne⟩ := h
  have hmem : infoarr i ∈ scrub_infomap infoarr blockmax := by
    unfold scrub_infomap
    rw [List.mem_filter]
    refine ⟨List.mem_map.mpr ⟨i, List.mem_range.mpr hi, rfl⟩, by simpa using hne⟩
  intro hlen
  rw [List.length_eq_zero] at hlen
  rw [hlen] at hmem
  exact absurd hmem (List.not_mem_nil _)

/-- C6: when the array has a used entry, the planner returns
`countlimit = min(blockmax / 12, count - 1)` and
`timelimit = min(T[countlimit], now - 864000)`, where `count` is the number of used entries
and `T` the ascending sequence of their times; `countlimit` is a valid index of `T`, and it
is `count - 1` whenever `blockmax / 12 >= count`. -/
theorem scrub_plan_spec (infoarr : Nat → snapraid_info) (blockmax : Nat) (now : Int)
    (h : ∃ i, i < blockmax ∧ infoarr i ≠ info_zero) :
    (sorted_times infoarr blockmax).Sorted (fun a b => a ≤ b) ∧
    (sorted_times infoarr blockmax).Perm (used_times infoarr blockmax) ∧
    (sorted_times infoarr blockmax).length = (scrub_infomap infoarr blockmax).length ∧
    min (blockmax / 12) ((scrub_infomap infoarr blockmax).length - 1)
      < (sorted_times infoarr blockmax).length ∧
    scrub_plan infoarr blockmax now =
      some (min ((sorted_times infoarr blockmax).getD
                  (min (blockmax / 12) ((scrub_infomap infoarr blockmax).length - 1)) 0)
                (now - 864000),
            min (blockmax / 12) ((scrub_infomap infoarr blockmax).length - 1)) ∧
    ((scrub_infomap infoarr blockmax).length ≤ blockmax / 12 →
      min (blockmax / 12) ((scrub_infomap infoarr blockmax).length - 1)
        = (scrub_infomap infoarr blockmax).length - 1) := by
  have hc := scrub_infomap_ne_nil infoarr blockmax h
  have hlen : (sorted_times infoarr blockmax).length = (scrub_infomap infoarr blockmax).length := by
    simp [sorted_times, used_times, List.length_insertionSort]
  refine ⟨List.sorted_insertionSort _ _, List.perm_insertionSort _ _, hlen, ?_, ?_, ?_⟩
  · rw [hlen]; omega
  · have hcl : (if blockmax / 12 ≥ (scrub_infomap infoarr blockmax).length
          then (scrub_infomap infoarr blockmax).length - 1 else blockmax / 12)
        = min (blockmax / 12) ((scrub_infomap infoarr blockmax).length - 1) := by
      split_ifs with hge
      · rw [Nat.min_def]; split_ifs <;> omega
      · rw [Nat.min_def]; split_ifs <;> omega
    have ht : ∀ n, info_get_time ((qsort_infomap (scrub_infomap infoarr blockmax)).getD n info_zero)
        = (sorted_times infoarr blockmax).getD n 0 := by
      intro n
      have h0 : (0 : Int) = info_get_time info_zero := rfl
      rw [sorted_times, used_times, ← qsort_infomap_times, h0, List.getD_map]
    unfold scrub_plan
    simp only [hc, if_false, hcl, ht]
    have e1 : now - 10 * 24 * 3600 = now - 864000 := by norm_num
    rw [e1]
    congr 2
    rw [min_def]
    split_ifs <;> omega
  · intro hle
    rw [Nat.min_def]; split_ifs <;> omega

theorem scrub_plan_spec_witness :
    (∃ i, i < 24 ∧ arr_s1 i ≠ info_zero) ∧
    sorted_times arr_s1 24 = [10, 11, 12, 13, 14, 15, 16, 17, 18, 19] ∧
    scrub_plan arr_s1 24 5000000 = some (12, 2) ∧
    scrub_plan arr_s1 200 5000000 = some (19, 9) ∧
    scrub_plan arr_s1 24 864005 = some (5, 2) :=
  ⟨⟨0, by decide⟩, by decide,
    ((scrub_plan_spec arr_s1 24 5000000 ⟨0, by decide⟩).2.2.2.2.1).trans (by decide),
    ((scrub_plan_spec arr_s1 200 5000000 ⟨0, by decide⟩).2.2.2.2.1).trans (by decide),
    ((scrub_plan_spec arr_s1 24 864005 ⟨0, by decide⟩).2.2.2.2.1).trans (by decide)⟩

theorem scrub_plan_le_recent (infoarr : Nat → snapraid_info) (blockmax : Nat) (now : Int)
    (tl : Int) (cl : Nat) (h : scrub_plan infoarr blockmax now = some (tl, cl)) :
    tl ≤ now - 864000 := by
  unfold scrub_plan at h
  simp only [] at h
  split_ifs at h with h1 h2 h3
  all_goals
    simp only [Option.some.injEq, Prod.mk.injEq] at h
    obtain ⟨rfl, -⟩ := h
    omega

theorem processed_append (a b : List Event) (i : Nat) :
    processed (a ++ b) i = (processed a i || processed b i) := by
  simp [processed, List.any_append]

theorem state_scrub_ret (env : ScrubEnv) (infoarr : Nat → snapraid_info) (need_write : Int)
    (blockmax : Nat) (now : Int) (r : Int) (st : ScrubState)
    (h : state_scrub env infoarr need_write blockmax now = .ret r st) :
    ∃ tl cl, scrub_plan infoarr blockmax now = some (tl, cl) ∧
      st.infoarr = (state_scrub_process env infoarr need_write 0 blockmax tl cl now).2.infoarr ∧
      st.need_write
        = (state_scrub_process env infoarr need_write 0 blockmax tl cl now).2.need_write ∧
      ∀ i, processed st.trace i =
        processed (state_scrub_process env infoarr need_write 0 blockmax tl cl now).2.trace i := by
  unfold state_scrub at h
  cases hp : scrub_plan infoarr blockmax now with
  | none => rw [hp] at h; simp at h
  | some p =>
    obtain ⟨tl, cl⟩ := p
    rw [hp] at h
    simp only [] at h
    split_ifs at h with h1 h2 h3 h4 h5
    all_goals
      simp only [ScrubOutcome.ret.injEq] at h
      obtain ⟨-, rfl⟩ := h
      refine ⟨tl, cl, rfl, rfl, rfl, ?_⟩
      intro i
      simp [processed_append, processed, Event.is_progress_at]

/-- C7: in a run of `state_scrub` that returns, the time limit passed to
`state_scrub_process` is at most `now - 864000`, and a block whose pre-run time is greater
than `now - 864000` is not classified and keeps its info. -/
theorem scrub_recent_skipped (env : ScrubEnv) (infoarr : Nat → snapraid_info) (need_write : Int)
    (blockmax : Nat) (now : Int) (r : Int) (st : ScrubState) (i : Nat)
    (h : state_scrub env infoarr need_write blockmax now = .ret r st)
    (hrecent : info_get_time (infoarr i) > now - 864000) :
    (∃ tl cl, scrub_plan infoarr blockmax now = some (tl, cl) ∧ tl ≤ now - 864000 ∧
      st.infoarr = (state_scrub_process env infoarr need_write 0 blockmax tl cl now).2.infoarr) ∧
    processed st.trace i = false ∧
    st.infoarr i = infoarr i := by
  obtain ⟨tl, cl, hp, h1, -, h3⟩ := state_scrub_ret env infoarr need_write blockmax now r st h
  have hle := scrub_plan_le_recent infoarr blockmax now tl cl hp
  obtain ⟨p1, p2⟩ := process_spec env infoarr need_write 0 blockmax tl cl now i
  have hnp : processed (state_scrub_process env infoarr need_write 0 blockmax tl cl now).2.trace i
      = false := by
    cases hx : processed (state_scrub_process env infoarr need_write 0 blockmax tl cl now).2.trace i
    · rfl
    · obtain ⟨-, -, he, -⟩ := p1 hx
      simp only [eligible, info_get, Bool.and_eq_true, decide_eq_true_eq] at he
      omega
  refine ⟨⟨tl, cl, hp, hle, h1⟩, by rw [h3 i, hnp], by rw [h1, p2 hnp]⟩

set_option maxRecDepth 1000000 in
theorem scrub_recent_skipped_witness :
    (info_get_time (arr_recent 0) > 900000 - 864000) ∧
    processed (state_scrub_process env_s1 arr_recent 0 0 12 36000 1 900000).2.trace 0 = false ∧
    (state_scrub_process env_s1 arr_recent 0 0 12 36000 1 900000).2.infoarr 0 = arr_recent 0 :=
  ⟨by decide,
    (scrub_recent_skipped env_s1 arr_recent 0 12 900000 0
      { (state_scrub_process env_s1 arr_recent 0 0 12 36000 1 900000).2 with
        trace := [Event.parity_open] ++
          (state_scrub_process env_s1 arr_recent 0 0 12 36000 1 900000).2.trace ++
          [Event.parity_close] } 0 rfl (by decide)).2⟩

set_option maxRecDepth 1000000 in
/-- C8 (evaluation at the failing input): with 24 used blocks of distinct times the planner
returns `countlimit = 2` and `timelimit = T[2] = 30`, not capped by the recency guard; the
uninterrupted run classifies blocks 0 and 1 and not block 2, although block 2 (time 20) is
older than block 0 (time 30): the two oldest blocks are 1 and 2. -/
theorem scrub_quota_not_oldest :
    scrub_plan arr_order 24 5000000 = some (30, 2) ∧
    (sorted_times arr_order 24).getD 2 0 = 30 ∧
    (state_scrub_process env_s1 arr_order 0 0 24 30 2 5000000).1 = 0 ∧
    processed (state_scrub_process env_s1 arr_order 0 0 24 30 2 5000000).2.trace 0 = true ∧
    processed (state_scrub_process env_s1 arr_order 0 0 24 30 2 5000000).2.trace 1 = true ∧
    processed (state_scrub_process env_s1 arr_order 0 0 24 30 2 5000000).2.trace 2 = false ∧
    (state_scrub_process env_s1 arr_order 0 0 24 30 2 5000000).2.infoarr 2 = arr_order 2 ∧
    info_get_time (arr_order 1) < info_get_time (arr_order 2) ∧
    info_get_time (arr_order 2) < info_get_time (arr_order 0) ∧
    (∀ i, i < 24 → i ≠ 1 → i ≠ 2 → info_get_time (arr_order 2) < info_get_time (arr_order i)) := by
  refine ⟨by decide, by decide, by decide, by decide, by decide, by decide, by decide,
    by decide, by decide, by decide⟩

set_option maxRecDepth 1000000 in
/-- C9 (counterexample): a short read, which returns 1 byte of a 2-byte block, records no
I/O error: the bytes read are hashed, the run counts no error and returns 0, and the block
is classified clean, its info changed to `info_make(now, 0)`. -/
theorem scrub_short_read_counterexample :
    slot_active env_short 1 1 = true ∧
    env_short.handle_read_ret 1 1 ≠ -1 ∧
    env_short.handle_read_ret 1 1 ≠ (env_short.block_size : Int) ∧
    Event.memhash 1 1 ∈ (state_scrub_process env_short arr_s1 0 0 10 100 10 500).2.trace ∧
    (state_scrub_process env_short arr_s1 0 0 10 100 10 500).2.trace.any Event.is_log = false ∧
    (state_scrub_process env_short arr_s1 0 0 10 100 10 500).2.error = 0 ∧
    (state_scrub_process env_short arr_s1 0 0 10 100 10 500).1 = 0 ∧
    (state_scrub_process env_short arr_s1 0 0 10 100 10 500).2.infoarr 1 = info_make 500 0 ∧
    (state_scrub_process env_short arr_s1 0 0 10 100 10 500).2.infoarr 1 ≠ arr_s1 1 := by
  refine ⟨by decide, by decide, by decide, by decide, by decide, by decide, by decide,
    by decide, by decide⟩

theorem any_range_true (n : Nat) (p : Nat → Bool) (j : Nat) (hj : j < n) (h : p j = true) :
    (List.range n).any p = true := by
  rw [List.any_eq_true]
  exact ⟨j, List.mem_range.mpr hj, h⟩

theorem parityLogs_nil (i : Nat) : ParityLogs i [] := by
  intro e he
  exact absurd he (List.not_mem_nil _)

theorem parityLogs_append (i : Nat) (a b : List Event) (ha : ParityLogs i a)
    (hb : ParityLogs i b) : ParityLogs i (a ++ b) := by
  intro e he
  rcases List.mem_append.mp he with h | h
  · exact ha e h
  · exact hb e h

theorem parity_read_p_trace (env : ScrubEnv) (i buf : Nat) (st : ScrubState) (fl : BlockFlags) :
    ∃ l, ParityLogs i l ∧
      (parity_read_p env i buf st fl).1.trace = st.trace ++ Event.parity_read i buf :: l := by
  unfold parity_read_p
  by_cases hr : env.parity_read_ret i = -1
  · refine ⟨[Event.log i .parity .read_error], ?_, by simp [hr, emit, inc_error]⟩
    intro e he
    simp only [List.mem_singleton] at he
    subst he
    simp [Event.is_log, Event.is_parity_event]
  · exact ⟨[], parityLogs_nil i, by simp [hr, emit]⟩

theorem parity_read_q_trace (env : ScrubEnv) (i : Nat) (bq : Option Nat) (st : ScrubState)
    (fl : BlockFlags) :
    ∃ l, ParityLogs i l ∧
      (parity_read_q env i bq st fl).1.trace =
        st.trace ++ (if 2 ≤ env.level then Event.qarity_read i (bq.getD 0) :: l else []) := by
  unfold parity_read_q
  by_cases hl : 2 ≤ env.level
  · by_cases hr : env.qarity_read_ret i = -1
    · refine ⟨[Event.log i .qarity .read_error], ?_, by simp [hl, hr, emit, inc_error]⟩
      intro e he
      simp only [List.mem_singleton] at he
      subst he
      simp [Event.is_log, Event.is_parity_event]
    · exact ⟨[], parityLogs_nil i, by simp [hl, hr, emit]⟩
  · exact ⟨[], parityLogs_nil i, by simp [hl]⟩

theorem parity_cmp_p_trace (env : ScrubEnv) (i : Nat) (bp : Option Nat) (st : ScrubState)
    (fl : BlockFlags) :
    ∃ l, ParityLogs i l ∧ (parity_cmp_p env i bp st fl).1.trace = st.trace ++ l := by
  unfold parity_cmp_p
  cases bp with
  | none => exact ⟨[], parityLogs_nil i, by simp⟩
  | some b =>
    simp only []
    split_ifs with hm
    · refine ⟨[Event.log i .parity .data_error], ?_, by simp [emit, inc_error]⟩
      intro e he
      simp only [List.mem_singleton] at he
      subst he
      simp [Event.is_log, Event.is_parity_event]
    · exact ⟨[], parityLogs_nil i, by simp⟩

theorem parity_cmp_q_trace (env : ScrubEnv) (i : Nat) (bq : Option Nat) (st : ScrubState)
    (fl : BlockFlags) :
    ∃ l, ParityLogs i l ∧ (parity_cmp_q env i bq st fl).1.trace = st.trace ++ l := by
  unfold parity_cmp_q
  by_cases hl : 2 ≤ env.level
  · cases bq with
    | none => exact ⟨[], parityLogs_nil i, by simp [hl]⟩
    | some b =>
      simp only [hl, if_true]
      split_ifs with hm
      · refine ⟨[Event.log i .qarity .data_error], ?_, by simp [emit, inc_error]⟩
        intro e he
        simp only [List.mem_singleton] at he
        subst he
        simp [Event.is_log, Event.is_parity_event]
      · exact ⟨[], parityLogs_nil i, by simp⟩
  · exact ⟨[], parityLogs_nil i, by simp [hl]⟩

theorem scrub_parity_trace (env : ScrubEnv) (i : Nat) (st : ScrubState) (fl : BlockFlags) :
    ∃ pl, ParityShape env i pl ∧ (scrub_parity env i st fl).1.trace = st.trace ++ pl := by
  unfold scrub_parity
  simp only []
  obtain ⟨l1, a1, a2⟩ := parity_read_p_trace env i
    (if env.level = 1 then env.diskmax + 1 else env.diskmax + 2) st fl
  generalize parity_read_p env i (if env.level = 1 then env.diskmax + 1 else env.diskmax + 2)
    st fl = rp at a2 ⊢
  obtain ⟨l2, b1, b2⟩ := parity_read_q_trace env i
    (if env.level = 1 then none else some (env.diskmax + 3)) rp.1 rp.2.1
  generalize parity_read_q env i (if env.level = 1 then none else some (env.diskmax + 3))
    rp.1 rp.2.1 = rq at b2 ⊢
  obtain ⟨l3, c1, c2⟩ := parity_cmp_p_trace env i rp.2.2
    (emit { rq.1 with buffer := raid_gen env rq.1.buffer } (.raid_gen i)) rq.2.1
  generalize parity_cmp_p env i rp.2.2
    (emit { rq.1 with buffer := raid_gen env rq.1.buffer } (.raid_gen i)) rq.2.1 = cp at c2 ⊢
  obtain ⟨l4, d1, d2⟩ := parity_cmp_q_trace env i rq.2.2 cp.1 cp.2
  refine ⟨_, ⟨l1, l2, l3 ++ l4, a1, b1, parityLogs_append i l3 l4 c1 d1, rfl⟩, ?_⟩
  rw [d2, c2]
  simp only [emit]
  rw [b2, a2]
  by_cases hl : 2 ≤ env.level
  · have h1 : env.level ≠ 1 := by omega
    simp [hl, h1]
  · simp [hl]

theorem countP_traceExt_zero (q : Event → Bool) {p : Event → Bool} {st st1 : ScrubState}
    (h : TraceExt p st st1) (hp : ∀ e, p e = true → q e = false) :
    st1.trace.countP q = st.trace.countP q := by
  obtain ⟨evs, h1, h2⟩ := h
  have : evs.countP q = 0 := by
    rw [List.countP_eq_zero]
    intro e he
    simp [hp e (h2 e he)]
  rw [h1, List.countP_append, this, Nat.add_zero]

theorem countP_all_false (q : Event → Bool) (l : List Event) (h : ∀ e ∈ l, q e = false) :
    l.countP q = 0 := by
  rw [List.countP_eq_zero]
  intro e he
  simp [h e he]

theorem parity_event_block_index (i k : Nat) (e : Event)
    (h1 : Event.is_parity_event i e = true) (h2 : Event.is_block_event k e = true) : k = i := by
  cases e with
  | log a src kind =>
    cases src <;>
      simp_all [Event.is_block_event, Event.is_slot_event, Event.is_parity_event]
  | _ => simp_all [Event.is_block_event, Event.is_slot_event, Event.is_parity_event]

theorem slot_event_not_parity (i k : Nat) (e : Event) (h : Event.is_slot_event k e = true) :
    Event.is_parity_event i e = false := by
  cases e with
  | log a src kind =>
    cases src <;> simp_all [Event.is_slot_event, Event.is_parity_event]
  | _ => simp_all [Event.is_slot_event, Event.is_parity_event]

theorem tail_event_not_parity (i k : Nat) (e : Event) (h : Event.is_tail_event k e = true) :
    Event.is_parity_event i e = false := by
  cases e <;> simp_all [Event.is_tail_event, Event.is_parity_event]

theorem exit_event_not_parity (i : Nat) (e : Event) (h : Event.is_exit_event e = true) :
    Event.is_parity_event i e = false := by
  cases e <;> simp_all [Event.is_exit_event, Event.is_parity_event]

theorem scrub_classify_tail (now : Int) (i : Nat) (st : ScrubState) (fl : BlockFlags) :
    TraceExt (Event.is_tail_event i) st (scrub_classify now i st fl) := by
  unfold scrub_classify
  cases h1 : fl.error_on_this_block <;> cases h2 : fl.silent_error_on_this_block <;>
    simp [emit, TraceExt, Event.is_tail_event]

theorem scrub_progress_tail (env : ScrubEnv) (countmax al i : Nat) (st : ScrubState) :
    TraceExt (Event.is_tail_event i) st (scrub_progress env countmax al i st).state := by
  unfold scrub_progress
  simp only []
  split_ifs <;> simp [BlockResult.state, emit, state_write, TraceExt, Event.is_tail_event]

theorem scrub_block_shape (env : ScrubEnv) (timelimit now : Int) (countmax al i : Nat)
    (st : ScrubState) (h : eligible st.infoarr timelimit i = true)
    (hlen : st.buffer.length = env.diskmax + env.level * 2)
    (hnb : (scrub_block env timelimit now countmax al i st).is_bail = false) :
    ∃ sl pl tl,
      (scrub_block env timelimit now countmax al i st).state.trace = st.trace ++ sl ++ pl ++ tl ∧
      (∀ e ∈ sl, Event.is_slot_event i e = true) ∧
      (∀ e ∈ tl, Event.is_tail_event i e = true) ∧
      ((data_io_error env i || data_hash_error env i) = true → pl = []) ∧
      ((data_io_error env i || data_hash_error env i) = false → ParityShape env i pl) := by
  have h0 : info_get st.infoarr i ≠ info_zero := by
    simp [eligible] at h; exact h.1
  have h1 : ¬ info_get_time (info_get st.infoarr i) > timelimit := by
    simp [eligible] at h; exact not_lt.mpr h.2
  unfold scrub_block at hnb ⊢
  simp only [h0, h1, if_false] at hnb ⊢
  obtain ⟨st1, hst1⟩ : ∃ st1 : ScrubState, st1 =
      { st with autosavedone := st.autosavedone + 1
                autosavemissing := (st.autosavemissing + (2 ^ 32 - 1)) % 2 ^ 32 } := ⟨_, rfl⟩
  rw [← hst1] at hnb ⊢
  have e2 : st1.buffer = st.buffer := by rw [hst1]
  have e3 : st1.trace = st.trace := by rw [hst1]
  have hlen1 : env.diskmax ≤ st1.buffer.length := by rw [e2]; omega
  cases hs : scrub_slots env i env.diskmax 0 st1 ⟨false, false⟩ with
  | bail st2 =>
    rw [hs] at hnb
    simp [BlockResult.is_bail] at hnb
  | next st2 fl2 =>
    obtain ⟨-, b2, b3, b4, -⟩ := scrub_slots_all env i st1 hlen1 st2 fl2 hs
    obtain ⟨sl, hsl1, hsl2⟩ := b2
    simp only []
    obtain ⟨st3, fl3, hr, pl, hp1, hp2, hp3⟩ :
        ∃ st3 fl3, (if fl2.error_on_this_block = false ∧ fl2.silent_error_on_this_block = false
          then scrub_parity env i st2 fl2 else (st2, fl2)) = (st3, fl3) ∧
          ∃ pl, st3.trace = st2.trace ++ pl ∧
          ((data_io_error env i || data_hash_error env i) = true → pl = []) ∧
          ((data_io_error env i || data_hash_error env i) = false → ParityShape env i pl) := by
      by_cases hf : fl2.error_on_this_block = false ∧ fl2.silent_error_on_this_block = false
      · have hio : data_io_error env i = false := by rw [← b3]; exact hf.1
        have hha : data_hash_error env i = false := by rw [← b4]; exact hf.2
        obtain ⟨pl, q1, q2⟩ := scrub_parity_trace env i st2 fl2
        refine ⟨(scrub_parity env i st2 fl2).1, (scrub_parity env i st2 fl2).2, by simp [hf],
          pl, q2, ?_, fun _ => q1⟩
        intro hc
        simp [hio, hha] at hc
      · refine ⟨st2, fl2, by simp [hf], [], by simp, fun _ => rfl, ?_⟩
        intro hc
        exfalso
        apply hf
        rw [b3, b4]
        simpa using hc
    rw [hr]
    simp only []
    obtain ⟨t1, ht1, ht1p⟩ := scrub_classify_tail now i st3 fl3
    obtain ⟨t2, ht2, ht2p⟩ := scrub_progress_tail env countmax al i (scrub_classify now i st3 fl3)
    refine ⟨sl, pl, t1 ++ t2, ?_, hsl2, ?_, hp2, hp3⟩
    · rw [ht2, ht1, hp1, hsl1, e3]
      simp [List.append_assoc]
    · intro e he
      rcases List.mem_append.mp he with hx | hx
      · exact ht1p e hx
      · exact ht2p e hx

theorem scrub_block_count_other (env : ScrubEnv) (timelimit now : Int) (countmax al i k : Nat)
    (st : ScrubState) (hlen : st.buffer.length = env.diskmax + env.level * 2) (hk : k ≠ i)
    (q : Event → Bool) (hq : ∀ e, q e = true → Event.is_parity_event i e = true) :
    (scrub_block env timelimit now countmax al k st).state.trace.countP q
      = st.trace.countP q := by
  by_cases helig : eligible st.infoarr timelimit k = true
  · obtain ⟨-, -, a3, -⟩ := scrub_block_run env timelimit now countmax al k st helig hlen
    apply countP_traceExt_zero q a3
    intro e he
    cases hx : q e
    · rfl
    · exact absurd (parity_event_block_index i k e (hq e hx) he) hk
  · rw [scrub_block_skip env timelimit now countmax al k st (by simpa using helig)]
    rfl

theorem scrub_block_count_self (env : ScrubEnv) (timelimit now : Int) (countmax al i : Nat)
    (st : ScrubState) (h : eligible st.infoarr timelimit i = true)
    (hlen : st.buffer.length = env.diskmax + env.level * 2)
    (q : Event → Bool) (hq : ∀ e, q e = true → Event.is_parity_event i e = true) :
    ((scrub_block env timelimit now countmax al i st).is_bail = true →
      (scrub_block env timelimit now countmax al i st).state.trace.countP q
        = st.trace.countP q) ∧
    ((scrub_block env timelimit now countmax al i st).is_bail = false →
      ((data_io_error env i || data_hash_error env i) = true →
        (scrub_block env timelimit now countmax al i st).state.trace.countP q
          = st.trace.countP q) ∧
      ((data_io_error env i || data_hash_error env i) = false →
        ∃ pl, ParityShape env i pl ∧
          (scrub_block env timelimit now countmax al i st).state.trace.countP q
            = st.trace.countP q + pl.countP q)) := by
  have hslot : ∀ e, Event.is_slot_event i e = true → q e = false := by
    intro e he
    cases hx : q e
    · rfl
    · have := slot_event_not_parity i i e he
      rw [hq e hx] at this
      exact absurd this (by simp)
  have htail : ∀ e, Event.is_tail_event i e = true → q e = false := by
    intro e he
    cases hx : q e
    · rfl
    · have := tail_event_not_parity i i e he
      rw [hq e hx] at this
      exact absurd this (by simp)
  refine ⟨?_, ?_⟩
  · intro hb
    obtain ⟨-, -, -, a4, -⟩ := scrub_block_run env timelimit now countmax al i st h hlen
    exact countP_traceExt_zero q (a4 hb).2.2.2 hslot
  · intro hnb
    obtain ⟨sl, pl, tl, e1, e2, e3, e4, e5⟩ :=
      scrub_block_shape env timelimit now countmax al i st h hlen hnb
    have c1 := countP_all_false q sl (fun e he => hslot e (e2 e he))
    have c2 := countP_all_false q tl (fun e he => htail e (e3 e he))
    refine ⟨?_, ?_⟩
    · intro hd
      rw [e1, e4 hd]
      simp [List.countP_append, c1, c2]
    · intro hd
      refine ⟨pl, e5 hd, ?_⟩
      rw [e1]
      simp [List.countP_append, c1, c2]

theorem scrub_loop_count (env : ScrubEnv) (timelimit now : Int) (countmax al i : Nat)
    (q : Event → Bool) (hq : ∀ e, q e = true → Event.is_parity_event i e = true) :
    ∀ (n i0 : Nat) (st : ScrubState), st.buffer.length = env.diskmax + env.level * 2 →
      (i < i0 ∨ i0 + n ≤ i →
        (scrub_loop env timelimit now countmax al n i0 st).state.trace.countP q
          = st.trace.countP q) ∧
      (i0 ≤ i → i < i0 + n → processed st.trace i = false →
        (processed (scrub_loop env timelimit now countmax al n i0 st).state.trace i = false →
          (scrub_loop env timelimit now countmax al n i0 st).state.trace.countP q
            = st.trace.countP q) ∧
        (processed (scrub_loop env timelimit now countmax al n i0 st).state.trace i = true →
          ((data_io_error env i || data_hash_error env i) = true →
            (scrub_loop env timelimit now countmax al n i0 st).state.trace.countP q
              = st.trace.countP q) ∧
          ((data_io_error env i || data_hash_error env i) = false →
            ∃ pl, ParityShape env i pl ∧
              (scrub_loop env timelimit now countmax al n i0 st).state.trace.countP q
                = st.trace.countP q + pl.countP q))) := by
  intro n
  induction n with
  | zero =>
    intro i0 st _
    refine ⟨fun _ => rfl, ?_⟩
    intro h1 h2
    omega
  | succ n ih =>
    intro i0 st hlen
    by_cases hi : i0 = i
    · subst hi
      by_cases helig : eligible st.infoarr timelimit i0 = true
      · obtain ⟨-, a2, -, a4, a5⟩ :=
          scrub_block_run env timelimit now countmax al i0 st helig hlen
        obtain ⟨s1, s2⟩ := scrub_block_count_self env timelimit now countmax al i0 st helig hlen q hq
        unfold scrub_loop
        cases hR : scrub_block env timelimit now countmax al i0 st with
        | bail st1 =>
          rw [hR] at a4 s1
          simp only [BlockResult.state, BlockResult.is_bail] at a4 s1
          have hsame : processed st1.trace i0 = processed st.trace i0 :=
            processed_ext i0 (a4 trivial).2.2.2 (fun e he => slot_event_not_progress i0 i0 e he)
          simp only [LoopResult.state]
          refine ⟨fun hc => by omega, ?_⟩
          intro _ _ hnp
          refine ⟨fun _ => s1 trivial, ?_⟩
          intro hc
          rw [hsame, hnp] at hc
          exact absurd hc (by simp)
        | stop st1 =>
          rw [hR] at a5 s2
          simp only [BlockResult.state, BlockResult.is_bail] at a5 s2
          simp only [LoopResult.state]
          refine ⟨fun hc => by omega, ?_⟩
          intro _ _ hnp
          refine ⟨?_, fun _ => s2 trivial⟩
          intro hc
          rw [(a5 trivial).2.2.2] at hc
          exact absurd hc (by simp)
        | next st1 =>
          rw [hR] at a2 a5 s2
          simp only [BlockResult.state, BlockResult.is_bail] at a2 a5 s2
          obtain ⟨ihA, -⟩ := ih (i0 + 1) st1 (by rw [a2, hlen])
          obtain ⟨lA, -⟩ := scrub_loop_spec env timelimit now countmax al n (i0 + 1) st1
            (by rw [a2, hlen])
          obtain ⟨-, lA2⟩ := lA i0 (by omega)
          simp only []
          refine ⟨fun hc => by omega, ?_⟩
          intro _ _ hnp
          obtain ⟨t1, t2⟩ := s2 trivial
          refine ⟨?_, fun _ => ⟨?_, ?_⟩⟩
          · intro hc
            rw [lA2, (a5 trivial).2.2.2] at hc
            exact absurd hc (by simp)
          · intro hd
            rw [ihA (by omega), t1 hd]
          · intro hd
            obtain ⟨pl, hpl, hcnt⟩ := t2 hd
            exact ⟨pl, hpl, by rw [ihA (by omega), hcnt]⟩
      · have hsk := scrub_block_skip env timelimit now countmax al i0 st
          (by simpa using helig)
        obtain ⟨ihA, -⟩ := ih (i0 + 1) st hlen
        obtain ⟨lA, -⟩ := scrub_loop_spec env timelimit now countmax al n (i0 + 1) st hlen
        obtain ⟨-, lA2⟩ := lA i0 (by omega)
        unfold scrub_loop
        rw [hsk]
        simp only []
        refine ⟨fun hc => by omega, ?_⟩
        intro _ _ hnp
        refine ⟨fun _ => ihA (by omega), ?_⟩
        intro hc
        rw [lA2, hnp] at hc
        exact absurd hc (by simp)
    · have hcnt := scrub_block_count_other env timelimit now countmax al i i0 st hlen hi q hq
      have hlen1 : (scrub_block env timelimit now countmax al i0 st).state.buffer.length
          = env.diskmax + env.level * 2 := by
        by_cases helig : eligible st.infoarr timelimit i0 = true
        · rw [(scrub_block_run env timelimit now countmax al i0 st helig hlen).2.1, hlen]
        · rw [scrub_block_skip env timelimit now countmax al i0 st (by simpa using helig)]
          exact hlen
      have hpr : processed (scrub_block env timelimit now countmax al i0 st).state.trace i
          = processed st.trace i := by
        by_cases helig : eligible st.infoarr timelimit i0 = true
        · exact scrub_block_processed env timelimit now countmax al i0 st helig hlen i
            (Ne.symm hi)
        · rw [scrub_block_skip env timelimit now countmax al i0 st (by simpa using helig)]
          rfl
      unfold scrub_loop
      cases hR : scrub_block env timelimit now countmax al i0 st with
      | bail st1 =>
        rw [hR] at hcnt hpr
        simp only [BlockResult.state] at hcnt hpr
        simp only [LoopResult.state]
        refine ⟨fun _ => hcnt, ?_⟩
        intro _ _ hnp
        refine ⟨fun _ => hcnt, ?_⟩
        intro hc
        rw [hpr, hnp] at hc
        exact absurd hc (by simp)
      | stop st1 =>
        rw [hR] at hcnt hpr
        simp only [BlockResult.state] at hcnt hpr
        simp only [LoopResult.state]
        refine ⟨fun _ => hcnt, ?_⟩
        intro _ _ hnp
        refine ⟨fun _ => hcnt, ?_⟩
        intro hc
        rw [hpr, hnp] at hc
        exact absurd hc (by simp)
      | next st1 =>
        rw [hR] at hcnt hpr hlen1
        simp only [BlockResult.state] at hcnt hpr hlen1
        obtain ⟨ihA, ihB⟩ := ih (i0 + 1) st1 hlen1
        simp only []
        refine ⟨?_, ?_⟩
        · intro hc
          rw [ihA (by omega), hcnt]
        · intro h1 h2 hnp
          obtain ⟨b1, b2⟩ := ihB (by omega) (by omega) (by rw [hpr, hnp])
          refine ⟨?_, ?_⟩
          · intro hc
            rw [b1 hc, hcnt]
          · intro hc
            obtain ⟨c1, c2⟩ := b2 hc
            refine ⟨fun hd => by rw [c1 hd, hcnt], ?_⟩
            intro hd
            obtain ⟨pl, hpl, hx⟩ := c2 hd
            exact ⟨pl, hpl, by rw [hx, hcnt]⟩

theorem process_count (env : ScrubEnv) (infoarr : Nat → snapraid_info) (need_write : Int)
    (blockstart blockmax : Nat) (timelimit : Int) (countlimit : Nat) (now : Int) (i : Nat)
    (q : Event → Bool) (hq : ∀ e, q e = true → Event.is_parity_event i e = true) :
    (processed (state_scrub_process env infoarr need_write blockstart blockmax timelimit
        countlimit now).2.trace i = false →
      (state_scrub_process env infoarr need_write blockstart blockmax timelimit
        countlimit now).2.trace.countP q = 0) ∧
    (processed (state_scrub_process env infoarr need_write blockstart blockmax timelimit
        countlimit now).2.trace i = true →
      ((data_io_error env i || data_hash_error env i) = true →
        (state_scrub_process env infoarr need_write blockstart blockmax timelimit
          countlimit now).2.trace.countP q = 0) ∧
      ((data_io_error env i || data_hash_error env i) = false →
        ∃ pl, ParityShape env i pl ∧
          (state_scrub_process env infoarr need_write blockstart blockmax timelimit
            countlimit now).2.trace.countP q = pl.countP q)) := by
  obtain ⟨-, -, -, e4⟩ := process_exit env infoarr need_write blockstart blockmax timelimit
    countlimit now
  have hp := processed_ext i e4 (exit_event_not_progress i)
  have hexit : ∀ e, Event.is_exit_event e = true → q e = false := by
    intro e he
    cases hx : q e
    · rfl
    · have := exit_event_not_parity i e he
      rw [hq e hx] at this
      exact absurd this (by simp)
  have hc := countP_traceExt_zero q e4 hexit
  rw [hp, hc]
  unfold scrub_loop_state
  obtain ⟨A, B⟩ := scrub_loop_count env timelimit now
    (scrub_countmax infoarr blockstart blockmax timelimit countlimit)
    (scrub_autosavelimit env) i q hq
    (scrub_blocklimit infoarr blockstart blockmax timelimit countlimit - blockstart) blockstart
    (scrub_init env infoarr need_write blockstart blockmax
      (scrub_countmax infoarr blockstart blockmax timelimit countlimit))
    (by simp [scrub_init])
  obtain ⟨A2, -⟩ := scrub_loop_spec env timelimit now
    (scrub_countmax infoarr blockstart blockmax timelimit countlimit)
    (scrub_autosavelimit env)
    (scrub_blocklimit infoarr blockstart blockmax timelimit countlimit - blockstart) blockstart
    (scrub_init env infoarr need_write blockstart blockmax
      (scrub_countmax infoarr blockstart blockmax timelimit countlimit))
    (by simp [scrub_init])
  have h0 : processed (scrub_init env infoarr need_write blockstart blockmax
      (scrub_countmax infoarr blockstart blockmax timelimit countlimit)).trace i = false := by
    simp [scrub_init, processed, Event.is_progress_at]
  have hq0 : q (Event.state_progress_begin blockstart blockmax
      (scrub_countmax infoarr blockstart blockmax timelimit countlimit)) = false := by
    cases hx : q (Event.state_progress_begin blockstart blockmax
      (scrub_countmax infoarr blockstart blockmax timelimit countlimit))
    · rfl
    · have := hq _ hx
      simp [Event.is_parity_event] at this
  have c0 : (scrub_init env infoarr need_write blockstart blockmax
      (scrub_countmax infoarr blockstart blockmax timelimit countlimit)).trace.countP q = 0 := by
    simp [scrub_init, hq0]
  by_cases hin : blockstart ≤ i ∧
      i < blockstart + (scrub_blocklimit infoarr blockstart blockmax timelimit countlimit - blockstart)
  · obtain ⟨b1, b2⟩ := B hin.1 hin.2 h0
    refine ⟨fun hx => by rw [b1 hx, c0], ?_⟩
    intro hx
    obtain ⟨d1, d2⟩ := b2 hx
    refine ⟨fun hd => by rw [d1 hd, c0], ?_⟩
    intro hd
    obtain ⟨pl, hpl, hcnt⟩ := d2 hd
    exact ⟨pl, hpl, by rw [hcnt, c0, Nat.zero_add]⟩
  · have hcnt := A (by omega)
    obtain ⟨-, a2⟩ := A2 i (by omega)
    refine ⟨fun _ => by rw [hcnt, c0], ?_⟩
    intro hx
    rw [a2, h0] at hx
    exact absurd hx (by simp)

theorem parityShape_countP (env : ScrubEnv) (i : Nat) (pl : List Event)
    (h : ParityShape env i pl) (q : Event → Bool)
    (hlog : ∀ e, Event.is_log e = true → q e = false) :
    pl.countP q =
      (if q (Event.parity_read i (if env.level = 1 then env.diskmax + 1 else env.diskmax + 2))
        = true then 1 else 0) +
      (if 2 ≤ env.level then
        (if q (Event.qarity_read i (env.diskmax + 3)) = true then 1 else 0) else 0) +
      (if q (Event.raid_gen i) = true then 1 else 0) := by
  obtain ⟨l1, l2, l3, h1, h2, h3, rfl⟩ := h
  have z : ∀ l : List Event, ParityLogs i l → l.countP q = 0 := fun l hl =>
    countP_all_false q l (fun e he => hlog e (hl e he).1)
  rw [List.countP_append, List.countP_append, List.countP_cons, List.countP_cons, z l1 h1,
    z l3 h3]
  by_cases hl : 2 ≤ env.level
  · rw [if_pos hl, if_pos hl, List.countP_cons, z l2 h2]
    omega
  · rw [if_neg hl, if_neg hl, List.countP_nil]
    omega

theorem parityShape_counts (env : ScrubEnv) (i : Nat) (pl : List Event)
    (h : ParityShape env i pl) :
    pl.countP (Event.is_parity_read_at i) = 1 ∧
    pl.countP (Event.is_qarity_read_at i) = (if 2 ≤ env.level then 1 else 0) ∧
    pl.countP (Event.is_raid_gen_at i) = 1 := by
  have q1 : ∀ e, Event.is_log e = true → Event.is_parity_read_at i e = false := by
    intro e he; cases e <;> simp_all [Event.is_log, Event.is_parity_read_at]
  have q2 : ∀ e, Event.is_log e = true → Event.is_qarity_read_at i e = false := by
    intro e he; cases e <;> simp_all [Event.is_log, Event.is_qarity_read_at]
  have q3 : ∀ e, Event.is_log e = true → Event.is_raid_gen_at i e = false := by
    intro e he; cases e <;> simp_all [Event.is_log, Event.is_raid_gen_at]
  refine ⟨?_, ?_, ?_⟩
  · rw [parityShape_countP env i pl h _ q1]
    simp [Event.is_parity_read_at]
  · rw [parityShape_countP env i pl h _ q2]
    simp [Event.is_qarity_read_at]
  · rw [parityShape_countP env i pl h _ q3]
    simp [Event.is_raid_gen_at]

theorem any_range_bor_false (n : Nat) (p q : Nat → Bool)
    (h : ∀ j, j < n → p j = false ∧ q j = false) :
    ((List.range n).any p || (List.range n).any q) = false := by
  rw [any_range_false n p (fun j hj => (h j hj).1), any_range_false n q (fun j hj => (h j hj).2)]
  rfl

/-- C10: if some slot of block `i` has an open error, a read error or a stored-hash mismatch,
no event of a parity pass (`parity_read` of P or Q, `raid_gen`, a parity or qarity log line)
occurs for `i` in the run; if no slot has one and the run classifies block `i`, then
`parity_read` of P and `raid_gen` are each called exactly once for `i`, and `parity_read` of
Q once for `level >= 2` and never otherwise. -/
theorem scrub_parity_pass_gate (env : ScrubEnv) (infoarr : Nat → snapraid_info)
    (need_write : Int) (blockstart blockmax : Nat) (timelimit : Int) (countlimit : Nat)
    (now : Int) (i : Nat) :
    ((∃ j, j < env.diskmax ∧ (slot_io_error env i j = true ∨ slot_hash_error env i j = true)) →
      (state_scrub_process env infoarr need_write blockstart blockmax timelimit
        countlimit now).2.trace.countP (Event.is_parity_event i) = 0) ∧
    ((∀ j, j < env.diskmax → slot_io_error env i j = false ∧ slot_hash_error env i j = false) →
      processed (state_scrub_process env infoarr need_write blockstart blockmax timelimit
        countlimit now).2.trace i = true →
      (state_scrub_process env infoarr need_write blockstart blockmax timelimit
        countlimit now).2.trace.countP (Event.is_parity_read_at i) = 1 ∧
      (state_scrub_process env infoarr need_write blockstart blockmax timelimit
        countlimit now).2.trace.countP (Event.is_qarity_read_at i)
          = (if 2 ≤ env.level then 1 else 0) ∧
      (state_scrub_process env infoarr need_write blockstart blockmax timelimit
        countlimit now).2.trace.countP (Event.is_raid_gen_at i) = 1) := by
  refine ⟨?_, ?_⟩
  · rintro ⟨j, hj, herr⟩
    have hd : (data_io_error env i || data_hash_error env i) = true := by
      rcases herr with h | h
      · simp [data_io_error, any_range_true env.diskmax _ j hj h]
      · simp [data_hash_error, any_range_true env.diskmax _ j hj h]
    obtain ⟨c1, c2⟩ := process_count env infoarr need_write blockstart blockmax timelimit
      countlimit now i (Event.is_parity_event i) (fun e he => he)
    cases hp : processed (state_scrub_process env infoarr need_write blockstart blockmax
        timelimit countlimit now).2.trace i
    · exact c1 hp
    · exact (c2 hp).1 hd
  · intro hok hp
    have hd : (data_io_error env i || data_hash_error env i) = false :=
      any_range_bor_false env.diskmax _ _ hok
    have k1 : ∀ e, Event.is_parity_read_at i e = true → Event.is_parity_event i e = true := by
      intro e he; cases e <;> simp_all [Event.is_parity_read_at, Event.is_parity_event]
    have k2 : ∀ e, Event.is_qarity_read_at i e = true → Event.is_parity_event i e = true := by
      intro e he; cases e <;> simp_all [Event.is_qarity_read_at, Event.is_parity_event]
    have k3 : ∀ e, Event.is_raid_gen_at i e = true → Event.is_parity_event i e = true := by
      intro e he; cases e <;> simp_all [Event.is_raid_gen_at, Event.is_parity_event]
    obtain ⟨pl1, s1, n1⟩ := ((process_count env infoarr need_write blockstart blockmax timelimit
      countlimit now i _ k1).2 hp).2 hd
    obtain ⟨pl2, s2, n2⟩ := ((process_count env infoarr need_write blockstart blockmax timelimit
      countlimit now i _ k2).2 hp).2 hd
    obtain ⟨pl3, s3, n3⟩ := ((process_count env infoarr need_write blockstart blockmax timelimit
      countlimit now i _ k3).2 hp).2 hd
    exact ⟨by rw [n1, (parityShape_counts env i pl1 s1).1],
      by rw [n2, (parityShape_counts env i pl2 s2).2.1],
      by rw [n3, (parityShape_counts env i pl3 s3).2.2]⟩

set_option maxRecDepth 1000000 in
theorem scrub_parity_pass_gate_witness :
    ((∃ j, j < env_s2.diskmax ∧
        (slot_io_error env_s2 4 j = true ∨ slot_hash_error env_s2 4 j = true)) ∧
      (state_scrub_process env_s2 arr_s1 0 0 10 100 10 500).2.trace.countP
        (Event.is_parity_event 4) = 0) ∧
    ((∀ j, j < env_s2.diskmax →
        slot_io_error env_s2 3 j = false ∧ slot_hash_error env_s2 3 j = false) ∧
      processed (state_scrub_process env_s2 arr_s1 0 0 10 100 10 500).2.trace 3 = true ∧
      (state_scrub_process env_s2 arr_s1 0 0 10 100 10 500).2.trace.countP
        (Event.is_parity_read_at 3) = 1 ∧
      (state_scrub_process env_s2 arr_s1 0 0 10 100 10 500).2.trace.countP
        (Event.is_qarity_read_at 3) = 0 ∧
      (state_scrub_process env_s2 arr_s1 0 0 10 100 10 500).2.trace.countP
        (Event.is_raid_gen_at 3) = 1) :=
  ⟨⟨⟨1, by decide⟩,
      (scrub_parity_pass_gate env_s2 arr_s1 0 0 10 100 10 500 4).1 ⟨1, by decide⟩⟩,
    by decide, by decide,
    (scrub_parity_pass_gate env_s2 arr_s1 0 0 10 100 10 500 3).2 (by decide) (by decide)⟩

theorem scrub_slot_no_bail (env : ScrubEnv) (i j : Nat) (st : ScrubState) (fl : BlockFlags)
    (hc : ∀ i j, env.handle_close_ret i j ≠ -1) :
    ∃ st1 fl1, scrub_slot env i j st fl = .next st1 fl1 := by
  unfold scrub_slot
  simp only []
  split_ifs with h1 h2 h3 h4
  · exact ⟨_, _, rfl⟩
  · exact ⟨_, _, rfl⟩
  · exact absurd h4 (hc i j)
  · exact ⟨_, _, rfl⟩
  · exact ⟨_, _, rfl⟩

theorem scrub_slots_no_bail (env : ScrubEnv) (i : Nat)
    (hc : ∀ i j, env.handle_close_ret i j ≠ -1) :
    ∀ (n j : Nat) (st : ScrubState) (fl : BlockFlags),
      ∃ st1 fl1, scrub_slots env i n j st fl = .next st1 fl1 := by
  intro n
  induction n with
  | zero => intro j st fl; exact ⟨st, fl, rfl⟩
  | succ n ih =>
    intro j st fl
    obtain ⟨st1, fl1, h1⟩ := scrub_slot_no_bail env i j st fl hc
    obtain ⟨st2, fl2, h2⟩ := ih (j + 1) st1 fl1
    refine ⟨st2, fl2, ?_⟩
    unfold scrub_slots
    rw [h1]
    exact h2

theorem scrub_progress_no_stop (env : ScrubEnv) (countmax al i : Nat) (st : ScrubState)
    (hs : ∀ i cp cm cs, env.state_progress_ret i cp cm cs = 0) :
    ∃ st1, scrub_progress env countmax al i st = .next st1 := by
  unfold scrub_progress
  simp only [hs, ne_eq, not_true_eq_false, if_false]
  split_ifs
  · exact ⟨_, rfl⟩
  · exact ⟨_, rfl⟩

theorem scrub_block_uninterrupted (env : ScrubEnv) (timelimit now : Int) (countmax al i : Nat)
    (st : ScrubState) (hu : uninterrupted env) :
    ∃ st1, scrub_block env timelimit now countmax al i st = .next st1 := by
  unfold scrub_block
  simp only []
  split_ifs with h1 h2
  · exact ⟨st, rfl⟩
  · exact ⟨st, rfl⟩
  · obtain ⟨st2, fl2, hs⟩ := scrub_slots_no_bail env i hu.1 env.diskmax 0
      { st with autosavedone := st.autosavedone + 1
                autosavemissing := (st.autosavemissing + (2 ^ 32 - 1)) % 2 ^ 32 } ⟨false, false⟩
    rw [hs]
    simp only []
    exact scrub_progress_no_stop env countmax al i _ hu.2

theorem scrub_loop_uninterrupted (env : ScrubEnv) (timelimit now : Int) (countmax al : Nat)
    (hu : uninterrupted env) :
    ∀ (n i0 : Nat) (st : ScrubState), st.buffer.length = env.diskmax + env.level * 2 →
      (∃ st1, scrub_loop env timelimit now countmax al n i0 st = .done st1) ∧
      ∀ i, i0 ≤ i → i < i0 + n → eligible st.infoarr timelimit i = true →
        processed (scrub_loop env timelimit now countmax al n i0 st).state.trace i = true := by
  intro n
  induction n with
  | zero =>
    intro i0 st _
    refine ⟨⟨st, rfl⟩, ?_⟩
    intro i h1 h2
    omega
  | succ n ih =>
    intro i0 st hlen
    obtain ⟨st1, hb⟩ := scrub_block_uninterrupted env timelimit now countmax al i0 st hu
    have hlen1 : st1.buffer.length = env.diskmax + env.level * 2 := by
      by_cases helig : eligible st.infoarr timelimit i0 = true
      · have := (scrub_block_run env timelimit now countmax al i0 st helig hlen).2.1
        rw [hb] at this
        simpa [BlockResult.state, hlen] using this
      · have := scrub_block_skip env timelimit now countmax al i0 st (by simpa using helig)
        rw [hb] at this
        cases this
        exact hlen
    obtain ⟨ih1, ih2⟩ := ih (i0 + 1) st1 hlen1
    obtain ⟨lA, -⟩ := scrub_loop_spec env timelimit now countmax al n (i0 + 1) st1 hlen1
    unfold scrub_loop
    rw [hb]
    simp only []
    refine ⟨ih1, ?_⟩
    intro i h1 h2 helig
    by_cases hi : i = i0
    · subst hi
      obtain ⟨-, -, -, -, a5⟩ := scrub_block_run env timelimit now countmax al i st helig hlen
      rw [hb] at a5
      simp only [BlockResult.state, BlockResult.is_bail] at a5
      rw [(lA i (by omega)).2]
      exact (a5 trivial).2.2.2
    · apply ih2 i (by omega) (by omega)
      have hsame : st1.infoarr i = st.infoarr i := by
        by_cases he0 : eligible st.infoarr timelimit i0 = true
        · have := (scrub_block_run env timelimit now countmax al i0 st he0 hlen).1 i hi
          rw [hb] at this
          exact this
        · have := scrub_block_skip env timelimit now countmax al i0 st (by simpa using he0)
          rw [hb] at this
          cases this
          rfl
      rw [eligible_congr _ _ _ _ hsame]
      exact helig

/-- In a run that is not interrupted, the blocks that the run classifies are exactly the
used blocks of `[blockstart, blocklimit)` whose time is at most `timelimit`. -/
theorem processed_iff_uninterrupted (env : ScrubEnv) (infoarr : Nat → snapraid_info)
    (need_write : Int) (blockstart blockmax : Nat) (timelimit : Int) (countlimit : Nat)
    (now : Int) (hu : uninterrupted env) (i : Nat) :
    processed (state_scrub_process env infoarr need_write blockstart blockmax timelimit
        countlimit now).2.trace i = true ↔
      (blockstart ≤ i ∧ i < scrub_blocklimit infoarr blockstart blockmax timelimit countlimit ∧
        eligible infoarr timelimit i = true) := by
  constructor
  · intro hp
    obtain ⟨a1, a2, a3, -⟩ := (process_spec env infoarr need_write blockstart blockmax
      timelimit countlimit now i).1 hp
    exact ⟨a1, a2, a3⟩
  · rintro ⟨h1, h2, h3⟩
    obtain ⟨-, -, -, e4⟩ := process_exit env infoarr need_write blockstart blockmax timelimit
      countlimit now
    rw [processed_ext i e4 (exit_event_not_progress i)]
    unfold scrub_loop_state
    exact (scrub_loop_uninterrupted env timelimit now _ _ hu _ blockstart _
      (by simp [scrub_init])).2 i h1 (by omega) h3

theorem slot_hash_rw (env : ScrubEnv) (i j : Nat) (block : snapraid_block) (rs : Int)
    (st : ScrubState) (fl : BlockFlags) :
    TraceExt (Event.is_rw_event i) st (slot_hash env i j block rs st fl).1 := by
  unfold slot_hash
  simp only []
  split
  · split_ifs <;> simp [TraceExt, emit, inc_error, Event.is_rw_event]
  · simp [TraceExt, emit, Event.is_rw_event]

theorem slot_read_rw (env : ScrubEnv) (i j : Nat) (block : snapraid_block)
    (st : ScrubState) (fl : BlockFlags) :
    TraceExt (Event.is_rw_event i) st (slot_read env i j block st fl).1 := by
  unfold slot_read
  simp only []
  split_ifs with hr
  · simp [TraceExt, emit, inc_error, Event.is_rw_event]
  · refine traceExt_trans ?_ (slot_hash_rw env i j block _ _ fl)
    simp [TraceExt, emit, Event.is_rw_event]

theorem slot_open_rw (env : ScrubEnv) (i j : Nat) (block : snapraid_block)
    (st : ScrubState) (fl : BlockFlags) :
    TraceExt (Event.is_rw_event i) st (slot_open env i j block st fl).1 := by
  unfold slot_open
  simp only []
  split_ifs with ho
  · simp [TraceExt, emit, inc_error, Event.is_rw_event]
  · refine traceExt_trans ?_ (slot_read_rw env i j block _ fl)
    simp [TraceExt, emit, Event.is_rw_event]

theorem rw_event_work (env : ScrubEnv) (i : Nat) (e : Event)
    (h : Event.is_rw_event i e = true) : Event.is_work_event env i e = true := by
  cases e with
  | log a src kind =>
    cases src <;> simp_all [Event.is_rw_event, Event.is_work_event, Event.is_slot_event,
      Event.is_stopper]
  | _ => simp_all [Event.is_rw_event, Event.is_work_event, Event.is_slot_event,
      Event.is_stopper]

theorem parity_event_work (env : ScrubEnv) (i : Nat) (e : Event)
    (h : Event.is_parity_event i e = true) : Event.is_work_event env i e = true := by
  cases e with
  | log a src kind =>
    cases src <;> simp_all [Event.is_work_event, Event.is_parity_event, Event.is_stopper]
  | _ => simp_all [Event.is_work_event, Event.is_parity_event, Event.is_stopper]

/-- The two outcomes of a slot iteration: `goto bail` right after a failing `handle_close`
of this slot, or the next slot after events that do not end the scan. -/
theorem scrub_slot_anatomy (env : ScrubEnv) (i j : Nat) (st : ScrubState) (fl : BlockFlags) :
    (∃ st1, scrub_slot env i j st fl = .bail st1 ∧ env.handle_close_ret i j = -1 ∧
      st1.trace = st.trace ++ [Event.handle_close i j] ∧
      st1.error_total = st.error_total + 1) ∨
    (∃ st1 fl1, scrub_slot env i j st fl = .next st1 fl1 ∧
      TraceExt (Event.is_work_event env i) st st1) := by
  unfold scrub_slot
  simp only []
  split_ifs with h1 h2 h3 h4
  · exact Or.inr ⟨_, _, rfl, by simp [TraceExt, memset_zero]⟩
  · exact Or.inr ⟨_, _, rfl, by simp [TraceExt, memset_zero]⟩
  · exact Or.inl ⟨_, rfl, h4, by simp [emit, inc_error], by simp [emit, inc_error]⟩
  · refine Or.inr ⟨_, _, rfl, traceExt_trans ?_
      (traceExt_mono (rw_event_work env i) (slot_open_rw env i j _ _ fl))⟩
    simp [TraceExt, emit, Event.is_work_event, Event.is_slot_event, Event.is_stopper, h4]
  · exact Or.inr ⟨_, _, rfl, traceExt_mono (rw_event_work env i) (slot_open_rw env i j _ _ fl)⟩

/-- The two outcomes of the slot loop. -/
theorem scrub_slots_anatomy (env : ScrubEnv) (i : Nat) :
    ∀ (n j0 : Nat) (st : ScrubState) (fl : BlockFlags),
      (∃ st1 j pre, scrub_slots env i n j0 st fl = .bail st1 ∧ j0 ≤ j ∧ j < j0 + n ∧
        env.handle_close_ret i j = -1 ∧
        st1.trace = st.trace ++ pre ++ [Event.handle_close i j] ∧
        (∀ e ∈ pre, Event.is_work_event env i e = true) ∧ 0 < st1.error_total) ∨
      (∃ st1 fl1, scrub_slots env i n j0 st fl = .next st1 fl1 ∧
        TraceExt (Event.is_work_event env i) st st1) := by
  intro n
  induction n with
  | zero =>
    intro j0 st fl
    exact Or.inr ⟨st, fl, rfl, traceExt_refl _ st⟩
  | succ n ih =>
    intro j0 st fl
    unfold scrub_slots
    rcases scrub_slot_anatomy env i j0 st fl with ⟨st1, h1, h2, h3, h4⟩ | ⟨st1, fl1, h1, h2⟩
    · rw [h1]
      exact Or.inl ⟨st1, j0, [], rfl, le_refl _, by omega, h2, by simpa using h3,
        by simp, by omega⟩
    · rw [h1]
      simp only []
      rcases ih (j0 + 1) st1 fl1 with ⟨st2, j, pre, g1, g2, g3, g4, g5, g6, g7⟩ | ⟨st2, fl2, g1, g2⟩
      · obtain ⟨evs, he1, he2⟩ := h2
        refine Or.inl ⟨st2, j, evs ++ pre, g1, by omega, by omega, g4, ?_, ?_, g7⟩
        · rw [g5, he1]; simp [List.append_assoc]
        · intro e he
          rcases List.mem_append.mp he with hx | hx
          · exact he2 e hx
          · exact g6 e hx
      · exact Or.inr ⟨st2, fl2, g1, traceExt_trans h2 g2⟩

theorem scrub_classify_work (env : ScrubEnv) (now : Int) (i : Nat) (st : ScrubState)
    (fl : BlockFlags) :
    TraceExt (Event.is_work_event env i) st (scrub_classify now i st fl) := by
  unfold scrub_classify
  cases h1 : fl.error_on_this_block <;> cases h2 : fl.silent_error_on_this_block <;>
    simp [emit, TraceExt, Event.is_work_event, Event.is_stopper, Event.is_slot_event,
      Event.is_parity_event]

/-- The two outcomes of the iteration of a block that passes the skip filter: `goto bail`
right after a failing `handle_close`, with the store untouched, or the progress call
`scrub_progress` from a state `stm` reached by events that do not end the scan. -/
theorem scrub_block_anatomy (env : ScrubEnv) (timelimit now : Int) (countmax al i : Nat)
    (st : ScrubState) (h : eligible st.infoarr timelimit i = true)
    (hlen : st.buffer.length = env.diskmax + env.level * 2) :
    (∃ st2 j pre, scrub_block env timelimit now countmax al i st = .bail st2 ∧
      j < env.diskmax ∧ env.handle_close_ret i j = -1 ∧
      st2.trace = st.trace ++ pre ++ [Event.handle_close i j] ∧
      (∀ e ∈ pre, Event.is_work_event env i e = true) ∧
      st2.infoarr = st.infoarr ∧ st2.need_write = st.need_write ∧
      st2.countpos = st.countpos ∧ 0 < st2.error_total) ∨
    (∃ stm, scrub_block env timelimit now countmax al i st
        = scrub_progress env countmax al i stm ∧
      stm.countpos = st.countpos ∧ stm.autosavedone = st.autosavedone + 1 ∧
      stm.autosavemissing = (st.autosavemissing + (2 ^ 32 - 1)) % 2 ^ 32 ∧
      stm.need_write = 1 ∧ (∀ k, k ≠ i → stm.infoarr k = st.infoarr k) ∧
      stm.buffer.length = st.buffer.length ∧
      TraceExt (Event.is_work_event env i) st stm) := by
  have h0 : info_get st.infoarr i ≠ info_zero := by
    simp [eligible] at h; exact h.1
  have h1 : ¬ info_get_time (info_get st.infoarr i) > timelimit := by
    simp [eligible] at h; exact not_lt.mpr h.2
  unfold scrub_block
  simp only [h0, h1, if_false]
  obtain ⟨st1, hst1⟩ : ∃ st1 : ScrubState, st1 =
      { st with autosavedone := st.autosavedone + 1
                autosavemissing := (st.autosavemissing + (2 ^ 32 - 1)) % 2 ^ 32 } := ⟨_, rfl⟩
  rw [← hst1]
  have e1 : st1.infoarr = st.infoarr := by rw [hst1]
  have e2 : st1.buffer = st.buffer := by rw [hst1]
  have e3 : st1.trace = st.trace := by rw [hst1]
  have e4 : st1.need_write = st.need_write := by rw [hst1]
  have e5 : st1.countpos = st.countpos := by rw [hst1]
  have e6 : st1.autosavedone = st.autosavedone + 1 := by rw [hst1]
  have e7 : st1.autosavemissing = (st.autosavemissing + (2 ^ 32 - 1)) % 2 ^ 32 := by rw [hst1]
  have hlen1 : env.diskmax ≤ st1.buffer.length := by rw [e2]; omega
  have hstore := scrub_slots_state env i env.diskmax 0 st1 ⟨false, false⟩ (by omega)
  rcases scrub_slots_anatomy env i env.diskmax 0 st1 ⟨false, false⟩ with
    ⟨st2, j, pre, g1, -, g3, g4, g5, g6, g7⟩ | ⟨st2, fl2, g1, g2⟩
  · rw [g1] at hstore ⊢
    obtain ⟨s1, s2, s3, -⟩ := hstore.1
    simp only [SlotResult.state] at s1 s2 s3
    refine Or.inl ⟨st2, j, pre, rfl, by omega, g4, by rw [g5, e3], g6, by rw [s1, e1],
      by rw [s2, e4], by rw [s3, e5], g7⟩
  · rw [g1] at hstore ⊢
    obtain ⟨s1, s2, s3, s4, s5, s6⟩ := hstore.1
    simp only [SlotResult.state] at s1 s2 s3 s4 s5 s6
    simp only []
    obtain ⟨st3, fl3, hr, r1, r2⟩ :
        ∃ st3 fl3, (if fl2.error_on_this_block = false ∧ fl2.silent_error_on_this_block = false
          then scrub_parity env i st2 fl2 else (st2, fl2)) = (st3, fl3) ∧
          SameStore st2 st3 ∧ TraceExt (Event.is_work_event env i) st2 st3 := by
      by_cases hf : fl2.error_on_this_block = false ∧ fl2.silent_error_on_this_block = false
      · obtain ⟨p1, p2⟩ := scrub_parity_store env i st2 fl2
        exact ⟨(scrub_parity env i st2 fl2).1, (scrub_parity env i st2 fl2).2, by simp [hf],
          p1, traceExt_mono (parity_event_work env i) p2⟩
      · exact ⟨st2, fl2, by simp [hf], sameStore_refl st2, traceExt_refl _ st2⟩
    rw [hr]
    simp only []
    obtain ⟨t1, t2, t3, t4, t5, t6⟩ := r1
    obtain ⟨-, c2, c3, c4, c5, c6, c7, -⟩ := scrub_classify_spec now i st3 fl3
    refine Or.inr ⟨scrub_classify now i st3 fl3, rfl, ?_, ?_, ?_, c3, ?_, ?_, ?_⟩
    · rw [c4, t3, s3, e5]
    · rw [c5, t4, s4, e6]
    · rw [c6, t5, s5, e7]
    · intro k hk; rw [c2 k hk, t1, s1, e1]
    · rw [c7, t6, s6, e2]
    · have t01 : TraceExt (Event.is_work_event env i) st st1 := ⟨[], by simp [e3], by simp⟩
      exact traceExt_trans t01 (traceExt_trans g2 (traceExt_trans r2
        (scrub_classify_work env now i st3 fl3)))

theorem work_event_quiet (env : ScrubEnv) (i : Nat) (e : Event)
    (h : Event.is_work_event env i e = true) : Event.is_quiet env i e = true := by
  cases e with
  | log a src kind =>
    cases src <;> simp_all [Event.is_work_event, Event.is_quiet, Event.is_block_event]
  | _ => simp_all [Event.is_work_event, Event.is_quiet, Event.is_block_event]

theorem work_event_not_stopper (env : ScrubEnv) (i : Nat) (e : Event)
    (h : Event.is_work_event env i e = true) : Event.is_stopper env e = false := by
  simp only [Event.is_work_event, Bool.and_eq_true, Bool.not_eq_true'] at h
  exact h.2

theorem work_event_not_progress (env : ScrubEnv) (i k : Nat) (e : Event)
    (h : Event.is_work_event env i e = true) : Event.is_progress_at k e = false := by
  cases e <;> simp_all [Event.is_work_event, Event.is_progress_at, Event.is_slot_event,
    Event.is_parity_event]

theorem quiet_not_stopper (env : ScrubEnv) (i : Nat) (e : Event)
    (h : Event.is_quiet env i e = true) : Event.is_stopper env e = false := by
  simp only [Event.is_quiet, Bool.and_eq_true, Bool.not_eq_true'] at h
  exact h.2

theorem quiet_not_progress (env : ScrubEnv) (i k : Nat) (e : Event) (hk : k ≠ i)
    (h : Event.is_quiet env i e = true) : Event.is_progress_at k e = false := by
  simp only [Event.is_quiet, Bool.and_eq_true] at h
  cases hp : Event.is_progress_at k e
  · rfl
  · exact absurd (block_event_progress i k e h.1 hp) hk

/-- The three outcomes of the progress step: stop, next block after an autosave, next
block. -/
theorem scrub_progress_outcome (env : ScrubEnv) (countmax al i : Nat) (st : ScrubState) :
    (env.state_progress_ret i (st.countpos + 1) countmax st.countsize ≠ 0 ∧
      ∃ st1, scrub_progress env countmax al i st = .stop st1 ∧
        st1.trace = st.trace ++ [Event.state_progress i (st.countpos + 1) countmax st.countsize
          st.autosavedone st.autosavemissing] ∧
        st1.infoarr = st.infoarr ∧ st1.countpos = st.countpos + 1 ∧
        st1.need_write = st.need_write) ∨
    (env.state_progress_ret i (st.countpos + 1) countmax st.countsize = 0 ∧
      ∃ st1, scrub_progress env countmax al i st = .next st1 ∧
        st1.trace = st.trace ++ (Event.state_progress i (st.countpos + 1) countmax st.countsize
          st.autosavedone st.autosavemissing ::
          (if env.autosave ≠ 0 ∧ st.autosavedone ≥ al ∧ st.autosavemissing ≥ al
            then [Event.state_write] else [])) ∧
        st1.infoarr = st.infoarr ∧ st1.countpos = st.countpos + 1 ∧
        st1.autosavemissing = st.autosavemissing ∧
        st1.autosavedone =
          (if env.autosave ≠ 0 ∧ st.autosavedone ≥ al ∧ st.autosavemissing ≥ al
            then 0 else st.autosavedone) ∧
        st1.need_write =
          (if env.autosave ≠ 0 ∧ st.autosavedone ≥ al ∧ st.autosavemissing ≥ al
            then env.state_write_need_write st.need_write else st.need_write) ∧
        st1.buffer = st.buffer) := by
  obtain ⟨st2, hst2⟩ : ∃ st2 : ScrubState, st2 = emit { st with countpos := st.countpos + 1 }
      (Event.state_progress i (st.countpos + 1) countmax st.countsize st.autosavedone
        st.autosavemissing) := ⟨_, rfl⟩
  have key : scrub_progress env countmax al i st =
      if env.state_progress_ret i (st.countpos + 1) countmax st.countsize ≠ 0 then .stop st2
      else if env.autosave ≠ 0 ∧ st2.autosavedone ≥ al ∧ st2.autosavemissing ≥ al then
        .next (state_write env { st2 with autosavedone := 0 })
      else .next st2 := by
    rw [hst2]; rfl
  have f1 : st2.trace = st.trace ++ [Event.state_progress i (st.countpos + 1) countmax
      st.countsize st.autosavedone st.autosavemissing] := by rw [hst2]; rfl
  have f2 : st2.infoarr = st.infoarr := by rw [hst2]; rfl
  have f3 : st2.countpos = st.countpos + 1 := by rw [hst2]; rfl
  have f4 : st2.autosavemissing = st.autosavemissing := by rw [hst2]; rfl
  have f5 : st2.autosavedone = st.autosavedone := by rw [hst2]; rfl
  have f6 : st2.need_write = st.need_write := by rw [hst2]; rfl
  have f7 : st2.buffer = st.buffer := by rw [hst2]; rfl
  rw [key]
  by_cases hs : env.state_progress_ret i (st.countpos + 1) countmax st.countsize = 0
  · refine Or.inr ⟨hs, ?_⟩
    rw [if_neg (by simpa using hs), f4, f5]
    by_cases ha : env.autosave ≠ 0 ∧ st.autosavedone ≥ al ∧ st.autosavemissing ≥ al
    · rw [if_pos ha, if_pos ha, if_pos ha, if_pos ha]
      refine ⟨_, rfl, ?_, ?_, ?_, ?_, ?_, ?_, ?_⟩
      · simp [state_write, emit, f1]
      · simp [state_write, emit, f2]
      · simp [state_write, emit, f3]
      · simp [state_write, emit]
      · simp [state_write, emit]
      · simp [state_write, emit, f6]
      · simp [state_write, emit, f7]
    · rw [if_neg ha, if_neg ha, if_neg ha, if_neg ha]
      exact ⟨_, rfl, f1, f2, f3, f4, f5, f6, f7⟩
  · exact Or.inl ⟨hs, st2, by rw [if_pos hs], f1, f2, f3, f6⟩

/-- The three outcomes of the iteration of a block that passes the skip filter. -/
theorem scrub_block_outcome (env : ScrubEnv) (timelimit now : Int) (countmax al i : Nat)
    (st : ScrubState) (h : eligible st.infoarr timelimit i = true)
    (hlen : st.buffer.length = env.diskmax + env.level * 2) :
    (∃ st1, scrub_block env timelimit now countmax al i st = .next st1 ∧
      TraceExt (Event.is_quiet env i) st st1) ∨
    (∃ st1 pre cp cs d m, scrub_block env timelimit now countmax al i st = .stop st1 ∧
      st1.trace = st.trace ++ pre ++ [Event.state_progress i cp countmax cs d m] ∧
      env.state_progress_ret i cp countmax cs ≠ 0 ∧
      (∀ e ∈ pre, Event.is_work_event env i e = true)) ∨
    (∃ st1 j pre, scrub_block env timelimit now countmax al i st = .bail st1 ∧
      j < env.diskmax ∧ env.handle_close_ret i j = -1 ∧
      st1.trace = st.trace ++ pre ++ [Event.handle_close i j] ∧
      (∀ e ∈ pre, Event.is_work_event env i e = true) ∧
      st1.infoarr = st.infoarr ∧ st1.need_write = st.need_write ∧
      st1.countpos = st.countpos ∧ 0 < st1.error_total) := by
  rcases scrub_block_anatomy env timelimit now countmax al i st h hlen with
    hb | ⟨stm, g1, -, -, -, -, -, -, g8⟩
  · exact Or.inr (Or.inr hb)
  · obtain ⟨pre, hpre1, hpre2⟩ := g8
    rw [g1]
    rcases scrub_progress_outcome env countmax al i stm with
      ⟨hs, st1, p1, p2, -⟩ | ⟨hs, st1, p1, p2, -⟩
    · refine Or.inr (Or.inl ⟨st1, pre, stm.countpos + 1, stm.countsize, stm.autosavedone,
        stm.autosavemissing, p1, ?_, hs, hpre2⟩)
      rw [p2, hpre1]
    · refine Or.inl ⟨st1, p1, ?_⟩
      refine ⟨pre ++ _, by rw [p2, hpre1, List.append_assoc], ?_⟩
      intro e he
      rcases List.mem_append.mp he with hx | hx
      · exact work_event_quiet env i e (hpre2 e hx)
      · rcases List.mem_cons.mp hx with hy | hy
        · subst hy
          simp [Event.is_quiet, Event.is_block_event, Event.is_slot_event,
            Event.is_parity_event, Event.is_stopper, hs]
        · split_ifs at hy with hc
          · simp only [List.mem_singleton] at hy
            subst hy
            simp [Event.is_quiet, Event.is_block_event, Event.is_slot_event,
              Event.is_parity_event, Event.is_stopper]
          · exact absurd hy (List.not_mem_nil _)

/-- The frame of one iteration of the main loop: only the info of block `i` can change and
the buffers keep their number. -/
theorem scrub_block_frame (env : ScrubEnv) (timelimit now : Int) (countmax al i : Nat)
    (st : ScrubState) (hlen : st.buffer.length = env.diskmax + env.level * 2) :
    (∀ k, k ≠ i → (scrub_block env timelimit now countmax al i st).state.infoarr k
      = st.infoarr k) ∧
    (scrub_block env timelimit now countmax al i st).state.buffer.length
      = env.diskmax + env.level * 2 := by
  by_cases helig : eligible st.infoarr timelimit i = true
  · obtain ⟨a1, a2, -⟩ := scrub_block_run env timelimit now countmax al i st helig hlen
    exact ⟨a1, by rw [a2, hlen]⟩
  · rw [scrub_block_skip env timelimit now countmax al i st (by simpa using helig)]
    exact ⟨fun _ _ => rfl, hlen⟩

theorem errStep_refl (env : ScrubEnv) (st : ScrubState) : ErrStep env st st :=
  ⟨fun h => h, le_refl _⟩

theorem errStep_trans {env : ScrubEnv} {a b c : ScrubState} (h1 : ErrStep env a b)
    (h2 : ErrStep env b c) : ErrStep env a c :=
  ⟨fun h => h2.1 (h1.1 h), le_trans h1.2 h2.2⟩

theorem errStep_same (env : ScrubEnv) (st st1 : ScrubState) (h1 : st1.error = st.error)
    (h2 : st1.error_total = st.error_total) (h3 : st1.trace = st.trace) :
    ErrStep env st st1 := by
  unfold ErrStep ErrInv
  rw [h1, h2, h3]
  exact ⟨fun h => h, le_refl _⟩

theorem errStep_emit (env : ScrubEnv) (st : ScrubState) (e : Event)
    (he : Event.is_error env e = false) : ErrStep env st (emit st e) := by
  unfold ErrStep ErrInv
  simp [emit, List.countP_append, he]

theorem errStep_inc (env : ScrubEnv) (st : ScrubState) (e : Event)
    (he : Event.is_error env e = true) : ErrStep env st (inc_error (emit st e)) := by
  unfold ErrStep ErrInv
  simp only [emit, inc_error, List.countP_append, List.countP_cons, List.countP_nil, he]
  refine ⟨?_, by omega⟩
  rintro ⟨h1, h2⟩
  refine ⟨by rw [h1]; omega, ?_⟩
  simp [h2]

theorem slot_hash_err (env : ScrubEnv) (i j : Nat) (block : snapraid_block) (rs : Int)
    (st : ScrubState) (fl : BlockFlags) :
    ErrStep env st (slot_hash env i j block rs st fl).1 := by
  unfold slot_hash
  simp only []
  have h0 : ErrStep env st (emit { st with countsize :=
      (st.countsize + (rs % 2 ^ 64).toNat) % 2 ^ 64 } (.memhash i j)) :=
    errStep_trans (errStep_same env st _ rfl rfl rfl) (errStep_emit env _ _ rfl)
  split
  · split_ifs
    · exact errStep_trans h0 (errStep_inc env _ _ rfl)
    · exact h0
  · exact h0

theorem slot_read_err (env : ScrubEnv) (i j : Nat) (block : snapraid_block)
    (st : ScrubState) (fl : BlockFlags) :
    ErrStep env st (slot_read env i j block st fl).1 := by
  unfold slot_read
  simp only []
  have h0 : ErrStep env st (emit { st with buffer := st.buffer.set j (env.handle_read_data i j) }
      (.handle_read i j)) :=
    errStep_trans (errStep_same env st _ rfl rfl rfl) (errStep_emit env _ _ rfl)
  split_ifs
  · exact errStep_trans h0 (errStep_inc env _ _ rfl)
  · exact errStep_trans h0 (slot_hash_err env i j block _ _ fl)

theorem slot_open_err (env : ScrubEnv) (i j : Nat) (block : snapraid_block)
    (st : ScrubState) (fl : BlockFlags) :
    ErrStep env st (slot_open env i j block st fl).1 := by
  unfold slot_open
  simp only []
  have h0 : ErrStep env st (emit st (.handle_open i j)) := errStep_emit env _ _ rfl
  split_ifs
  · exact errStep_trans h0 (errStep_inc env _ _ rfl)
  · refine errStep_trans ?_ (slot_read_err env i j block _ fl)
    exact errStep_trans h0 (errStep_same env _ _ rfl rfl rfl)

theorem scrub_slot_err (env : ScrubEnv) (i j : Nat) (st : ScrubState) (fl : BlockFlags) :
    ErrStep env st (scrub_slot env i j st fl).state := by
  unfold scrub_slot
  simp only []
  split_ifs with h1 h2 h3 h4
  · exact errStep_same env st _ rfl rfl rfl
  · exact errStep_same env st _ rfl rfl rfl
  · exact errStep_inc env _ _ (by simp [Event.is_error, h4])
  · refine errStep_trans ?_ (slot_open_err env i j _ _ fl)
    have h0 : ErrStep env st { st with handle_file := fun k =>
        if k = j then none else st.handle_file k } := errStep_same env st _ rfl rfl rfl
    exact errStep_trans h0 (errStep_emit env _ _ (by simp [Event.is_error, h4]))
  · exact slot_open_err env i j _ _ fl

theorem scrub_slots_err (env : ScrubEnv) (i : Nat) :
    ∀ (n j : Nat) (st : ScrubState) (fl : BlockFlags),
      ErrStep env st (scrub_slots env i n j st fl).state := by
  intro n
  induction n with
  | zero => intro j st fl; exact errStep_refl env st
  | succ n ih =>
    intro j st fl
    have h1 := scrub_slot_err env i j st fl
    unfold scrub_slots
    cases hs : scrub_slot env i j st fl with
    | bail st1 => rw [hs] at h1; exact h1
    | next st1 fl1 =>
      rw [hs] at h1
      exact errStep_trans h1 (ih (j + 1) st1 fl1)

theorem parity_read_p_err (env : ScrubEnv) (i buf : Nat) (st : ScrubState) (fl : BlockFlags) :
    ErrStep env st (parity_read_p env i buf st fl).1 := by
  unfold parity_read_p
  simp only []
  have h0 : ErrStep env st (emit { st with buffer := st.buffer.set buf (env.parity_read_data i) }
      (.parity_read i buf)) :=
    errStep_trans (errStep_same env st _ rfl rfl rfl) (errStep_emit env _ _ rfl)
  split_ifs
  · exact errStep_trans h0 (errStep_inc env _ _ rfl)
  · exact h0

theorem parity_read_q_err (env : ScrubEnv) (i : Nat) (bq : Option Nat) (st : ScrubState)
    (fl : BlockFlags) : ErrStep env st (parity_read_q env i bq st fl).1 := by
  unfold parity_read_q
  simp only []
  have h0 : ErrStep env st (emit
      { st with buffer := match bq with
                          | some b => st.buffer.set b (env.qarity_read_data i)
                          | none => st.buffer }
      (.qarity_read i (bq.getD 0))) := by
    have h : ErrStep env st { st with buffer := match bq with
                          | some b => st.buffer.set b (env.qarity_read_data i)
                          | none => st.buffer } := errStep_same env st _ rfl rfl rfl
    exact errStep_trans h (errStep_emit env _ _ rfl)
  split_ifs
  · exact errStep_trans h0 (errStep_inc env _ _ rfl)
  · exact h0
  · exact errStep_refl env st

theorem parity_cmp_p_err (env : ScrubEnv) (i : Nat) (bp : Option Nat) (st : ScrubState)
    (fl : BlockFlags) : ErrStep env st (parity_cmp_p env i bp st fl).1 := by
  unfold parity_cmp_p
  split
  · split_ifs
    · exact errStep_inc env _ _ rfl
    · exact errStep_refl env st
  · exact errStep_refl env st

theorem parity_cmp_q_err (env : ScrubEnv) (i : Nat) (bq : Option Nat) (st : ScrubState)
    (fl : BlockFlags) : ErrStep env st (parity_cmp_q env i bq st fl).1 := by
  unfold parity_cmp_q
  split_ifs
  · split
    · split_ifs
      · exact errStep_inc env _ _ rfl
      · exact errStep_refl env st
    · exact errStep_refl env st
  · exact errStep_refl env st

theorem scrub_parity_err (env : ScrubEnv) (i : Nat) (st : ScrubState) (fl : BlockFlags) :
    ErrStep env st (scrub_parity env i st fl).1 := by
  unfold scrub_parity
  simp only []
  generalize (if env.level = 1 then env.diskmax + 1 else env.diskmax + 2) = bp
  generalize (if env.level = 1 then none else some (env.diskmax + 3)) = bq
  have h1 := parity_read_p_err env i bp st fl
  generalize parity_read_p env i bp st fl = rp at h1 ⊢
  have h2 := parity_read_q_err env i bq rp.1 rp.2.1
  generalize parity_read_q env i bq rp.1 rp.2.1 = rq at h2 ⊢
  have h3 : ErrStep env rq.1 (emit { rq.1 with buffer := raid_gen env rq.1.buffer }
      (.raid_gen i)) := by
    have h : ErrStep env rq.1 { rq.1 with buffer := raid_gen env rq.1.buffer } :=
      errStep_same env _ _ rfl rfl rfl
    exact errStep_trans h (errStep_emit env _ _ rfl)
  generalize emit { rq.1 with buffer := raid_gen env rq.1.buffer } (.raid_gen i) = st3
    at h3 ⊢
  have h4 := parity_cmp_p_err env i rp.2.2 st3 rq.2.1
  generalize parity_cmp_p env i rp.2.2 st3 rq.2.1 = cp at h4 ⊢
  exact errStep_trans h1 (errStep_trans h2 (errStep_trans h3
    (errStep_trans h4 (parity_cmp_q_err env i rq.2.2 cp.1 cp.2))))

theorem errStep_quiet (env : ScrubEnv) (st st1 : ScrubState) (h1 : st1.error = st.error)
    (h2 : st1.error_total = st.error_total)
    (h3 : st1.trace.countP (Event.is_error env) = st.trace.countP (Event.is_error env)) :
    ErrStep env st st1 := by
  unfold ErrStep ErrInv
  rw [h1, h2, h3]
  exact ⟨fun h => h, le_refl _⟩

theorem scrub_classify_err (env : ScrubEnv) (now : Int) (i : Nat) (st : ScrubState) (fl : BlockFlags) :
    ErrStep env st (scrub_classify now i st fl) := by
  apply errStep_quiet <;> unfold scrub_classify <;> simp only [] <;> split_ifs <;>
    simp [emit, Event.is_error, List.countP_append]

theorem scrub_progress_err (env : ScrubEnv) (countmax al i : Nat) (st : ScrubState) :
    ErrStep env st (scrub_progress env countmax al i st).state := by
  unfold scrub_progress
  simp only []
  have h0 : ErrStep env st (emit { st with countpos := st.countpos + 1 }
      (.state_progress i (st.countpos + 1) countmax st.countsize st.autosavedone
        st.autosavemissing)) :=
    errStep_trans (errStep_same env st _ rfl rfl rfl) (errStep_emit env _ _ rfl)
  split_ifs
  · exact h0
  · exact errStep_trans h0 (errStep_trans (errStep_same env _ _ rfl rfl rfl)
      (errStep_emit env _ _ rfl))
  · exact h0

theorem scrub_block_err (env : ScrubEnv) (timelimit now : Int) (countmax al i : Nat)
    (st : ScrubState) : ErrStep env st (scrub_block env timelimit now countmax al i st).state := by
  unfold scrub_block
  simp only []
  split_ifs
  · exact errStep_refl env st
  · exact errStep_refl env st
  · obtain ⟨st1, hst1⟩ : ∃ st1 : ScrubState, st1 =
        { st with autosavedone := st.autosavedone + 1,
                  autosavemissing := (st.autosavemissing + (2 ^ 32 - 1)) % 2 ^ 32 } := ⟨_, rfl⟩
    have h0 : ErrStep env st st1 := by
      rw [hst1]
      exact errStep_same env st _ rfl rfl rfl
    rw [← hst1]
    have h1 := scrub_slots_err env i env.diskmax 0 st1 ⟨false, false⟩
    cases hs : scrub_slots env i env.diskmax 0 st1 ⟨false, false⟩ with
    | bail st2 =>
      rw [hs] at h1
      exact errStep_trans h0 h1
    | next st2 fl2 =>
      rw [hs] at h1
      simp only []
      refine errStep_trans (errStep_trans h0 h1) ?_
      refine errStep_trans ?_ (scrub_progress_err env countmax al i _)
      refine errStep_trans ?_ (scrub_classify_err env now i _ _)
      split_ifs
      · exact scrub_parity_err env i st2 fl2
      · exact errStep_refl env st2

theorem scrub_loop_err (env : ScrubEnv) (timelimit now : Int) (countmax al : Nat) :
    ∀ (n i0 : Nat) (st : ScrubState),
      ErrStep env st (scrub_loop env timelimit now countmax al n i0 st).state := by
  intro n
  induction n with
  | zero => intro i0 st; exact errStep_refl env st
  | succ n ih =>
    intro i0 st
    have h1 := scrub_block_err env timelimit now countmax al i0 st
    unfold scrub_loop
    cases hb : scrub_block env timelimit now countmax al i0 st with
    | next st1 => rw [hb] at h1; exact errStep_trans h1 (ih (i0 + 1) st1)
    | stop st1 => rw [hb] at h1; exact h1
    | bail st1 => rw [hb] at h1; exact h1

theorem scrub_teardown_err (env : ScrubEnv) :
    ∀ (n j : Nat) (st : ScrubState), ErrStep env st (scrub_teardown env n j st) := by
  intro n
  induction n with
  | zero => intro j st; exact errStep_refl env st
  | succ n ih =>
    intro j st
    unfold scrub_teardown
    simp only []
    have h0 : ErrStep env st { st with handle_file := fun k =>
        if k = j then none else st.handle_file k } := errStep_same env st _ rfl rfl rfl
    split_ifs with h
    · exact errStep_trans (errStep_trans h0
        (errStep_inc env _ _ (by simp [Event.is_error, h]))) (ih _ _)
    · exact errStep_trans (errStep_trans h0
        (errStep_emit env _ _ (by simp [Event.is_error, h]))) (ih _ _)

/-- At the exit of `state_scrub_process` the counter `error` is the number of error events of
the run modulo `2 ^ 32`, and the errors counted by the loop are still counted. -/
theorem process_err (env : ScrubEnv) (infoarr : Nat → snapraid_info) (need_write : Int)
    (blockstart blockmax : Nat) (timelimit : Int) (countlimit : Nat) (now : Int) :
    ErrInv env (state_scrub_process env infoarr need_write blockstart blockmax timelimit
      countlimit now).2 ∧
    (scrub_loop_state env infoarr need_write blockstart blockmax timelimit countlimit
      now).error_total ≤ (state_scrub_process env infoarr need_write blockstart blockmax
      timelimit countlimit now).2.error_total ∧
    (state_scrub_process env infoarr need_write blockstart blockmax timelimit countlimit now).1
      = (if (state_scrub_process env infoarr need_write blockstart blockmax timelimit
          countlimit now).2.error ≠ 0 then -1 else 0) := by
  refine ⟨?_, ?_, rfl⟩
  · unfold state_scrub_process
    simp only []
    have h0 := scrub_loop_err env timelimit now
      (scrub_count infoarr timelimit countlimit blockmax (blockmax - blockstart) blockstart 0).1
      (scrub_autosavelimit env)
      ((scrub_count infoarr timelimit countlimit blockmax (blockmax - blockstart)
        blockstart 0).2 - blockstart) blockstart
      (scrub_init env infoarr need_write blockstart blockmax
        (scrub_count infoarr timelimit countlimit blockmax (blockmax - blockstart)
          blockstart 0).1)
    have hi : ErrInv env (scrub_init env infoarr need_write blockstart blockmax
        (scrub_count infoarr timelimit countlimit blockmax (blockmax - blockstart)
          blockstart 0).1) := by
      simp [ErrInv, scrub_init, Event.is_error]
    generalize scrub_loop env timelimit now _ _ _ blockstart _ = R at h0 ⊢
    cases R with
    | done st =>
      refine (scrub_teardown_err env _ _ _).1 ?_
      exact (errStep_emit env st (.state_progress_end st.countpos _ st.countsize) rfl).1
        (h0.1 hi)
    | bail st => exact (scrub_teardown_err env _ _ _).1 (h0.1 hi)
  · unfold state_scrub_process scrub_loop_state scrub_countmax scrub_blocklimit
    simp only []
    generalize scrub_loop env timelimit now _ _ _ blockstart _ = R
    cases R with
    | done st =>
      refine le_trans ?_ (scrub_teardown_err env _ _ _).2
      exact (errStep_emit env st (.state_progress_end st.countpos _ st.countsize) rfl).2
    | bail st => exact (scrub_teardown_err env _ _ _).2

theorem quiet_upto (env : ScrubEnv) (i0 i : Nat) (e : Event) (hi : i0 ≤ i)
    (h : Event.is_quiet env i0 e = true) : Event.is_upto i e = true := by
  cases e with
  | log k src kind =>
    cases src <;>
      simp_all [Event.is_quiet, Event.is_block_event, Event.is_slot_event,
        Event.is_parity_event, Event.is_upto]
  | _ =>
    simp_all [Event.is_quiet, Event.is_block_event, Event.is_slot_event,
      Event.is_parity_event, Event.is_upto]

theorem work_event_upto (env : ScrubEnv) (i : Nat) (e : Event)
    (h : Event.is_work_event env i e = true) : Event.is_upto i e = true := by
  cases e with
  | log k src kind =>
    cases src <;>
      simp_all [Event.is_work_event, Event.is_slot_event, Event.is_parity_event,
        Event.is_upto]
  | _ =>
    simp_all [Event.is_work_event, Event.is_slot_event, Event.is_parity_event,
      Event.is_upto]

theorem work_event_not_save (env : ScrubEnv) (i : Nat) (e : Event)
    (h : Event.is_work_event env i e = true) : Event.is_save e = false := by
  cases e <;>
    simp_all [Event.is_work_event, Event.is_slot_event, Event.is_parity_event, Event.is_save]

/-- The outcomes of the iteration of a block that passes the skip filter, with the values of
the counters: the iteration goes on (with or without an autosave), stops at the progress
call, or jumps to `bail` at a failing `handle_close`. -/
theorem scrub_block_detail (env : ScrubEnv) (timelimit now : Int) (countmax al i : Nat)
    (st : ScrubState) (h : eligible st.infoarr timelimit i = true)
    (hlen : st.buffer.length = env.diskmax + env.level * 2) :
    (∃ st1 pre cs, scrub_block env timelimit now countmax al i st = .next st1 ∧
      env.state_progress_ret i (st.countpos + 1) countmax cs = 0 ∧
      st1.trace = st.trace ++ pre ++
        (Event.state_progress i (st.countpos + 1) countmax cs (st.autosavedone + 1)
            ((st.autosavemissing + (2 ^ 32 - 1)) % 2 ^ 32) ::
          (if env.autosave ≠ 0 ∧ st.autosavedone + 1 ≥ al ∧
              (st.autosavemissing + (2 ^ 32 - 1)) % 2 ^ 32 ≥ al
            then [Event.state_write] else [])) ∧
      (∀ e ∈ pre, Event.is_work_event env i e = true) ∧
      st1.countpos = st.countpos + 1 ∧
      st1.autosavemissing = (st.autosavemissing + (2 ^ 32 - 1)) % 2 ^ 32 ∧
      st1.autosavedone =
        (if env.autosave ≠ 0 ∧ st.autosavedone + 1 ≥ al ∧
            (st.autosavemissing + (2 ^ 32 - 1)) % 2 ^ 32 ≥ al
          then 0 else st.autosavedone + 1) ∧
      st1.need_write =
        (if env.autosave ≠ 0 ∧ st.autosavedone + 1 ≥ al ∧
            (st.autosavemissing + (2 ^ 32 - 1)) % 2 ^ 32 ≥ al
          then env.state_write_need_write 1 else 1)) ∨
    (∃ st1 pre cs, scrub_block env timelimit now countmax al i st = .stop st1 ∧
      env.state_progress_ret i (st.countpos + 1) countmax cs ≠ 0 ∧
      st1.trace = st.trace ++ pre ++
        [Event.state_progress i (st.countpos + 1) countmax cs (st.autosavedone + 1)
          ((st.autosavemissing + (2 ^ 32 - 1)) % 2 ^ 32)] ∧
      (∀ e ∈ pre, Event.is_work_event env i e = true) ∧
      st1.countpos = st.countpos + 1 ∧ st1.need_write = 1) ∨
    (∃ st1 j pre, scrub_block env timelimit now countmax al i st = .bail st1 ∧
      j < env.diskmax ∧ env.handle_close_ret i j = -1 ∧
      st1.trace = st.trace ++ pre ++ [Event.handle_close i j] ∧
      (∀ e ∈ pre, Event.is_work_event env i e = true) ∧
      st1.infoarr = st.infoarr ∧ st1.need_write = st.need_write ∧
      st1.countpos = st.countpos ∧ 0 < st1.error_total) := by
  rcases scrub_block_anatomy env timelimit now countmax al i st h hlen with
    hb | ⟨stm, g1, g2, g3, g4, g5, -, -, g8⟩
  · exact Or.inr (Or.inr hb)
  · obtain ⟨pre, hpre1, hpre2⟩ := g8
    rw [g1]
    rcases scrub_progress_outcome env countmax al i stm with
      ⟨hs, st1, p1, p2, -, p4, p5⟩ | ⟨hs, st1, p1, p2, -, p4, p5, p6, p7, -⟩
    · rw [g2] at hs p2 p4
      rw [g3, g4] at p2
      refine Or.inr (Or.inl ⟨st1, pre, stm.countsize, p1, hs, ?_, hpre2, p4, ?_⟩)
      · rw [p2, hpre1]
      · rw [p5, g5]
    · rw [g2] at hs p2 p4
      rw [g3, g4] at p2 p6 p7
      rw [g4] at p5
      rw [g5] at p7
      refine Or.inl ⟨st1, pre, stm.countsize, p1, hs, ?_, hpre2, p4, p5, p6, p7⟩
      rw [p2, hpre1]

/-- Induction rule for the main loop over `[i0, iend)`: an invariant `I i` that each
iteration carries to the next index, with a property `Q` that holds where the loop leaves (end
of the range, stop, `bail`), gives `Q` at the exit of the loop. -/
theorem scrub_loop_rule (env : ScrubEnv) (timelimit now : Int) (countmax al : Nat)
    (I : Nat → ScrubState → Prop) (Q : ScrubState → Prop) (iend : Nat)
    (hend : ∀ st, I iend st → Q st)
    (hstep : ∀ i st, i < iend → st.buffer.length = env.diskmax + env.level * 2 → I i st →
      (∀ st1, scrub_block env timelimit now countmax al i st = .next st1 → I (i + 1) st1) ∧
      (∀ st1, scrub_block env timelimit now countmax al i st = .stop st1 → Q st1) ∧
      (∀ st1, scrub_block env timelimit now countmax al i st = .bail st1 → Q st1)) :
    ∀ (n i0 : Nat) (st : ScrubState), i0 + n = iend →
      st.buffer.length = env.diskmax + env.level * 2 →
      I i0 st → Q (scrub_loop env timelimit now countmax al n i0 st).state := by
  intro n
  induction n with
  | zero =>
    intro i0 st hi _ hI
    have h0 : i0 = iend := by omega
    subst h0
    exact hend st hI
  | succ n ih =>
    intro i0 st hi hlen hI
    obtain ⟨s1, s2, s3⟩ := hstep i0 st (by omega) hlen hI
    have fr := (scrub_block_frame env timelimit now countmax al i0 st hlen).2
    unfold scrub_loop
    cases hb : scrub_block env timelimit now countmax al i0 st with
    | next st1 =>
      rw [hb] at fr
      exact ih (i0 + 1) st1 (by omega) fr (s1 st1 hb)
    | stop st1 => exact s2 st1 hb
    | bail st1 => exact s3 st1 hb

/-- The three ways the main loop ends: at the end of the range without an event that ends
the scan, at a `state_progress` that asks to stop, or at a failing `handle_close`; in the last
two cases the events before the ending one belong to blocks up to the current one. -/
theorem scrub_loop_ends (env : ScrubEnv) (timelimit now : Int) (countmax al : Nat) :
    ∀ (n i0 : Nat) (st : ScrubState), st.buffer.length = env.diskmax + env.level * 2 →
      (∃ st1, scrub_loop env timelimit now countmax al n i0 st = .done st1 ∧
        TraceExt (fun e => !Event.is_stopper env e) st st1) ∨
      (∃ st1 i pre cp cs d m, scrub_loop env timelimit now countmax al n i0 st = .done st1 ∧
        i0 ≤ i ∧ i < i0 + n ∧
        st1.trace = st.trace ++ pre ++ [Event.state_progress i cp countmax cs d m] ∧
        env.state_progress_ret i cp countmax cs ≠ 0 ∧
        (∀ e ∈ pre, Event.is_stopper env e = false ∧ Event.is_upto i e = true) ∧
        (∀ k, i < k → st1.infoarr k = st.infoarr k)) ∨
      (∃ st1 i j pre, scrub_loop env timelimit now countmax al n i0 st = .bail st1 ∧
        i0 ≤ i ∧ i < i0 + n ∧ j < env.diskmax ∧ env.handle_close_ret i j = -1 ∧
        st1.trace = st.trace ++ pre ++ [Event.handle_close i j] ∧
        (∀ e ∈ pre, Event.is_stopper env e = false ∧ Event.is_progress_at i e = false ∧
          Event.is_upto i e = true) ∧
        (∀ k, i ≤ k → st1.infoarr k = st.infoarr k) ∧ 0 < st1.error_total) := by
  intro n
  induction n with
  | zero =>
    intro i0 st _
    exact Or.inl ⟨st, rfl, traceExt_refl _ st⟩
  | succ n ih =>
    intro i0 st hlen
    obtain ⟨fr1, fr2⟩ := scrub_block_frame env timelimit now countmax al i0 st hlen
    -- what the rest of the loop gives, from a state reached quietly at block `i0`
    have rest : ∀ st1, st1.buffer.length = env.diskmax + env.level * 2 →
        (∀ k, k ≠ i0 → st1.infoarr k = st.infoarr k) →
        TraceExt (Event.is_quiet env i0) st st1 →
        scrub_loop env timelimit now countmax al (n + 1) i0 st
          = scrub_loop env timelimit now countmax al n (i0 + 1) st1 →
        ((∃ st2, scrub_loop env timelimit now countmax al (n + 1) i0 st = .done st2 ∧
          TraceExt (fun e => !Event.is_stopper env e) st st2) ∨
        (∃ st2 i pre cp cs d m,
          scrub_loop env timelimit now countmax al (n + 1) i0 st = .done st2 ∧
          i0 ≤ i ∧ i < i0 + (n + 1) ∧
          st2.trace = st.trace ++ pre ++ [Event.state_progress i cp countmax cs d m] ∧
          env.state_progress_ret i cp countmax cs ≠ 0 ∧
          (∀ e ∈ pre, Event.is_stopper env e = false ∧ Event.is_upto i e = true) ∧
          (∀ k, i < k → st2.infoarr k = st.infoarr k)) ∨
        (∃ st2 i j pre, scrub_loop env timelimit now countmax al (n + 1) i0 st = .bail st2 ∧
          i0 ≤ i ∧ i < i0 + (n + 1) ∧ j < env.diskmax ∧ env.handle_close_ret i j = -1 ∧
          st2.trace = st.trace ++ pre ++ [Event.handle_close i j] ∧
          (∀ e ∈ pre, Event.is_stopper env e = false ∧ Event.is_progress_at i e = false ∧
            Event.is_upto i e = true) ∧
          (∀ k, i ≤ k → st2.infoarr k = st.infoarr k) ∧ 0 < st2.error_total)) := by
      intro st1 hlen1 hfr hq heq
      obtain ⟨evs, hevs1, hevs2⟩ := hq
      rw [heq]
      rcases ih (i0 + 1) st1 hlen1 with ⟨st2, a1, a2⟩ |
        ⟨st2, i, pre, cp, cs, d, m, a1, a2, a3, a4, a5, a6, a7⟩ |
        ⟨st2, i, j, pre, a1, a2, a3, a4, a5, a6, a7, a8, a9⟩
      · refine Or.inl ⟨st2, a1, traceExt_trans ⟨evs, hevs1, ?_⟩ a2⟩
        intro e he
        simp [quiet_not_stopper env i0 e (hevs2 e he)]
      · refine Or.inr (Or.inl ⟨st2, i, evs ++ pre, cp, cs, d, m, a1, by omega, by omega,
          by rw [a4, hevs1]; simp [List.append_assoc], a5, ?_, ?_⟩)
        · intro e he
          rcases List.mem_append.mp he with hx | hx
          · exact ⟨quiet_not_stopper env i0 e (hevs2 e hx),
              quiet_upto env i0 i e (by omega) (hevs2 e hx)⟩
          · exact a6 e hx
        · intro k hk
          rw [a7 k hk, hfr k (by omega)]
      · refine Or.inr (Or.inr ⟨st2, i, j, evs ++ pre, a1, by omega, by omega, a4, a5,
          by rw [a6, hevs1]; simp [List.append_assoc], ?_, ?_, a9⟩)
        · intro e he
          rcases List.mem_append.mp he with hx | hx
          · exact ⟨quiet_not_stopper env i0 e (hevs2 e hx),
              quiet_not_progress env i0 i e (by omega) (hevs2 e hx),
              quiet_upto env i0 i e (by omega) (hevs2 e hx)⟩
          · exact a7 e hx
        · intro k hk
          rw [a8 k hk, hfr k (by omega)]
    by_cases helig : eligible st.infoarr timelimit i0 = true
    · rcases scrub_block_outcome env timelimit now countmax al i0 st helig hlen with
        ⟨st1, b1, b2⟩ | ⟨st1, pre, cp, cs, d, m, b1, b2, b3, b4⟩ |
        ⟨st1, j, pre, b1, b2, b3, b4, b5, b6, -, -, b9⟩
      · rw [b1] at fr1 fr2
        exact rest st1 fr2 fr1 b2 (by rw [scrub_loop, b1])
      · rw [b1] at fr1
        refine Or.inr (Or.inl ⟨st1, i0, pre, cp, cs, d, m, by rw [scrub_loop, b1],
          le_refl _, by omega, b2, b3,
          fun e he => ⟨work_event_not_stopper env i0 e (b4 e he),
            work_event_upto env i0 e (b4 e he)⟩, ?_⟩)
        intro k hk
        exact fr1 k (by omega)
      · refine Or.inr (Or.inr ⟨st1, i0, j, pre, by rw [scrub_loop, b1], le_refl _, by omega,
          b2, b3, b4, ?_, fun k _ => by rw [b6], b9⟩)
        intro e he
        exact ⟨work_event_not_stopper env i0 e (b5 e he),
          work_event_not_progress env i0 i0 e (b5 e he),
          work_event_upto env i0 e (b5 e he)⟩
    · have hsk := scrub_block_skip env timelimit now countmax al i0 st (by simpa using helig)
      exact rest st hlen (fun _ _ => rfl) (traceExt_refl _ st) (by rw [scrub_loop, hsk])

/-- The teardown issues one `handle_close` per slot, in slot order, and nothing else. -/
theorem scrub_teardown_trace (env : ScrubEnv) :
    ∀ (n j : Nat) (st : ScrubState),
      (scrub_teardown env n j st).trace
        = st.trace ++ (List.range' j n).map Event.teardown_close := by
  intro n
  induction n with
  | zero => intro j st; simp [scrub_teardown]
  | succ n ih =>
    intro j st
    unfold scrub_teardown
    simp only []
    rw [ih]
    split_ifs <;> simp [emit, inc_error, List.range'_succ]

/-- The three shapes of the trace of `state_scrub_process`: the scan ends at the end of the
range, at a `state_progress` that asks to stop, or at a failing `handle_close`; the teardown
closes every slot in all three. -/
theorem process_ends (env : ScrubEnv) (infoarr : Nat → snapraid_info) (need_write : Int)
    (blockstart blockmax : Nat) (timelimit : Int) (countlimit : Nat) (now : Int) :
    (∃ mid cp cs,
      (state_scrub_process env infoarr need_write blockstart blockmax timelimit countlimit
        now).2.trace
        = Event.state_progress_begin blockstart blockmax
            (scrub_countmax infoarr blockstart blockmax timelimit countlimit) :: mid ++
          Event.state_progress_end cp
            (scrub_countmax infoarr blockstart blockmax timelimit countlimit) cs ::
          (List.range' 0 env.diskmax).map Event.teardown_close ∧
      (∀ e ∈ mid, Event.is_stopper env e = false)) ∨
    (∃ i pre cp cs d m cpe cse,
      blockstart ≤ i ∧ i < scrub_blocklimit infoarr blockstart blockmax timelimit countlimit ∧
      (state_scrub_process env infoarr need_write blockstart blockmax timelimit countlimit
        now).2.trace
        = Event.state_progress_begin blockstart blockmax
            (scrub_countmax infoarr blockstart blockmax timelimit countlimit) :: pre ++
          Event.state_progress i cp
            (scrub_countmax infoarr blockstart blockmax timelimit countlimit) cs d m ::
          Event.state_progress_end cpe
            (scrub_countmax infoarr blockstart blockmax timelimit countlimit) cse ::
          (List.range' 0 env.diskmax).map Event.teardown_close ∧
      env.state_progress_ret i cp
        (scrub_countmax infoarr blockstart blockmax timelimit countlimit) cs ≠ 0 ∧
      (∀ e ∈ pre, Event.is_stopper env e = false ∧ Event.is_upto i e = true) ∧
      (∀ k, i < k → (state_scrub_process env infoarr need_write blockstart blockmax timelimit
        countlimit now).2.infoarr k = infoarr k)) ∨
    (∃ i j pre,
      blockstart ≤ i ∧ i < scrub_blocklimit infoarr blockstart blockmax timelimit countlimit ∧
      j < env.diskmax ∧ env.handle_close_ret i j = -1 ∧
      (state_scrub_process env infoarr need_write blockstart blockmax timelimit countlimit
        now).2.trace
        = Event.state_progress_begin blockstart blockmax
            (scrub_countmax infoarr blockstart blockmax timelimit countlimit) :: pre ++
          Event.handle_close i j :: (List.range' 0 env.diskmax).map Event.teardown_close ∧
      (∀ e ∈ pre, Event.is_stopper env e = false ∧ Event.is_progress_at i e = false ∧
        Event.is_upto i e = true) ∧
      (∀ k, i ≤ k → (state_scrub_process env infoarr need_write blockstart blockmax timelimit
        countlimit now).2.infoarr k = infoarr k) ∧
      0 < (state_scrub_process env infoarr need_write blockstart blockmax timelimit countlimit
        now).2.error_total) := by
  unfold state_scrub_process scrub_countmax scrub_blocklimit
  simp only []
  generalize (scrub_count infoarr timelimit countlimit blockmax (blockmax - blockstart)
    blockstart 0).1 = cm
  generalize (scrub_count infoarr timelimit countlimit blockmax (blockmax - blockstart)
    blockstart 0).2 = bl
  have h0 : (scrub_init env infoarr need_write blockstart blockmax cm).trace
      = [Event.state_progress_begin blockstart blockmax cm] := rfl
  have h1 : (scrub_init env infoarr need_write blockstart blockmax cm).infoarr = infoarr := rfl
  rcases scrub_loop_ends env timelimit now cm (scrub_autosavelimit env) (bl - blockstart)
      blockstart (scrub_init env infoarr need_write blockstart blockmax cm)
      (by simp [scrub_init]) with
    ⟨st1, a1, mid, a2, a3⟩ |
    ⟨st1, i, pre, cp, cs, d, m, a1, a2, a3, a4, a5, a6, a7⟩ |
    ⟨st1, i, j, pre, a1, a2, a3, a4, a5, a6, a7, a8, a9⟩
  · refine Or.inl ⟨mid, st1.countpos, st1.countsize, ?_, ?_⟩
    · rw [a1]
      simp only []
      rw [scrub_teardown_trace]
      simp [emit, a2, h0]
    · intro e he
      simpa using a3 e he
  · refine Or.inr (Or.inl ⟨i, pre, cp, cs, d, m, st1.countpos, st1.countsize, a2, by omega,
      ?_, a5, a6, ?_⟩)
    · rw [a1]
      simp only []
      rw [scrub_teardown_trace]
      simp [emit, a4, h0]
    · intro k hk
      rw [a1]
      simp only []
      rw [(scrub_teardown_spec env _ _ _).1]
      simpa [emit, h1] using a7 k hk
  · refine Or.inr (Or.inr ⟨i, j, pre, a2, by omega, a4, a5, ?_, a7, ?_, ?_⟩)
    · rw [a1]
      simp only []
      rw [scrub_teardown_trace]
      simp [a6, h0]
    · intro k hk
      rw [a1]
      simp only []
      rw [(scrub_teardown_spec env _ _ _).1]
      simpa [h1] using a8 k hk
    · rw [a1]
      simp only []
      exact lt_of_lt_of_le a9 (scrub_teardown_err env _ _ _).2

theorem upto_not_progress (i k : Nat) (hk : i < k) (e : Event)
    (h : Event.is_upto i e = true) : Event.is_progress_at k e = false := by
  cases e <;> simp_all [Event.is_upto, Event.is_progress_at]
  omega

/-- C16: if a `handle_close` of the scan fails at slot `j` of block `i`, the run aborts there:
the trace ends with that call followed only by the `handle_close` of every slot of
`[0, diskmax)` in the teardown, every earlier event belongs to a block up to `i`, block `i`
and the later blocks are not classified and keep their pre-run info, and the function
returns `-1` (the `unsigned` counter `error` not wrapping). -/
theorem scrub_close_failure_aborts (env : ScrubEnv) (infoarr : Nat → snapraid_info)
    (need_write : Int) (blockstart blockmax : Nat) (timelimit : Int) (countlimit : Nat)
    (now : Int) (i j : Nat)
    (hc : Event.handle_close i j ∈ (state_scrub_process env infoarr need_write blockstart
      blockmax timelimit countlimit now).2.trace)
    (hf : env.handle_close_ret i j = -1)
    (hw : (state_scrub_process env infoarr need_write blockstart blockmax timelimit countlimit
      now).2.trace.countP (Event.is_error env) < 2 ^ 32) :
    (∃ pre,
      (state_scrub_process env infoarr need_write blockstart blockmax timelimit countlimit
        now).2.trace
        = Event.state_progress_begin blockstart blockmax
            (scrub_countmax infoarr blockstart blockmax timelimit countlimit) :: pre ++
          Event.handle_close i j :: (List.range' 0 env.diskmax).map Event.teardown_close ∧
      ∀ e ∈ pre, Event.is_upto i e = true ∧ Event.is_stopper env e = false) ∧
    (blockstart ≤ i ∧ i < scrub_blocklimit infoarr blockstart blockmax timelimit countlimit ∧
      j < env.diskmax) ∧
    (∀ k, i ≤ k →
      (state_scrub_process env infoarr need_write blockstart blockmax timelimit countlimit
        now).2.infoarr k = infoarr k ∧
      processed (state_scrub_process env infoarr need_write blockstart blockmax timelimit
        countlimit now).2.trace k = false) ∧
    (state_scrub_process env infoarr need_write blockstart blockmax timelimit countlimit now).1
      = -1 := by
  have hstop : Event.is_stopper env (Event.handle_close i j) = true := by
    simp [Event.is_stopper, hf]
  rcases process_ends env infoarr need_write blockstart blockmax timelimit countlimit now with
    ⟨mid, cp, cs, a1, a2⟩ |
    ⟨i1, pre, cp, cs, d, m, cpe, cse, -, -, a1, -, a2, -⟩ |
    ⟨i1, j1, pre, b1, b2, b3, b4, a1, a2, a3, a4⟩
  · rw [a1] at hc
    simp at hc
    rw [a2 _ hc] at hstop
    cases hstop
  · rw [a1] at hc
    simp at hc
    rw [(a2 _ hc).1] at hstop
    cases hstop
  · have hij : i = i1 ∧ j = j1 := by
      rw [a1] at hc
      simp at hc
      rcases hc with hc | hc
      · rw [(a2 _ hc).1] at hstop
        cases hstop
      · exact hc
    obtain ⟨rfl, rfl⟩ := hij
    refine ⟨⟨pre, a1, fun e he => ⟨(a2 e he).2.2, (a2 e he).1⟩⟩, ⟨b1, b2, b3⟩, ?_, ?_⟩
    · intro k hk
      refine ⟨a3 k hk, ?_⟩
      rw [a1]
      have hpre : ∀ e ∈ pre, Event.is_progress_at k e = false := by
        intro e he
        rcases Nat.eq_or_lt_of_le hk with h | h
        · rw [← h]
          exact (a2 e he).2.1
        · exact upto_not_progress i k h e (a2 e he).2.2
      simp only [processed, List.any_cons, List.any_append, List.any_map]
      have h1 : pre.any (Event.is_progress_at k) = false := by
        rw [List.any_eq_false]
        intro e he
        simp [hpre e he]
      rw [h1]
      simp [Event.is_progress_at, Function.comp_def]
    · obtain ⟨⟨e1, e2⟩, -, e3⟩ := process_err env infoarr need_write blockstart blockmax
        timelimit countlimit now
      rw [e3, e1, Nat.mod_eq_of_lt (by rw [e2]; exact hw)]
      rw [if_pos (by omega)]

set_option maxRecDepth 1000000 in
theorem scrub_close_failure_aborts_witness :
    (Event.handle_close 3 1 ∈ (state_scrub_process env_close arr_s1 0 0 10 100 10 500).2.trace ∧
      env_close.handle_close_ret 3 1 = -1) ∧
    (∀ k, 3 ≤ k →
      (state_scrub_process env_close arr_s1 0 0 10 100 10 500).2.infoarr k = arr_s1 k ∧
      processed (state_scrub_process env_close arr_s1 0 0 10 100 10 500).2.trace k = false) ∧
    (state_scrub_process env_close arr_s1 0 0 10 100 10 500).1 = -1 :=
  ⟨⟨by decide, by decide⟩,
    (scrub_close_failure_aborts env_close arr_s1 0 0 10 100 10 500 3 1 (by decide) (by decide)
      (by decide)).2.2⟩

theorem scrub_block_nosave (env : ScrubEnv) (timelimit now : Int) (countmax al i : Nat)
    (st : ScrubState) (hlen : st.buffer.length = env.diskmax + env.level * 2)
    (ha : env.autosave = 0) (hI : Event.state_write ∉ st.trace) :
    Event.state_write ∉ (scrub_block env timelimit now countmax al i st).state.trace := by
  have hw : ∀ pre : List Event, (∀ e ∈ pre, Event.is_work_event env i e = true) →
      Event.state_write ∉ pre := by
    intro pre hpre hmem
    have := work_event_not_save env i _ (hpre _ hmem)
    simp [Event.is_save] at this
  by_cases helig : eligible st.infoarr timelimit i = true
  · rcases scrub_block_detail env timelimit now countmax al i st helig hlen with
      ⟨st1, pre, cs, b1, -, b3, b4, -⟩ | ⟨st1, pre, cs, b1, -, b3, b4, -⟩ |
      ⟨st1, j, pre, b1, -, -, b3, b4, -⟩
    · rw [b1]
      simp only [BlockResult.state, b3, ha]
      simp [hI, hw pre b4]
    · rw [b1]
      simp only [BlockResult.state, b3]
      simp [hI, hw pre b4]
    · rw [b1]
      simp only [BlockResult.state, b3]
      simp [hI, hw pre b4]
  · rw [scrub_block_skip env timelimit now countmax al i st (by simpa using helig)]
    exact hI

/-- C12: with `state->autosave = 0` no run of `state_scrub_process` calls `state_write`,
whatever the blocks processed and the values of `diskmax` and `block_size`. -/
theorem scrub_autosave_off (env : ScrubEnv) (infoarr : Nat → snapraid_info) (need_write : Int)
    (blockstart blockmax : Nat) (timelimit : Int) (countlimit : Nat) (now : Int)
    (ha : env.autosave = 0) :
    Event.state_write ∉ (state_scrub_process env infoarr need_write blockstart blockmax
      timelimit countlimit now).2.trace := by
  obtain ⟨-, -, -, evs, e1, e2⟩ := process_exit env infoarr need_write blockstart blockmax
    timelimit countlimit now
  have hloop : Event.state_write ∉ (scrub_loop_state env infoarr need_write blockstart
      blockmax timelimit countlimit now).trace := by
    unfold scrub_loop_state
    refine scrub_loop_rule env timelimit now _ _ (fun _ s => Event.state_write ∉ s.trace)
      (fun s => Event.state_write ∉ s.trace) _ (fun _ h => h) ?_ _ _ _ rfl
      (by simp [scrub_init]) (by simp [scrub_init])
    intro i s _ hl hs
    have h := scrub_block_nosave env timelimit now
      (scrub_countmax infoarr blockstart blockmax timelimit countlimit)
      (scrub_autosavelimit env) i s hl ha hs
    refine ⟨?_, ?_, ?_⟩ <;> intro s1 hb <;> rw [hb] at h <;> exact h
  rw [e1]
  intro hmem
  rcases List.mem_append.mp hmem with h | h
  · exact hloop h
  · have := e2 _ h
    simp [Event.is_exit_event] at this

set_option maxRecDepth 1000000 in
theorem scrub_autosave_off_witness :
    env_s1.autosave = 0 ∧
    Event.state_write ∉ (state_scrub_process env_s1 arr_s1 0 0 10 100 10 500).2.trace ∧
    Event.state_write ∈ (state_scrub_process env_s6 arr_s1 0 0 10 100 10 500).2.trace :=
  ⟨rfl, scrub_autosave_off env_s1 arr_s1 0 0 10 100 10 500 rfl, by decide⟩

/-- The planner finds no used block when `blockmax = 0` or every entry of `[0, blockmax)` is
unused. -/
theorem scrub_plan_empty (infoarr : Nat → snapraid_info) (blockmax : Nat) (now : Int)
    (h : blockmax = 0 ∨ ∀ i, i < blockmax → infoarr i = info_zero) :
    scrub_plan infoarr blockmax now = none := by
  have hmap : scrub_infomap infoarr blockmax = [] := by
    unfold scrub_infomap
    rw [List.filter_eq_nil_iff]
    intro a ha
    rcases h with h | h
    · subst h
      simp at ha
    · obtain ⟨i, hi, rfl⟩ := List.mem_map.mp ha
      simp [info_get, h i (List.mem_range.mp hi)]
  unfold scrub_plan
  simp [hmap]

/-- C14: when `blockmax = 0` or every entry of `[0, blockmax)` is unused, the planner finds no
used block and `state_scrub` exits with the empty-array failure before any call: no parity
file is opened and `state_scrub_process` is not entered, so no handle is opened or read and
no info is written. -/
theorem scrub_empty_array (env : ScrubEnv) (infoarr : Nat → snapraid_info) (need_write : Int)
    (blockmax : Nat) (now : Int)
    (h : blockmax = 0 ∨ ∀ i, i < blockmax → infoarr i = info_zero) :
    scrub_plan infoarr blockmax now = none ∧
    state_scrub env infoarr need_write blockmax now = .exit_failure [] := by
  have hplan := scrub_plan_empty infoarr blockmax now h
  refine ⟨hplan, ?_⟩
  unfold state_scrub
  rw [hplan]

theorem scrub_empty_array_witness :
    (∀ i, i < 5 → (fun _ => info_zero) i = info_zero) ∧
    state_scrub env_s1 (fun _ => info_zero) 0 5 500 = .exit_failure [] ∧
    state_scrub env_s1 arr_s1 0 0 500 = .exit_failure [] :=
  ⟨fun _ _ => rfl,
    (scrub_empty_array env_s1 (fun _ => info_zero) 0 5 500 (Or.inr (fun _ _ => rfl))).2,
    (scrub_empty_array env_s1 arr_s1 0 0 500 (Or.inl rfl)).2⟩

/-- Where the pre-pass stops: at `blockmax`, or at a block that passes the skip filter once
the quota is reached. -/
theorem scrub_count_limit (infoarr : Nat → snapraid_info) (timelimit : Int)
    (countlimit blockmax : Nat) :
    ∀ (n i0 c : Nat), blockmax - i0 = n → c ≤ countlimit →
      (scrub_count infoarr timelimit countlimit blockmax n i0 c).2 = blockmax ∨
      ((scrub_count infoarr timelimit countlimit blockmax n i0 c).2 < blockmax ∧
        eligible infoarr timelimit
          (scrub_count infoarr timelimit countlimit blockmax n i0 c).2 = true ∧
        (scrub_count infoarr timelimit countlimit blockmax n i0 c).1 = countlimit) := by
  intro n
  induction n with
  | zero =>
    intro i0 c _ _
    exact Or.inl rfl
  | succ n ih =>
    intro i0 c hn hc
    unfold scrub_count
    simp only []
    by_cases h0 : info_get infoarr i0 = info_zero
    · simp only [h0, if_true]
      exact ih (i0 + 1) c (by omega) hc
    · by_cases h1 : info_get_time (info_get infoarr i0) > timelimit
      · simp only [h0, h1, if_false, if_true]
        exact ih (i0 + 1) c (by omega) hc
      · simp only [h0, h1, if_false]
        by_cases h2 : c ≥ countlimit
        · simp only [h2, if_true]
          exact Or.inr ⟨by omega, by simp [eligible, h0, not_lt.mp h1], by omega⟩
        · simp only [h2, if_false]
          exact ih (i0 + 1) (c + 1) (by omega) (by omega)

theorem eligible_count_split (infoarr : Nat → snapraid_info) (timelimit : Int)
    (i0 a b : Nat) :
    eligible_count infoarr timelimit i0 (a + b)
      = eligible_count infoarr timelimit i0 a + eligible_count infoarr timelimit (i0 + a) b := by
  unfold eligible_count
  rw [Nat.add_comm a b, ← List.range'_append_1, List.countP_append]

theorem eligible_count_succ (infoarr : Nat → snapraid_info) (timelimit : Int) (i0 n : Nat) :
    eligible_count infoarr timelimit i0 (n + 1)
      = (if eligible infoarr timelimit i0 = true then 1 else 0)
        + eligible_count infoarr timelimit (i0 + 1) n := by
  unfold eligible_count
  rw [List.range'_succ, List.countP_cons]
  omega

theorem eligible_count_congr (a b : Nat → snapraid_info) (timelimit : Int) (i0 n : Nat)
    (h : ∀ k, i0 ≤ k → a k = b k) :
    eligible_count a timelimit i0 n = eligible_count b timelimit i0 n := by
  unfold eligible_count
  apply List.countP_congr
  intro k hk
  rw [eligible_congr a b timelimit k (h k (List.mem_range'_1.mp hk).1)]

/-- The result of the pre-pass: `countmax` is the smaller of `countlimit` and the number of
blocks of `[blockstart, blockmax)` that pass the skip filter; `blocklimit` is `blockmax` when
there are at most `countlimit` such blocks, and otherwise the block that passes the filter
with exactly `countlimit` such blocks before it. -/
theorem scrub_prepass (infoarr : Nat → snapraid_info) (blockstart blockmax : Nat)
    (timelimit : Int) (countlimit : Nat) :
    scrub_countmax infoarr blockstart blockmax timelimit countlimit
      = min countlimit (eligible_count infoarr timelimit blockstart (blockmax - blockstart)) ∧
    scrub_countmax infoarr blockstart blockmax timelimit countlimit
      = eligible_count infoarr timelimit blockstart
          (scrub_blocklimit infoarr blockstart blockmax timelimit countlimit - blockstart) ∧
    scrub_blocklimit infoarr blockstart blockmax timelimit countlimit ≤ blockmax ∧
    (eligible_count infoarr timelimit blockstart (blockmax - blockstart) ≤ countlimit →
      scrub_blocklimit infoarr blockstart blockmax timelimit countlimit = blockmax) ∧
    (countlimit < eligible_count infoarr timelimit blockstart (blockmax - blockstart) →
      blockstart ≤ scrub_blocklimit infoarr blockstart blockmax timelimit countlimit ∧
      scrub_blocklimit infoarr blockstart blockmax timelimit countlimit < blockmax ∧
      eligible infoarr timelimit
        (scrub_blocklimit infoarr blockstart blockmax timelimit countlimit) = true ∧
      eligible_count infoarr timelimit blockstart
        (scrub_blocklimit infoarr blockstart blockmax timelimit countlimit - blockstart)
        = countlimit) := by
  obtain ⟨c1, c2, c3⟩ := scrub_count_spec infoarr timelimit countlimit blockmax
    (blockmax - blockstart) blockstart 0 rfl (Nat.zero_le _)
  have c4 := scrub_count_limit infoarr timelimit countlimit blockmax
    (blockmax - blockstart) blockstart 0 rfl (Nat.zero_le _)
  unfold scrub_countmax scrub_blocklimit
  unfold eligible_count
  generalize hcm : (scrub_count infoarr timelimit countlimit blockmax (blockmax - blockstart)
    blockstart 0).1 = cm at c1 c2 c4 ⊢
  generalize hbl : (scrub_count infoarr timelimit countlimit blockmax (blockmax - blockstart)
    blockstart 0).2 = bl at c2 c3 c4 ⊢
  rw [Nat.zero_add] at c2
  by_cases hsm : blockstart ≤ blockmax
  · obtain ⟨c5, c6⟩ := c3 hsm
    have hsplit := eligible_count_split infoarr timelimit blockstart (bl - blockstart)
      (blockmax - bl)
    have hsum : bl - blockstart + (blockmax - bl) = blockmax - blockstart := by omega
    have hadd : blockstart + (bl - blockstart) = bl := by omega
    rw [hsum, hadd] at hsplit
    unfold eligible_count at hsplit
    rcases c4 with h | ⟨h1, h2, h3⟩
    · subst h
      refine ⟨?_, c2, le_refl _, fun _ => rfl, ?_⟩
      · rw [c2]
        rw [c2] at c1
        exact (Nat.min_eq_right c1).symm
      · intro hlt
        rw [c2] at c1
        omega
    · have htail : 1 ≤ List.countP (eligible infoarr timelimit)
          (List.range' bl (blockmax - bl)) := by
        have hb : blockmax - bl = (blockmax - bl - 1) + 1 := by omega
        rw [hb, List.range'_succ, List.countP_cons, if_pos h2]
        omega
      refine ⟨?_, c2, c6, ?_, ?_⟩
      · rw [h3, hsplit, ← c2, h3]
        exact (Nat.min_eq_left (by omega)).symm
      · intro hle
        rw [hsplit, ← c2, h3] at hle
        omega
      · intro _
        exact ⟨c5, h1, h2, by rw [← c2, h3]⟩
  · have hz : blockmax - blockstart = 0 := by omega
    have hbl0 : bl = blockmax := by
      rw [← hbl, hz]
      rfl
    have hcm0 : cm = 0 := by
      rw [← hcm, hz]
      rfl
    subst hbl0
    refine ⟨?_, c2, le_refl _, fun _ => rfl, ?_⟩
    · rw [hcm0, hz]
      simp
    · intro hlt
      rw [hz] at hlt
      simp at hlt

theorem work_event_progress_ok (env : ScrubEnv) (i countmax : Nat) (e : Event)
    (h : Event.is_work_event env i e = true) : Event.progress_ok countmax e = true := by
  cases e <;>
    simp_all [Event.is_work_event, Event.is_slot_event, Event.is_parity_event,
      Event.progress_ok]

theorem scrub_block_counted (env : ScrubEnv) (timelimit now : Int) (countmax al iend i : Nat)
    (st : ScrubState) (hi : i < iend)
    (hlen : st.buffer.length = env.diskmax + env.level * 2) (hcm : countmax < 2 ^ 32)
    (hI : CountInv timelimit countmax iend i st) :
    (∀ st1, scrub_block env timelimit now countmax al i st = .next st1 →
      CountInv timelimit countmax iend (i + 1) st1) ∧
    (∀ st1, scrub_block env timelimit now countmax al i st = .stop st1 →
      CountExit env countmax st1) ∧
    (∀ st1, scrub_block env timelimit now countmax al i st = .bail st1 →
      CountExit env countmax st1) := by
  obtain ⟨h1, h2, h3⟩ := hI
  have hsucc : iend - i = (iend - (i + 1)) + 1 := by omega
  rw [hsucc, eligible_count_succ] at h1
  have hfr := (scrub_block_frame env timelimit now countmax al i st hlen).1
  by_cases helig : eligible st.infoarr timelimit i = true
  · rw [if_pos helig] at h1
    have hpre : ∀ pre : List Event, (∀ e ∈ pre, Event.is_work_event env i e = true) →
        ∀ e ∈ st.trace ++ pre, Event.progress_ok countmax e = true := by
      intro pre hp e he
      rcases List.mem_append.mp he with hx | hx
      · exact h3 e hx
      · exact work_event_progress_ok env i countmax e (hp e hx)
    rcases scrub_block_detail env timelimit now countmax al i st helig hlen with
      ⟨st1, pre, cs, b1, b2, b3, b4, b5, b6, b7, b8⟩ |
      ⟨st1, pre, cs, b1, b2, b3, b4, b5, b6⟩ |
      ⟨st1, j, pre, b1, b2, b3, b4, b5, b6, b7, b8, b9⟩
    · rw [b1] at hfr
      refine ⟨?_, fun s hs => (by rw [b1] at hs; cases hs),
        fun s hs => (by rw [b1] at hs; cases hs)⟩
      intro s hs
      rw [b1] at hs
      injection hs with hs
      subst hs
      have hmiss : (st.autosavemissing + (2 ^ 32 - 1)) % 2 ^ 32 = st.autosavemissing - 1 := by
        omega
      refine ⟨?_, ?_, ?_⟩
      · rw [b5, eligible_count_congr st1.infoarr st.infoarr timelimit (i + 1) _
          (fun k hk => hfr k (by omega))]
        omega
      · rw [b5, b6, hmiss]
        omega
      · intro e he
        rw [b3] at he
        rcases List.mem_append.mp he with hx | hx
        · exact hpre pre b4 e hx
        · rcases List.mem_cons.mp hx with hy | hy
          · rw [hy, hmiss]
            simp only [Event.progress_ok, decide_eq_true_eq]
            exact ⟨trivial, by omega, by omega⟩
          · split_ifs at hy
            · rw [List.mem_singleton.mp hy]
              rfl
            · cases hy
    · refine ⟨fun s hs => (by rw [b1] at hs; cases hs), ?_,
        fun s hs => (by rw [b1] at hs; cases hs)⟩
      intro s hs
      rw [b1] at hs
      injection hs with hs
      subst hs
      have hmiss : (st.autosavemissing + (2 ^ 32 - 1)) % 2 ^ 32 = st.autosavemissing - 1 := by
        omega
      refine ⟨?_, by omega, fun hu => absurd (hu.2 i _ countmax cs) b2⟩
      intro e he
      rw [b3] at he
      rcases List.mem_append.mp he with hx | hx
      · exact hpre pre b4 e hx
      · rw [List.mem_singleton.mp hx, hmiss]
        simp only [Event.progress_ok, decide_eq_true_eq]
        exact ⟨trivial, by omega, by omega⟩
    · refine ⟨fun s hs => (by rw [b1] at hs; cases hs),
        fun s hs => (by rw [b1] at hs; cases hs), ?_⟩
      intro s hs
      rw [b1] at hs
      injection hs with hs
      subst hs
      refine ⟨?_, by omega, fun hu => absurd b3 (hu.1 i j)⟩
      intro e he
      rw [b4] at he
      rcases List.mem_append.mp he with hx | hx
      · exact hpre pre b5 e hx
      · rw [List.mem_singleton.mp hx]
        rfl
  · have hsk := scrub_block_skip env timelimit now countmax al i st (by simpa using helig)
    rw [if_neg helig] at h1
    refine ⟨?_, fun s hs => (by rw [hsk] at hs; cases hs),
      fun s hs => (by rw [hsk] at hs; cases hs)⟩
    intro s hs
    rw [hsk] at hs
    injection hs with hs
    subst hs
    exact ⟨by omega, h2, h3⟩

/-- The counters at the exit of `state_scrub_process`, `countmax` fitting in a
`block_off_t`. -/
theorem process_counters (env : ScrubEnv) (infoarr : Nat → snapraid_info) (need_write : Int)
    (blockstart blockmax : Nat) (timelimit : Int) (countlimit : Nat) (now : Int)
    (hcl : countlimit < 2 ^ 32) :
    CountExit env (scrub_countmax infoarr blockstart blockmax timelimit countlimit)
      (state_scrub_process env infoarr need_write blockstart blockmax timelimit countlimit
        now).2 := by
  obtain ⟨p1, p2, -, -, -⟩ := scrub_prepass infoarr blockstart blockmax timelimit countlimit
  obtain ⟨-, -, e3, evs, e4, e5⟩ := process_exit env infoarr need_write blockstart blockmax
    timelimit countlimit now
  have hcm : scrub_countmax infoarr blockstart blockmax timelimit countlimit < 2 ^ 32 := by
    rw [p1]
    exact lt_of_le_of_lt (Nat.min_le_left _ _) hcl
  have hloop : CountExit env (scrub_countmax infoarr blockstart blockmax timelimit countlimit)
      (scrub_loop_state env infoarr need_write blockstart blockmax timelimit countlimit
        now) := by
    unfold scrub_loop_state
    refine scrub_loop_rule env timelimit now _ _
      (CountInv timelimit (scrub_countmax infoarr blockstart blockmax timelimit countlimit)
        (blockstart + (scrub_blocklimit infoarr blockstart blockmax timelimit countlimit
          - blockstart)))
      (CountExit env (scrub_countmax infoarr blockstart blockmax timelimit countlimit)) _
      ?_ ?_ _ _ _ rfl (by simp [scrub_init]) ?_
    · rintro st ⟨h1, h2, h3⟩
      simp only [Nat.sub_self, eligible_count, List.range'_zero, List.countP_nil,
        Nat.add_zero] at h1
      exact ⟨h3, by omega, fun _ => h1⟩
    · intro i st hi hlen hI
      exact scrub_block_counted env timelimit now _ _ _ i st hi hlen hcm hI
    · refine ⟨?_, rfl, ?_⟩
      · simp only [scrub_init, Nat.zero_add, Nat.add_sub_cancel_left]
        exact p2.symm
      · intro e he
        simp only [scrub_init, List.mem_singleton] at he
        rw [he]
        rfl
  obtain ⟨l1, l2, l3⟩ := hloop
  refine ⟨?_, by rw [e3]; exact l2, fun hu => by rw [e3]; exact l3 hu⟩
  intro e he
  rw [e4] at he
  rcases List.mem_append.mp he with hx | hx
  · exact l1 e hx
  · have := e5 e hx
    cases e <;> first | rfl | simp [Event.is_exit_event] at this

theorem countP_range_split (p : Nat → Bool) (s a b : Nat) :
    (List.range' s (a + b)).countP p
      = (List.range' s a).countP p + (List.range' (s + a) b).countP p := by
  rw [Nat.add_comm a b, ← List.range'_append_1, List.countP_append]

theorem countP_range_none (p : Nat → Bool) (s n : Nat)
    (h : ∀ i, s ≤ i → i < s + n → p i = false) : (List.range' s n).countP p = 0 := by
  rw [List.countP_eq_zero]
  intro i hi
  obtain ⟨h1, h2⟩ := List.mem_range'_1.mp hi
  simp [h i h1 h2]

/-- In a run that is not interrupted the visited blocks of `[0, blockmax)` are `countmax`. -/
theorem visited_count_uninterrupted (env : ScrubEnv) (infoarr : Nat → snapraid_info)
    (need_write : Int) (blockstart blockmax : Nat) (timelimit : Int) (countlimit : Nat)
    (now : Int) (hu : uninterrupted env) :
    visited_count (state_scrub_process env infoarr need_write blockstart blockmax timelimit
      countlimit now).2.trace blockmax
      = scrub_countmax infoarr blockstart blockmax timelimit countlimit := by
  obtain ⟨-, p2, p3, -, -⟩ := scrub_prepass infoarr blockstart blockmax timelimit countlimit
  have hiff := processed_iff_uninterrupted env infoarr need_write blockstart blockmax timelimit
    countlimit now hu
  generalize (state_scrub_process env infoarr need_write blockstart blockmax timelimit
    countlimit now).2.trace = tr at hiff ⊢
  generalize scrub_blocklimit infoarr blockstart blockmax timelimit countlimit = bl
    at p2 p3 hiff
  have hfalse : ∀ i, ¬(blockstart ≤ i ∧ i < bl) → processed tr i = false := by
    intro i hi
    cases hp : processed tr i with
    | false => rfl
    | true =>
      obtain ⟨h1, h2, -⟩ := (hiff i).mp hp
      exact absurd ⟨h1, h2⟩ hi
  unfold visited_count
  rw [p2, List.range_eq_range']
  by_cases hsb : blockstart ≤ bl
  · have hsum : blockmax = blockstart + ((bl - blockstart) + (blockmax - bl)) := by omega
    rw [hsum, countP_range_split, countP_range_split, Nat.zero_add]
    rw [countP_range_none _ 0 blockstart (fun i _ h => hfalse i (by omega))]
    rw [countP_range_none _ (blockstart + (bl - blockstart)) (blockmax - bl)
      (fun i h _ => hfalse i (by omega))]
    simp only [Nat.zero_add, Nat.add_zero, eligible_count]
    apply List.countP_congr
    intro i hi
    obtain ⟨h1, h2⟩ := List.mem_range'_1.mp hi
    constructor
    · intro hp
      exact ((hiff i).mp hp).2.2
    · intro he
      exact (hiff i).mpr ⟨h1, by omega, he⟩
  · have hz : bl - blockstart = 0 := by omega
    rw [hz]
    simp only [eligible_count, List.range'_zero, List.countP_nil]
    exact countP_range_none _ 0 blockmax (fun i _ _ => hfalse i (by omega))

theorem mod_succ_eq (L cp : Nat) (hL : 1 ≤ L) :
    (cp + 1) % L = if cp % L + 1 = L then 0 else cp % L + 1 := by
  have hr := Nat.mod_lt cp hL
  rw [Nat.add_mod]
  by_cases h1 : L = 1
  · subst h1
    simp [Nat.mod_one]
  · have h2 : 1 % L = 1 := Nat.mod_eq_of_lt (by omega)
    rw [h2]
    split_ifs with h
    · rw [h, Nat.mod_self]
    · exact Nat.mod_eq_of_lt (by omega)

theorem succ_dvd_iff (L cp : Nat) (hL : 1 ≤ L) : L ∣ cp + 1 ↔ cp % L + 1 = L := by
  rw [Nat.dvd_iff_mod_eq_zero, mod_succ_eq L cp hL]
  split_ifs with h
  · simp [h]
  · simp [h]

theorem work_event_tick (env : ScrubEnv) (i : Nat) (e : Event)
    (h : Event.is_work_event env i e = true) : Event.tick e = none := by
  cases e <;>
    simp_all [Event.is_work_event, Event.is_slot_event, Event.is_parity_event, Event.tick]

theorem work_event_done_ok (env : ScrubEnv) (i L countmax : Nat) (e : Event)
    (h : Event.is_work_event env i e = true) : Event.done_ok L countmax e = true := by
  cases e <;>
    simp_all [Event.is_work_event, Event.is_slot_event, Event.is_parity_event, Event.done_ok]

theorem save_ticks_work (env : ScrubEnv) (i : Nat) (pre : List Event)
    (h : ∀ e ∈ pre, Event.is_work_event env i e = true) : save_ticks pre = [] := by
  unfold save_ticks
  rw [List.filterMap_eq_nil_iff]
  intro e he
  exact work_event_tick env i e (h e he)

theorem save_ticks_exit (evs : List Event) (h : ∀ e ∈ evs, Event.is_exit_event e = true) :
    save_ticks evs = [] := by
  unfold save_ticks
  rw [List.filterMap_eq_nil_iff]
  intro e he
  have := h e he
  cases e <;> first | rfl | simp [Event.is_exit_event] at this

theorem save_ticks_count (trace : List Event) :
    (save_ticks trace).count .saved = trace.countP Event.is_save := by
  induction trace with
  | nil => rfl
  | cons e t ih =>
    unfold save_ticks at ih ⊢
    cases e <;> simp [List.filterMap_cons, Event.tick, Event.is_save, List.countP_cons, ih]

/-- The schedule of the spec saves `min n (countmax - L) / L` times in the first `n`
processed blocks. -/
theorem save_schedule_count (L countmax : Nat) (hL : 1 ≤ L) :
    ∀ n, (save_schedule L countmax n).count .saved = min n (countmax - L) / L := by
  intro n
  induction n with
  | zero => simp [save_schedule]
  | succ n ih =>
    unfold save_schedule
    rw [List.count_append, ih, List.count_cons]
    have h0 : (SaveTick.processed (n + 1) == SaveTick.saved) = false := by
      rw [beq_eq_false_iff_ne]
      intro h
      cases h
    rw [h0]
    by_cases hc : n + 1 ≤ countmax - L
    · have hm1 : min n (countmax - L) = n := Nat.min_eq_left (by omega)
      have hm2 : min (n + 1) (countmax - L) = n + 1 := Nat.min_eq_left hc
      have hc2 : L ≤ countmax - (n + 1) := by omega
      rw [hm1, hm2, Nat.succ_div]
      by_cases hd : L ∣ n + 1
      · simp [hd, hc2]
      · simp [hd]
    · have hm1 : min n (countmax - L) = countmax - L := Nat.min_eq_right (by omega)
      have hm2 : min (n + 1) (countmax - L) = countmax - L := Nat.min_eq_right (by omega)
      have hc2 : ¬ L ≤ countmax - (n + 1) := by omega
      rw [hm1, hm2]
      simp [hc2]

theorem save_schedule_total (L countmax : Nat) (hL : 1 ≤ L) :
    (save_schedule L countmax countmax).count .saved = countmax / L - 1 := by
  rw [save_schedule_count L countmax hL, Nat.min_eq_right (Nat.sub_le _ _)]
  by_cases h : L ≤ countmax
  · have := Nat.sub_mul_div countmax L 1 (by omega)
    rw [Nat.mul_one] at this
    exact this
  · have h1 : countmax - L = 0 := by omega
    have h2 : countmax / L = 0 := Nat.div_eq_of_lt (by omega)
    rw [h1, h2]
    simp

theorem save_schedule_succ (L countmax n : Nat) :
    save_schedule L countmax (n + 1) = save_schedule L countmax n ++
      (.processed (n + 1) :: if L ∣ (n + 1) ∧ L ≤ countmax - (n + 1) then [.saved] else []) :=
  rfl

theorem scrub_block_saves (env : ScrubEnv) (timelimit now : Int) (countmax L iend i : Nat)
    (st : ScrubState) (hi : i < iend)
    (hlen : st.buffer.length = env.diskmax + env.level * 2) (hcm : countmax < 2 ^ 32)
    (hu : uninterrupted env) (ha : env.autosave ≠ 0) (hL : 1 ≤ L)
    (hI : CountInv timelimit countmax iend i st) (hS : SaveInv L countmax st) :
    ∀ st1, scrub_block env timelimit now countmax L i st = .next st1 →
      SaveInv L countmax st1 := by
  intro s hs
  obtain ⟨h1, h2, h3⟩ := hI
  obtain ⟨s1, s2, s3⟩ := hS
  have hsucc : iend - i = (iend - (i + 1)) + 1 := by omega
  rw [hsucc, eligible_count_succ] at h1
  by_cases helig : eligible st.infoarr timelimit i = true
  · rw [if_pos helig] at h1
    rcases scrub_block_detail env timelimit now countmax L i st helig hlen with
      ⟨st1, pre, cs, b1, b2, b3, b4, b5, b6, b7, b8⟩ |
      ⟨st1, pre, cs, b1, b2, -⟩ |
      ⟨st1, j, pre, b1, b2, b3, -⟩
    · rw [b1] at hs
      injection hs with hs
      subst hs
      have hmiss : (st.autosavemissing + (2 ^ 32 - 1)) % 2 ^ 32
          = countmax - (st.countpos + 1) := by
        omega
      rw [hmiss] at b3 b7
      -- the test of the code is the condition of the schedule
      have hcond : (env.autosave ≠ 0 ∧ st.autosavedone + 1 ≥ L ∧
          countmax - (st.countpos + 1) ≥ L) ↔
          (L ∣ (st.countpos + 1) ∧ L ≤ countmax - (st.countpos + 1)) := by
        have hr := Nat.mod_lt st.countpos hL
        constructor
        · rintro ⟨-, c1, c2⟩
          have hd := s2 (by omega)
          exact ⟨(succ_dvd_iff L st.countpos hL).mpr (by omega), c2⟩
        · rintro ⟨c1, c2⟩
          have hd := s2 (by omega)
          have := (succ_dvd_iff L st.countpos hL).mp c1
          exact ⟨ha, by omega, c2⟩
      refine ⟨?_, ?_, ?_⟩
      · rw [b3, b5]
        unfold save_ticks at s1 ⊢
        rw [List.filterMap_append, List.filterMap_append, s1]
        have hpre := save_ticks_work env i pre b4
        unfold save_ticks at hpre
        rw [hpre, List.append_nil]
        rw [save_schedule_succ]
        by_cases hc : L ∣ (st.countpos + 1) ∧ L ≤ countmax - (st.countpos + 1)
        · rw [if_pos (hcond.mpr hc), if_pos hc]
          rfl
        · rw [if_neg (fun h => hc (hcond.mp h)), if_neg hc]
          rfl
      · intro hle
        rw [b5] at hle ⊢
        have hd := s2 (by omega)
        have hr := Nat.mod_lt st.countpos hL
        rw [b7, mod_succ_eq L st.countpos hL]
        by_cases hc : st.countpos % L + 1 = L
        · rw [if_pos hc, if_pos ⟨ha, by omega, hle⟩]
        · rw [if_neg hc, if_neg (by omega), hd]
      · intro e he
        rw [b3] at he
        rcases List.mem_append.mp he with hx | hx
        · rcases List.mem_append.mp hx with hy | hy
          · exact s3 e hy
          · exact work_event_done_ok env i L countmax e (b4 e hy)
        · rcases List.mem_cons.mp hx with hy | hy
          · rw [hy]
            simp only [Event.done_ok, decide_eq_true_eq, Nat.add_sub_cancel]
            intro hle
            rw [s2 hle]
          · split_ifs at hy
            · rw [List.mem_singleton.mp hy]
              rfl
            · cases hy
    · exact absurd (hu.2 i _ countmax cs) b2
    · exact absurd b3 (hu.1 i j)
  · have hsk := scrub_block_skip env timelimit now countmax L i st (by simpa using helig)
    rw [hsk] at hs
    injection hs with hs
    subst hs
    exact ⟨s1, s2, s3⟩

/-- Test fixture: the environment of a run that is not interrupted is not interrupted. -/
theorem env_s6_uninterrupted : uninterrupted env_s6 :=
  ⟨fun _ _ => (by decide : (0 : Int) ≠ -1), fun _ _ _ _ => rfl⟩

/-- The buffers after the parity pass: `raid_gen` applied to the buffers that hold the
on-disk parity read. -/
theorem scrub_parity_buffer (env : ScrubEnv) (i : Nat) (st : ScrubState) (fl : BlockFlags) :
    (scrub_parity env i st fl).1.buffer
      = raid_gen env
          (if 2 ≤ env.level then
            match (if env.level = 1 then none else some (env.diskmax + 3)) with
            | some b =>
              (st.buffer.set (if env.level = 1 then env.diskmax + 1 else env.diskmax + 2)
                (env.parity_read_data i)).set b (env.qarity_read_data i)
            | none =>
              st.buffer.set (if env.level = 1 then env.diskmax + 1 else env.diskmax + 2)
                (env.parity_read_data i)
          else
            st.buffer.set (if env.level = 1 then env.diskmax + 1 else env.diskmax + 2)
              (env.parity_read_data i)) := by
  unfold scrub_parity
  simp only []
  rw [(parity_cmp_q_spec env i _ _ _).2.2.1, (parity_cmp_p_spec env i _ _ _).2.2.1]
  simp only [emit]
  rw [(parity_read_q_spec env i _ _ _).2.2.1, (parity_read_p_spec env i _ st fl).2.2.1]

/-- C20: for `level` 1 or 2 there are `buffermax = diskmax + 2 * level` buffers, and the
parity pass uses indices below `buffermax` that do not collide: the data buffers
`[0, diskmax)` are left as the data pass filled them, `buffer[diskmax]` holds the P computed
by `raid_gen` from them (and `buffer[diskmax + 1]` the computed Q at level 2), and the on-disk
parity is still in its own buffer at the comparison (`diskmax + 1` at level 1; `diskmax + 2`
for P and `diskmax + 3` for Q at level 2), so the comparison is between the computed and the
on-disk parity. -/
theorem scrub_buffers_disjoint (env : ScrubEnv) (infoarr : Nat → snapraid_info)
    (need_write : Int) (blockstart blockmax countmax i : Nat) (st : ScrubState)
    (fl : BlockFlags) (hl : env.level = 1 ∨ env.level = 2)
    (hlen : st.buffer.length = env.diskmax + env.level * 2) :
    (scrub_init env infoarr need_write blockstart blockmax countmax).buffer.length
      = env.diskmax + env.level * 2 ∧
    (scrub_parity env i st fl).1.buffer.length = env.diskmax + env.level * 2 ∧
    (scrub_parity env i st fl).1.buffer.take env.diskmax = st.buffer.take env.diskmax ∧
    (scrub_parity env i st fl).1.buffer[env.diskmax]?
      = some (env.raid_par (st.buffer.take env.diskmax)) ∧
    (env.level = 1 →
      (scrub_parity env i st fl).1.buffer[env.diskmax + 1]?
        = some (env.parity_read_data i)) ∧
    (env.level = 2 →
      (scrub_parity env i st fl).1.buffer[env.diskmax + 1]?
        = some (env.raid_qar (st.buffer.take env.diskmax)) ∧
      (scrub_parity env i st fl).1.buffer[env.diskmax + 2]?
        = some (env.parity_read_data i) ∧
      (scrub_parity env i st fl).1.buffer[env.diskmax + 3]?
        = some (env.qarity_read_data i)) ∧
    (st.buffer.take env.diskmax = stripe env i →
      (scrub_parity env i st fl).2.error_on_this_block =
        (fl.error_on_this_block || parity_io_error env i) ∧
      (scrub_parity env i st fl).2.silent_error_on_this_block =
        (fl.silent_error_on_this_block || parity_silent_error env i)) := by
  refine ⟨by simp [scrub_init], ?_, ?_, ?_, ?_, ?_,
    fun hdata => scrub_parity_flags env i st fl hl hlen hdata⟩
  · rw [(scrub_parity_store env i st fl).1.2.2.2.2.2, hlen]
  all_goals rw [scrub_parity_buffer]
  · rcases hl with hl | hl
    · simp [hl, raid_gen, take_set_ge]
    · simp [hl, raid_gen, take_set_ge]
  · rcases hl with hl | hl
    · have h1 : env.diskmax < st.buffer.length := by omega
      simp [hl, raid_gen, take_set_ge, h1]
    · have h1 : env.diskmax < st.buffer.length := by omega
      simp [hl, raid_gen, take_set_ge, h1, List.getElem?_set]
  · intro hl1
    have h1 : env.diskmax + 1 < st.buffer.length := by omega
    simp [hl1, raid_gen, List.getElem?_set, h1]
  · intro hl2
    have h1 : env.diskmax + 1 < st.buffer.length := by omega
    have h2 : env.diskmax + 2 < st.buffer.length := by omega
    have h3 : env.diskmax + 3 < st.buffer.length := by omega
    simp [hl2, raid_gen, List.getElem?_set, take_set_ge, h1, h2, h3]

theorem scrub_buffers_disjoint_witness :
    ((env_dual.level = 1 ∨ env_dual.level = 2) ∧
      (scrub_init env_dual arr_s1 0 0 10 10).buffer.length
        = env_dual.diskmax + env_dual.level * 2) ∧
    (scrub_parity env_dual 3 (scrub_init env_dual arr_s1 0 0 10 10) ⟨false, false⟩).1.buffer
      = [[0, 0], [0, 0], [0, 0], demo_par [[0, 0], [0, 0], [0, 0]],
         demo_qar [[0, 0], [0, 0], [0, 0]], env_dual.parity_read_data 3,
         env_dual.qarity_read_data 3] ∧
    (scrub_parity env_dual 3 (scrub_init env_dual arr_s1 0 0 10 10)
      ⟨false, false⟩).1.buffer[env_dual.diskmax + 2]? = some (env_dual.parity_read_data 3) :=
  ⟨⟨by decide, by decide⟩, by decide,
    ((scrub_buffers_disjoint env_dual arr_s1 0 0 10 10 3 (scrub_init env_dual arr_s1 0 0 10 10)
      ⟨false, false⟩ (by decide) (by decide)).2.2.2.2.2.1 (by decide)).2.1⟩

theorem eligible_count_times (infoarr : Nat → snapraid_info) (tl : Int) (blockmax : Nat) :
    eligible_count infoarr tl 0 blockmax
      = (used_times infoarr blockmax).countP (fun t => decide (t ≤ tl)) := by
  unfold eligible_count used_times scrub_infomap
  rw [List.countP_map, List.countP_filter, List.countP_map, ← List.range_eq_range']
  apply List.countP_congr
  intro i _
  simp [eligible, Bool.and_comm]

theorem sorted_count_le (l : List Int) (hs : l.Sorted (fun a b => a ≤ b)) :
    ∀ k, k < l.length → k + 1 ≤ l.countP (fun t => decide (t ≤ l.getD k 0)) := by
  induction l with
  | nil => intro k hk; simp at hk
  | cons a t ih =>
    intro k hk
    have hs2 := List.sorted_cons.mp hs
    cases k with
    | zero =>
      simp only [List.getD_cons_zero, List.countP_cons, le_refl, decide_True, if_true]
      omega
    | succ k =>
      have hk2 : k < t.length := by simpa using hk
      have hmem : t.getD k 0 ∈ t := by
        rw [List.getD_eq_getElem _ _ hk2]
        exact List.getElem_mem hk2
      have ha := hs2.1 _ hmem
      have := ih hs2.2 k hk2
      simp only [List.getD_cons_succ, List.countP_cons, ha, decide_True, if_true]
      omega

/-- The plan either leaves more blocks than the quota to pass the skip filter, or has the
recency guard as time limit. -/
theorem scrub_plan_dichotomy (infoarr : Nat → snapraid_info) (blockmax : Nat) (now : Int)
    (tl : Int) (cl : Nat) (h : scrub_plan infoarr blockmax now = some (tl, cl)) :
    cl = min (blockmax / 12) ((scrub_infomap infoarr blockmax).length - 1) ∧
    (cl + 1 ≤ eligible_count infoarr tl 0 blockmax ∨ tl = now - 864000) := by
  have hex : ∃ i, i < blockmax ∧ infoarr i ≠ info_zero := by
    by_contra hc
    have hz : ∀ i, i < blockmax → infoarr i = info_zero := by
      intro i hi
      by_contra hne
      exact hc ⟨i, hi, hne⟩
    rw [scrub_plan_empty infoarr blockmax now (Or.inr hz)] at h
    cases h
  obtain ⟨s1, s2, -, s4, s5, -⟩ := scrub_plan_spec infoarr blockmax now hex
  rw [s5] at h
  injection h with h
  injection h with h1 h2
  refine ⟨h2.symm, ?_⟩
  rw [h2] at s4 h1
  by_cases hle : (sorted_times infoarr blockmax).getD cl 0 ≤ now - 864000
  · left
    rw [min_eq_left hle] at h1
    rw [eligible_count_times, ← s2.countP_eq, ← h1]
    exact sorted_count_le _ s1 cl s4
  · right
    rw [min_eq_right (le_of_lt (not_le.mp hle))] at h1
    exact h1.symm

theorem infomap_length_mono (a b : Nat → snapraid_info) (blockmax : Nat)
    (h : ∀ i, i < blockmax → b i ≠ info_zero → a i ≠ info_zero) :
    (scrub_infomap b blockmax).length ≤ (scrub_infomap a blockmax).length := by
  unfold scrub_infomap
  rw [List.filter_map, List.filter_map, List.length_map, List.length_map,
    ← List.countP_eq_length_filter, ← List.countP_eq_length_filter]
  apply List.countP_mono_left
  intro i hi hb
  simp only [Function.comp, info_get, decide_eq_true_eq] at hb ⊢
  exact h i (List.mem_range.mp hi) hb

theorem eligible_count_mono (a b : Nat → snapraid_info) (ta tb : Int) (n : Nat)
    (h : ∀ i, i < n → eligible b tb i = true → eligible a ta i = true) :
    eligible_count b tb 0 n ≤ eligible_count a ta 0 n := by
  unfold eligible_count
  apply List.countP_mono_left
  intro i hi hb
  exact h i (by simpa using (List.mem_range'_1.mp hi).2) hb

theorem state_scrub_exit_indep (env : ScrubEnv) (infoarr : Nat → snapraid_info)
    (nw nw2 : Int) (blockmax : Nat) (now : Int) (tr : List Event)
    (h : state_scrub env infoarr nw blockmax now = .exit_failure tr) :
    state_scrub env infoarr nw2 blockmax now = .exit_failure tr := by
  unfold state_scrub at h ⊢
  cases hp : scrub_plan infoarr blockmax now with
  | none => rw [hp] at h; exact h
  | some p =>
    obtain ⟨tl, cl⟩ := p
    rw [hp] at h
    simp only [] at h ⊢
    by_cases g1 : env.parity_open_ret = -1
    · rw [if_pos g1] at h ⊢
      exact h
    · rw [if_neg g1] at h ⊢
      by_cases g2 : 2 ≤ env.level ∧ env.qarity_open_ret = -1
      · rw [if_pos g2] at h ⊢
        exact h
      · rw [if_neg g2] at h
        cases h

/-- The blocks visited by a run of `state_scrub` that returns and is not interrupted: the
smaller of the quota and the number of blocks that pass the skip filter. -/
theorem scrub_visited_ret (env : ScrubEnv) (infoarr : Nat → snapraid_info) (nw : Int)
    (blockmax : Nat) (now : Int) (r : Int) (st : ScrubState) (hu : uninterrupted env)
    (h : state_scrub env infoarr nw blockmax now = .ret r st) :
    ∃ tl cl, scrub_plan infoarr blockmax now = some (tl, cl) ∧
      visited_count st.trace blockmax = min cl (eligible_count infoarr tl 0 blockmax) ∧
      (∀ i, eligible st.infoarr tl i = true → eligible infoarr tl i = true) ∧
      (∀ i, eligible infoarr tl i = false → st.infoarr i = infoarr i) := by
  obtain ⟨tl, cl, h1, h2, -, h4⟩ := state_scrub_ret env infoarr nw blockmax now r st h
  refine ⟨tl, cl, h1, ?_, ?_, ?_⟩
  · have hv := visited_count_uninterrupted env infoarr nw 0 blockmax tl cl now hu
    have hp := (scrub_prepass infoarr 0 blockmax tl cl).1
    rw [Nat.sub_zero] at hp
    rw [← hp, ← hv]
    unfold visited_count
    apply List.countP_congr
    intro i _
    rw [h4 i]
  · intro i hi
    cases hp : processed (state_scrub_process env infoarr nw 0 blockmax tl cl now).2.trace i with
    | true => exact ((process_spec env infoarr nw 0 blockmax tl cl now i).1 hp).2.2.1
    | false =>
      have := (process_spec env infoarr nw 0 blockmax tl cl now i).2 hp
      rw [eligible_congr st.infoarr infoarr tl i (by rw [h2, this])] at hi
      exact hi
  · intro i hi
    cases hp : processed (state_scrub_process env infoarr nw 0 blockmax tl cl now).2.trace i with
    | true =>
      rw [((process_spec env infoarr nw 0 blockmax tl cl now i).1 hp).2.2.1] at hi
      cases hi
    | false =>
      rw [h2]
      exact (process_spec env infoarr nw 0 blockmax tl cl now i).2 hp

theorem eligible_used (infoarr : Nat → snapraid_info) (tl : Int) (i : Nat)
    (h : eligible infoarr tl i = true) : infoarr i ≠ info_zero := by
  simp only [eligible, info_get, Bool.and_eq_true, decide_eq_true_eq] at h
  exact h.1

theorem eligible_mono (infoarr : Nat → snapraid_info) (ta tb : Int) (i : Nat) (hle : ta ≤ tb)
    (h : eligible infoarr ta i = true) : eligible infoarr tb i = true := by
  simp only [eligible, Bool.and_eq_true, decide_eq_true_eq] at h ⊢
  exact ⟨h.1, le_trans h.2 hle⟩

/-- C15: for two consecutive runs of `state_scrub` with no close failure and no stop request,
in the same environment and at the same time `now`, the second starting from the info array
left by the first, the second run visits at most as many blocks as the first. -/
theorem scrub_second_run_le (env : ScrubEnv) (infoarr : Nat → snapraid_info) (nw nw2 : Int)
    (blockmax : Nat) (now : Int) (hu : uninterrupted env) :
    scrub_visited env (scrub_next_info env infoarr nw blockmax now) nw2 blockmax now
      ≤ scrub_visited env infoarr nw blockmax now := by
  unfold scrub_visited scrub_next_info
  cases h1 : state_scrub env infoarr nw blockmax now with
  | exit_failure tr =>
    simp only []
    rw [state_scrub_exit_indep env infoarr nw nw2 blockmax now tr h1]
  | ret r st =>
    simp only []
    cases h2 : state_scrub env st.infoarr nw2 blockmax now with
    | exit_failure tr => exact Nat.zero_le _
    | ret r2 st2 =>
      simp only []
      obtain ⟨tl1, cl1, p1, v1, e1, f1⟩ :=
        scrub_visited_ret env infoarr nw blockmax now r st hu h1
      obtain ⟨tl2, cl2, p2, v2, -, -⟩ :=
        scrub_visited_ret env st.infoarr nw2 blockmax now r2 st2 hu h2
      obtain ⟨c1, d1⟩ := scrub_plan_dichotomy infoarr blockmax now tl1 cl1 p1
      obtain ⟨c2, -⟩ := scrub_plan_dichotomy st.infoarr blockmax now tl2 cl2 p2
      have hrecent := scrub_plan_le_recent st.infoarr blockmax now tl2 cl2 p2
      -- a block used after the first run was used before it
      have hused : ∀ i, i < blockmax → st.infoarr i ≠ info_zero → infoarr i ≠ info_zero := by
        intro i _ hne
        cases he : eligible infoarr tl1 i with
        | true => exact eligible_used infoarr tl1 i he
        | false =>
          rw [f1 i he] at hne
          exact hne
      have hcount := infomap_length_mono infoarr st.infoarr blockmax hused
      have hcl : cl2 ≤ cl1 := by
        rw [c1, c2]
        omega
      rw [v1, v2]
      rcases d1 with d1 | d1
      · omega
      · have hE : eligible_count st.infoarr tl2 0 blockmax
            ≤ eligible_count infoarr tl1 0 blockmax := by
          apply eligible_count_mono
          intro i _ hi
          have h3 := eligible_mono st.infoarr tl2 tl1 i (by rw [d1]; exact hrecent) hi
          exact e1 i h3
        omega

set_option maxRecDepth 1000000 in
theorem scrub_second_run_le_witness :
    uninterrupted env_s1 ∧
    scrub_visited env_s1 arr_s1 0 24 1000000 = 2 ∧
    scrub_visited env_s1 (scrub_next_info env_s1 arr_s1 0 24 1000000) 1 24 1000000
      ≤ scrub_visited env_s1 arr_s1 0 24 1000000 :=
  ⟨⟨fun _ _ => (by decide : (0 : Int) ≠ -1), fun _ _ _ _ => rfl⟩, by decide,
    scrub_second_run_le env_s1 arr_s1 0 1 24 1000000
      ⟨fun _ _ => (by decide : (0 : Int) ≠ -1), fun _ _ _ _ => rfl⟩⟩

/-- C9 (amended): at a slot whose block has a file and whose open succeeds, a `handle_read`
that returns `-1` sets `error_on_this_block`, increments the error counter and logs a read
error without hashing the slot, and the info of the block is left unchanged by the run; a
read that returns any other value `read_size`, a short read included, sets no I/O error flag:
`read_size` is added to `countsize`, the first `read_size` bytes of what was read are hashed,
and the slot counts as a silent error exactly when that hash, `memhash` over the length
`read_size`, differs from the stored one. -/
theorem scrub_read_error (env : ScrubEnv) (infoarr : Nat → snapraid_info) (need_write : Int)
    (blockstart blockmax : Nat) (timelimit : Int) (countlimit : Nat) (now : Int) (i j : Nat)
    (hl : env.level = 1 ∨ env.level = 2) (hj : j < env.diskmax)
    (hact : slot_active env i j = true) (ho : env.handle_open_ret i j ≠ -1) :
    (env.handle_read_ret i j = -1 →
      (∀ st fl,
        (slot_read env i j (env.disk_block_get j i) st fl).2.error_on_this_block = true ∧
        (slot_read env i j (env.disk_block_get j i) st fl).1.error = (st.error + 1) % 2 ^ 32 ∧
        (slot_read env i j (env.disk_block_get j i) st fl).1.countsize = st.countsize ∧
        (slot_read env i j (env.disk_block_get j i) st fl).1.trace =
          st.trace ++ [Event.handle_read i j, Event.log i (LogSource.disk j) LogKind.read_error]) ∧
      (state_scrub_process env infoarr need_write blockstart blockmax timelimit
        countlimit now).2.infoarr i = infoarr i) ∧
    (env.handle_read_ret i j ≠ -1 →
      slot_io_error env i j = false ∧
      (∀ st fl,
        (slot_read env i j (env.disk_block_get j i) st fl).2.error_on_this_block
          = fl.error_on_this_block ∧
        Event.memhash i j ∈ (slot_read env i j (env.disk_block_get j i) st fl).1.trace ∧
        (slot_read env i j (env.disk_block_get j i) st fl).1.countsize
          = (st.countsize + (env.handle_read_ret i j % 2 ^ 64).toNat) % 2 ^ 64) ∧
      (∀ st fl, j < st.buffer.length →
        (slot_read env i j (env.disk_block_get j i) st fl).2.silent_error_on_this_block
          = (fl.silent_error_on_this_block || slot_hash_mismatch env i j) ∧
        (slot_read env i j (env.disk_block_get j i) st fl).1.error
          = (if slot_hash_mismatch env i j = true then (st.error + 1) % 2 ^ 32
            else st.error)) ∧
      (∀ stored, (env.disk_block_get j i).hash = some stored →
        slot_hash_mismatch env i j
          = memcmp_ne (env.memhash (env.handle_read_data i j) (env.handle_read_ret i j))
              stored env.HASH_SIZE)) := by
  refine ⟨?_, ?_⟩
  · intro hr
    refine ⟨?_, ?_⟩
    · intro st fl
      unfold slot_read
      simp [hr, emit, inc_error]
    · have hs : slot_io_error env i j = true := by
        simp [slot_io_error, hact, hr]
      have hb : block_io_error env i = true := by
        simp [block_io_error, data_io_error, any_range_true env.diskmax _ j hj hs]
      obtain ⟨p1, p2⟩ := process_spec env infoarr need_write blockstart blockmax timelimit
        countlimit now i
      cases hp : processed (state_scrub_process env infoarr need_write blockstart blockmax
          timelimit countlimit now).2.trace i
      · exact p2 hp
      · obtain ⟨-, -, -, fl, h1, h2⟩ := p1 hp
        rw [h1, (h2 hl).1, hb]
        simp [class_info]
  · intro hr
    refine ⟨by simp [slot_io_error, hact, ho, hr], ?_, ?_, ?_⟩
    · intro st fl
      obtain ⟨-, -, -, h4, -⟩ := slot_hash_spec env i j (env.disk_block_get j i)
        (env.handle_read_ret i j)
        (emit { st with buffer := st.buffer.set j (env.handle_read_data i j) }
          (.handle_read i j)) fl
      unfold slot_read
      simp only [hr, if_false]
      refine ⟨h4, ?_, ?_⟩
      · unfold slot_hash
        simp only []
        split
        · split_ifs <;> simp [emit, inc_error]
        · simp [emit]
      · unfold slot_hash
        simp only []
        split
        · split_ifs <;> simp [emit, inc_error]
        · simp [emit]
    · intro st fl hlen
      have hs := (slot_read_spec env i j (env.disk_block_get j i) st fl hlen).2.2.2.2
      refine ⟨?_, ?_⟩
      · rw [hs]
        simp [hr, slot_hash_mismatch]
      · unfold slot_read
        simp only [hr, if_false]
        unfold slot_hash slot_hash_mismatch
        simp only [emit]
        have hg : (st.buffer.set j (env.handle_read_data i j)).getD j []
            = env.handle_read_data i j := by
          simp [List.getD_eq_getElem?_getD, hlen]
        rw [hg]
        split
        · split_ifs <;> simp_all [inc_error]
        · simp_all
    · intro stored hst
      unfold slot_hash_mismatch
      rw [hst]

set_option maxRecDepth 1000000 in
theorem scrub_read_error_witness :
    ((env_s4.level = 1 ∨ env_s4.level = 2) ∧ 2 < env_s4.diskmax ∧
      slot_active env_s4 5 2 = true ∧ env_s4.handle_open_ret 5 2 ≠ -1 ∧
      env_s4.handle_read_ret 5 2 = -1) ∧
    (state_scrub_process env_s4 arr_s1 0 0 10 100 10 500).2.infoarr 5 = arr_s1 5 ∧
    (env_short.handle_read_ret 1 1 = 1 ∧ env_short.block_size = 2) ∧
    (slot_read env_short 1 1 (env_short.disk_block_get 1 1)
      (scrub_init env_short arr_s1 0 0 10 10) ⟨false, false⟩).1.countsize = 1 ∧
    (slot_read env_short 1 1 (env_short.disk_block_get 1 1)
      (scrub_init env_short arr_s1 0 0 10 10) ⟨false, false⟩).2.silent_error_on_this_block
      = false :=
  ⟨⟨by decide, by decide, by decide, by decide, by decide⟩,
    ((scrub_read_error env_s4 arr_s1 0 0 10 100 10 500 5 2 (by decide) (by decide) (by decide)
      (by decide)).1 (by decide)).2,
    ⟨by decide, by decide⟩,
    (((scrub_read_error env_short arr_s1 0 0 10 100 10 500 1 1 (by decide) (by decide)
      (by decide) (by decide)).2 (by decide)).2.1 (scrub_init env_short arr_s1 0 0 10 10)
      ⟨false, false⟩).2.2.trans (by decide),
    (((scrub_read_error env_short arr_s1 0 0 10 100 10 500 1 1 (by decide) (by decide)
      (by decide) (by decide)).2 (by decide)).2.2.1 (scrub_init env_short arr_s1 0 0 10 10)
      ⟨false, false⟩ (by decide)).1.trans (by decide)⟩

theorem flagStep_refl (st : ScrubState) (fl : BlockFlags) : FlagStep st fl st fl := by
  unfold FlagStep
  simp

theorem flagStep_trans {a b c : ScrubState} {fa fb fc : BlockFlags}
    (h1 : FlagStep a fa b fb) (h2 : FlagStep b fb c fc) : FlagStep a fa c fc := by
  unfold FlagStep at *
  obtain ⟨h1a, h1b⟩ := h1
  obtain ⟨h2a, h2b⟩ := h2
  refine ⟨?_, le_trans h1b h2b⟩
  rw [h2a, h1a]
  constructor
  · rintro ((h | h) | h)
    · exact Or.inl h
    · exact Or.inr (lt_of_lt_of_le h h2b)
    · exact Or.inr (lt_of_le_of_lt h1b h)
  · rintro (h | h)
    · exact Or.inl (Or.inl h)
    · by_cases hx : a.error_total < b.error_total
      · exact Or.inl (Or.inr hx)
      · exact Or.inr (by omega)

theorem flagStep_same (st st1 : ScrubState) (fl : BlockFlags)
    (h : st1.error_total = st.error_total) : FlagStep st fl st1 fl := by
  unfold FlagStep
  rw [h]
  simp

theorem slot_hash_flag (env : ScrubEnv) (i j : Nat) (block : snapraid_block) (rs : Int)
    (st : ScrubState) (fl : BlockFlags) :
    FlagStep st fl (slot_hash env i j block rs st fl).1 (slot_hash env i j block rs st fl).2 := by
  unfold slot_hash FlagStep
  simp only []
  split
  · split_ifs <;> simp [emit, inc_error]
  · simp [emit]

theorem slot_read_flag (env : ScrubEnv) (i j : Nat) (block : snapraid_block)
    (st : ScrubState) (fl : BlockFlags) :
    FlagStep st fl (slot_read env i j block st fl).1 (slot_read env i j block st fl).2 := by
  unfold slot_read
  simp only []
  split_ifs
  · unfold FlagStep
    simp [emit, inc_error]
  · exact flagStep_trans (flagStep_same st _ fl rfl) (slot_hash_flag env i j block _ _ fl)

theorem slot_open_flag (env : ScrubEnv) (i j : Nat) (block : snapraid_block)
    (st : ScrubState) (fl : BlockFlags) :
    FlagStep st fl (slot_open env i j block st fl).1 (slot_open env i j block st fl).2 := by
  unfold slot_open
  simp only []
  split_ifs
  · unfold FlagStep
    simp [emit, inc_error]
  · exact flagStep_trans (flagStep_same st _ fl rfl) (slot_read_flag env i j block _ fl)

theorem scrub_slot_flag (env : ScrubEnv) (i j : Nat) (st : ScrubState) (fl : BlockFlags)
    (st1 : ScrubState) (fl1 : BlockFlags) (h : scrub_slot env i j st fl = .next st1 fl1) :
    FlagStep st fl st1 fl1 := by
  unfold scrub_slot at h
  simp only [] at h
  split_ifs at h
  · injection h with h1 h2
    subst h1 h2
    exact flagStep_same st _ fl rfl
  · injection h with h1 h2
    subst h1 h2
    exact flagStep_same st _ fl rfl
  · injection h with h1 h2
    subst h1 h2
    exact flagStep_trans (flagStep_same st _ fl rfl) (slot_open_flag env i j _ _ fl)
  · injection h with h1 h2
    subst h1 h2
    exact slot_open_flag env i j _ st fl

theorem scrub_slots_flag (env : ScrubEnv) (i : Nat) :
    ∀ (n j : Nat) (st : ScrubState) (fl : BlockFlags) (st1 : ScrubState) (fl1 : BlockFlags),
      scrub_slots env i n j st fl = .next st1 fl1 → FlagStep st fl st1 fl1 := by
  intro n
  induction n with
  | zero =>
    intro j st fl st1 fl1 h
    unfold scrub_slots at h
    injection h with h1 h2
    subst h1 h2
    exact flagStep_refl st fl
  | succ n ih =>
    intro j st fl st1 fl1 h
    unfold scrub_slots at h
    cases hs : scrub_slot env i j st fl with
    | bail s => rw [hs] at h; cases h
    | next s f =>
      rw [hs] at h
      exact flagStep_trans (scrub_slot_flag env i j st fl s f hs) (ih (j + 1) s f st1 fl1 h)

theorem parity_read_p_flag (env : ScrubEnv) (i buf : Nat) (st : ScrubState) (fl : BlockFlags) :
    FlagStep st fl (parity_read_p env i buf st fl).1 (parity_read_p env i buf st fl).2.1 := by
  unfold parity_read_p FlagStep
  simp only []
  split_ifs <;> simp [emit, inc_error]

theorem parity_read_q_flag (env : ScrubEnv) (i : Nat) (bq : Option Nat) (st : ScrubState)
    (fl : BlockFlags) :
    FlagStep st fl (parity_read_q env i bq st fl).1 (parity_read_q env i bq st fl).2.1 := by
  unfold parity_read_q FlagStep
  simp only []
  split_ifs <;> simp [emit, inc_error]

theorem parity_cmp_p_flag (env : ScrubEnv) (i : Nat) (bp : Option Nat) (st : ScrubState)
    (fl : BlockFlags) :
    FlagStep st fl (parity_cmp_p env i bp st fl).1 (parity_cmp_p env i bp st fl).2 := by
  unfold parity_cmp_p FlagStep
  split
  · split_ifs <;> simp [emit, inc_error]
  · simp

theorem parity_cmp_q_flag (env : ScrubEnv) (i : Nat) (bq : Option Nat) (st : ScrubState)
    (fl : BlockFlags) :
    FlagStep st fl (parity_cmp_q env i bq st fl).1 (parity_cmp_q env i bq st fl).2 := by
  unfold parity_cmp_q FlagStep
  split_ifs
  · split
    · split_ifs <;> simp [emit, inc_error]
    · simp
  · simp

theorem scrub_parity_flag (env : ScrubEnv) (i : Nat) (st : ScrubState) (fl : BlockFlags) :
    FlagStep st fl (scrub_parity env i st fl).1 (scrub_parity env i st fl).2 := by
  unfold scrub_parity
  simp only []
  generalize (if env.level = 1 then env.diskmax + 1 else env.diskmax + 2) = bp
  generalize (if env.level = 1 then none else some (env.diskmax + 3)) = bq
  have h1 := parity_read_p_flag env i bp st fl
  generalize parity_read_p env i bp st fl = rp at h1 ⊢
  have h2 := parity_read_q_flag env i bq rp.1 rp.2.1
  generalize parity_read_q env i bq rp.1 rp.2.1 = rq at h2 ⊢
  have h3 : FlagStep rq.1 rq.2.1 (emit { rq.1 with buffer := raid_gen env rq.1.buffer }
      (.raid_gen i)) rq.2.1 := flagStep_same _ _ _ rfl
  generalize emit { rq.1 with buffer := raid_gen env rq.1.buffer } (.raid_gen i) = st3
    at h3 ⊢
  have h4 := parity_cmp_p_flag env i rp.2.2 st3 rq.2.1
  generalize parity_cmp_p env i rp.2.2 st3 rq.2.1 = cp at h4 ⊢
  exact flagStep_trans h1 (flagStep_trans h2 (flagStep_trans h3
    (flagStep_trans h4 (parity_cmp_q_flag env i rq.2.2 cp.1 cp.2))))

theorem scrub_classify_total (now : Int) (i : Nat) (st : ScrubState) (fl : BlockFlags) :
    (scrub_classify now i st fl).error_total = st.error_total := by
  unfold scrub_classify
  simp only []
  split_ifs <;> rfl

theorem scrub_progress_total (env : ScrubEnv) (countmax al i : Nat) (st : ScrubState) :
    (scrub_progress env countmax al i st).state.error_total = st.error_total := by
  unfold scrub_progress
  simp only []
  split_ifs <;> rfl

/-- An iteration that reaches the classification counted an error exactly when one of the
block flags is set, that is when an I/O error or a silent error occurred on the block. -/
theorem scrub_block_flags (env : ScrubEnv) (timelimit now : Int) (countmax al i : Nat)
    (st : ScrubState) (h : eligible st.infoarr timelimit i = true)
    (hlen : st.buffer.length = env.diskmax + env.level * 2)
    (hl : env.level = 1 ∨ env.level = 2)
    (hnb : (scrub_block env timelimit now countmax al i st).is_bail = false) :
    ((block_io_error env i || block_silent_error env i) = true ↔
      st.error_total < (scrub_block env timelimit now countmax al i st).state.error_total) := by
  have h0 : info_get st.infoarr i ≠ info_zero := by
    simp [eligible] at h; exact h.1
  have h1 : ¬ info_get_time (info_get st.infoarr i) > timelimit := by
    simp [eligible] at h; exact not_lt.mpr h.2
  unfold scrub_block at hnb ⊢
  simp only [h0, h1, if_false] at hnb ⊢
  obtain ⟨st1, hst1⟩ : ∃ st1 : ScrubState, st1 =
      { st with autosavedone := st.autosavedone + 1
                autosavemissing := (st.autosavemissing + (2 ^ 32 - 1)) % 2 ^ 32 } := ⟨_, rfl⟩
  rw [← hst1] at hnb ⊢
  have e2 : st1.buffer = st.buffer := by rw [hst1]
  have e6 : st1.error_total = st.error_total := by rw [hst1]
  have hlen1 : env.diskmax ≤ st1.buffer.length := by rw [e2]; omega
  cases hs : scrub_slots env i env.diskmax 0 st1 ⟨false, false⟩ with
  | bail st2 =>
    rw [hs] at hnb
    simp [BlockResult.is_bail] at hnb
  | next st2 fl2 =>
    obtain ⟨b1, -, b3, b4, b5⟩ := scrub_slots_all env i st1 hlen1 st2 fl2 hs
    have s6 := b1.2.2.2.2.2
    have fs := scrub_slots_flag env i env.diskmax 0 st1 ⟨false, false⟩ st2 fl2 hs
    simp only []
    rw [scrub_progress_total, scrub_classify_total]
    by_cases hf : fl2.error_on_this_block = false ∧ fl2.silent_error_on_this_block = false
    · rw [if_pos hf]
      have hio : data_io_error env i = false := by rw [← b3]; exact hf.1
      have hha : data_hash_error env i = false := by rw [← b4]; exact hf.2
      obtain ⟨p3, p4⟩ := scrub_parity_flags env i st2 fl2 hl (by rw [s6, e2, hlen]) (b5 hio)
      have fp := flagStep_trans fs (scrub_parity_flag env i st2 fl2)
      unfold FlagStep at fp
      rw [p3, p4, hf.1, hf.2, e6] at fp
      have fp1 := fp.1
      simp only [Bool.false_or, Bool.or_eq_true, Bool.false_eq_true, false_or] at fp1
      simp only [block_io_error, block_silent_error, hio, hha, Bool.false_or, Bool.not_false,
        Bool.true_and, Bool.or_eq_true]
      exact fp1
    · rw [if_neg hf]
      unfold FlagStep at fs
      rw [e6, b3, b4] at fs
      rw [b3, b4] at hf
      have fs1 := fs.1
      simp only [Bool.false_or, Bool.or_eq_true, Bool.false_eq_true, false_or] at fs1
      rw [← fs1]
      cases hio : data_io_error env i <;> cases hha : data_hash_error env i <;>
        simp_all [block_io_error, block_silent_error]

theorem errCause_exit (env : ScrubEnv) (st : ScrubState) (h : ErrCause env st) :
    ErrCauseExit env st :=
  ⟨h.1, h.2.1, Or.inl h.2.2.1, h.2.2.2⟩

theorem block_event_not_teardown (i j : Nat) (e : Event)
    (h : Event.is_block_event i e = true) : e ≠ Event.teardown_close j := by
  intro he
  rw [he] at h
  simp [Event.is_block_event, Event.is_slot_event, Event.is_parity_event] at h

theorem log_is_error (env : ScrubEnv) (e : Event) (h : Event.is_log e = true) :
    Event.is_error env e = true := by
  cases e <;> simp_all [Event.is_log, Event.is_error]

theorem scrub_block_cause (env : ScrubEnv) (timelimit now : Int) (countmax al i : Nat)
    (st : ScrubState) (hlen : st.buffer.length = env.diskmax + env.level * 2)
    (hl : env.level = 1 ∨ env.level = 2) (hI : ErrCause env st) :
    (∀ st1, scrub_block env timelimit now countmax al i st = .next st1 → ErrCause env st1) ∧
    (∀ st1, scrub_block env timelimit now countmax al i st = .stop st1 →
      ErrCauseExit env st1) ∧
    (∀ st1, scrub_block env timelimit now countmax al i st = .bail st1 →
      ErrCauseExit env st1) := by
  obtain ⟨i1, i2, i3, i4⟩ := hI
  by_cases helig : eligible st.infoarr timelimit i = true
  · obtain ⟨-, -, ⟨evs, t1, t2⟩, hb, hnb⟩ :=
      scrub_block_run env timelimit now countmax al i st helig hlen
    obtain ⟨r1, r2⟩ := scrub_block_err env timelimit now countmax al i st
    have hinv := r1 i1
    have htd : ∀ j, Event.teardown_close j ∉
        (scrub_block env timelimit now countmax al i st).state.trace := by
      intro j hmem
      rw [t1] at hmem
      rcases List.mem_append.mp hmem with hx | hx
      · exact i4 j hx
      · exact block_event_not_teardown i j _ (t2 _ hx) rfl
    -- the iteration reaches the classification
    have run : (scrub_block env timelimit now countmax al i st).is_bail = false →
        ErrCause env (scrub_block env timelimit now countmax al i st).state := by
      intro hbail
      obtain ⟨-, -, -, c4⟩ := hnb hbail
      have hfl := scrub_block_flags env timelimit now countmax al i st helig hlen hl hbail
      refine ⟨hinv, ?_, ?_, htd⟩
      · intro k hk hbe
        by_cases hki : k = i
        · subst hki
          have := hfl.mp hbe
          omega
        · rw [scrub_block_processed env timelimit now countmax al i st helig hlen k hki] at hk
          have := i2 k hk hbe
          omega
      · intro e he hlog
        rw [t1] at he
        rcases List.mem_append.mp he with hx | hx
        · obtain ⟨k, hk1, hk2⟩ := i3 e hx hlog
          refine ⟨k, ?_, hk2⟩
          rw [t1, processed_append, hk1]
          rfl
        · refine ⟨i, c4, hfl.mpr ?_⟩
          have hc : 0 < evs.countP (Event.is_error env) :=
            List.countP_pos_iff.mpr ⟨e, hx, log_is_error env e hlog⟩
          have h1 := hinv.2
          rw [t1, List.countP_append] at h1
          have h2 := i1.2
          omega
    -- the iteration is cut by a failing close
    have cut : (scrub_block env timelimit now countmax al i st).is_bail = true →
        ErrCauseExit env (scrub_block env timelimit now countmax al i st).state := by
      intro hbail
      obtain ⟨-, -, -, b4⟩ := hb hbail
      refine ⟨hinv, ?_, Or.inr ?_, htd⟩
      · intro k hk hbe
        rw [processed_ext k b4 (fun e he => slot_event_not_progress i k e he)] at hk
        have := i2 k hk hbe
        omega
      · rcases scrub_block_detail env timelimit now countmax al i st helig hlen with
          ⟨s, _, _, d1, -⟩ | ⟨s, _, _, d1, -⟩ | ⟨s, j, pre, d1, -, d3, d4, -⟩
        · rw [d1] at hbail
          cases hbail
        · rw [d1] at hbail
          cases hbail
        · refine ⟨i, j, ?_, d3⟩
          rw [d1]
          simp only [BlockResult.state, d4]
          simp
    refine ⟨?_, ?_, ?_⟩
    · intro s hs
      have := run (by rw [hs]; rfl)
      rw [hs] at this
      exact this
    · intro s hs
      have := run (by rw [hs]; rfl)
      rw [hs] at this
      exact errCause_exit env s this
    · intro s hs
      have := cut (by rw [hs]; rfl)
      rw [hs] at this
      exact this
  · have hsk := scrub_block_skip env timelimit now countmax al i st (by simpa using helig)
    refine ⟨?_, fun s hs => (by rw [hsk] at hs; cases hs),
      fun s hs => (by rw [hsk] at hs; cases hs)⟩
    intro s hs
    rw [hsk] at hs
    injection hs with hs
    subst hs
    exact ⟨i1, i2, i3, i4⟩

theorem process_teardown_mem (env : ScrubEnv) (infoarr : Nat → snapraid_info)
    (need_write : Int) (blockstart blockmax : Nat) (timelimit : Int) (countlimit : Nat)
    (now : Int) (j : Nat) :
    Event.teardown_close j ∈ (state_scrub_process env infoarr need_write blockstart blockmax
      timelimit countlimit now).2.trace ↔
    (Event.teardown_close j ∈ (scrub_loop_state env infoarr need_write blockstart blockmax
      timelimit countlimit now).trace ∨ j < env.diskmax) := by
  unfold state_scrub_process scrub_loop_state scrub_countmax scrub_blocklimit
  simp only []
  generalize scrub_loop env timelimit now _ _ _ blockstart _ = R
  cases R with
  | done st =>
    simp only [LoopResult.state]
    rw [scrub_teardown_trace]
    simp [emit, List.mem_range'_1]
  | bail st =>
    simp only [LoopResult.state]
    rw [scrub_teardown_trace]
    simp [List.mem_range'_1]

/-- The errors counted by a run of `state_scrub_process` and their causes, for `level` 1 or
2: the counter agrees with the trace, a classified block with an error was counted, an error
log line belongs to a classified block with an error or comes with a failing `handle_close`
of the scan, and the teardown closes exactly the slots of `[0, diskmax)`. -/
theorem process_cause (env : ScrubEnv) (infoarr : Nat → snapraid_info) (need_write : Int)
    (blockstart blockmax : Nat) (timelimit : Int) (countlimit : Nat) (now : Int)
    (hl : env.level = 1 ∨ env.level = 2) :
    (∀ k, processed (state_scrub_process env infoarr need_write blockstart blockmax timelimit
        countlimit now).2.trace k = true → block_error env k = true →
      0 < (state_scrub_process env infoarr need_write blockstart blockmax timelimit
        countlimit now).2.error_total) ∧
    (∀ e ∈ (state_scrub_process env infoarr need_write blockstart blockmax timelimit
        countlimit now).2.trace, Event.is_log e = true →
      (∃ k, processed (state_scrub_process env infoarr need_write blockstart blockmax
          timelimit countlimit now).2.trace k = true ∧ block_error env k = true) ∨
      ∃ i j, Event.handle_close i j ∈ (state_scrub_process env infoarr need_write blockstart
          blockmax timelimit countlimit now).2.trace ∧ env.handle_close_ret i j = -1) ∧
    (∀ j, Event.teardown_close j ∈ (state_scrub_process env infoarr need_write blockstart
        blockmax timelimit countlimit now).2.trace ↔ j < env.diskmax) := by
  have hloop : ErrCauseExit env (scrub_loop_state env infoarr need_write blockstart blockmax
      timelimit countlimit now) := by
    unfold scrub_loop_state
    refine scrub_loop_rule env timelimit now _ _ (fun _ s => ErrCause env s)
      (ErrCauseExit env) _ (fun s h => errCause_exit env s h) ?_ _ _ _ rfl
      (by simp [scrub_init]) ?_
    · intro i s _ hlen hI
      exact scrub_block_cause env timelimit now _ _ i s hlen hl hI
    · refine ⟨by simp [ErrInv, scrub_init, Event.is_error], ?_, ?_, ?_⟩
      · intro k hk
        simp [scrub_init, processed, Event.is_progress_at] at hk
      · intro e he hlog
        simp only [scrub_init, List.mem_singleton] at he
        rw [he] at hlog
        cases hlog
      · intro j hmem
        simp [scrub_init] at hmem
  obtain ⟨-, l2, l3, l4⟩ := hloop
  obtain ⟨-, -, -, evs, e4, e5⟩ := process_exit env infoarr need_write blockstart blockmax
    timelimit countlimit now
  obtain ⟨-, g2, -⟩ := process_err env infoarr need_write blockstart blockmax timelimit
    countlimit now
  have hp : ∀ k, processed (state_scrub_process env infoarr need_write blockstart blockmax
      timelimit countlimit now).2.trace k
      = processed (scrub_loop_state env infoarr need_write blockstart blockmax timelimit
          countlimit now).trace k :=
    fun k => processed_ext k ⟨evs, e4, e5⟩ (exit_event_not_progress k)
  refine ⟨?_, ?_, ?_⟩
  · intro k hk hbe
    rw [hp k] at hk
    exact lt_of_lt_of_le (l2 k hk hbe) g2
  · intro e he hlog
    rw [e4] at he
    rcases List.mem_append.mp he with hx | hx
    · rcases l3 with l3 | ⟨i, j, c1, c2⟩
      · obtain ⟨k, hk1, hk2⟩ := l3 e hx hlog
        exact Or.inl ⟨k, by rw [hp k]; exact hk1, hk2⟩
      · exact Or.inr ⟨i, j, by rw [e4]; exact List.mem_append_left _ c1, c2⟩
    · have := e5 e hx
      cases e <;> simp_all [Event.is_exit_event, Event.is_log]
  · intro j
    rw [process_teardown_mem]
    constructor
    · rintro (h | h)
      · exact absurd h (l4 j)
      · exact h
    · exact Or.inr

/-- C13: in a run of `state_scrub_process` that reaches the main loop (the divisor of line 95
is not `0`) and counts fewer than `2 ^ 32` errors (the `unsigned` counter `error` does not
wrap), the return code is `-1` or `0`, and it is `-1` exactly when an error was counted: a
`handle_close` of the teardown fails on a slot of `[0, diskmax)`, a `handle_close` of the scan
fails, or a classified block has an error (an open or read failure or a hash mismatch on a
data slot, or, after a data pass without error, a failing parity or qarity read or a parity or
qarity mismatch).  A silent error alone gives `-1`.  `state_scrub`, once the plan is made and
the parity files are open, returns `-1` when `state_scrub_process` returned `-1` or a close of
the parity or of the qarity file failed, and `0` otherwise. -/
theorem scrub_return_code (env : ScrubEnv) (infoarr : Nat → snapraid_info) (need_write : Int)
    (blockstart blockmax : Nat) (timelimit : Int) (countlimit : Nat) (now : Int)
    (_hnz : scrub_stripe_size env ≠ 0)
    (hw : (state_scrub_process env infoarr need_write blockstart blockmax timelimit countlimit
      now).2.trace.countP (Event.is_error env) < 2 ^ 32) :
    ((state_scrub_process env infoarr need_write blockstart blockmax timelimit countlimit now).1
        = -1 ∨
      (state_scrub_process env infoarr need_write blockstart blockmax timelimit countlimit now).1
        = 0) ∧
    ((state_scrub_process env infoarr need_write blockstart blockmax timelimit countlimit now).1
        = -1 ↔
      ∃ e ∈ (state_scrub_process env infoarr need_write blockstart blockmax timelimit countlimit
        now).2.trace, Event.is_error env e = true) ∧
    (env.level = 1 ∨ env.level = 2 →
      ((state_scrub_process env infoarr need_write blockstart blockmax timelimit countlimit
          now).1 = -1 ↔
        ((∃ j, j < env.diskmax ∧ env.teardown_close_ret j = -1) ∨
          (∃ i j, Event.handle_close i j ∈ (state_scrub_process env infoarr need_write
            blockstart blockmax timelimit countlimit now).2.trace ∧
            env.handle_close_ret i j = -1) ∨
          (∃ i, processed (state_scrub_process env infoarr need_write blockstart blockmax
            timelimit countlimit now).2.trace i = true ∧ block_error env i = true))) ∧
      (∀ i, processed (state_scrub_process env infoarr need_write blockstart blockmax
          timelimit countlimit now).2.trace i = true →
        ((∃ j, j < env.diskmax ∧
            (slot_io_error env i j = true ∨ slot_hash_error env i j = true)) →
          (state_scrub_process env infoarr need_write blockstart blockmax timelimit countlimit
            now).1 = -1) ∧
        (data_io_error env i = false → data_hash_error env i = false →
          (parity_io_error env i = true ∨ parity_silent_error env i = true) →
          (state_scrub_process env infoarr need_write blockstart blockmax timelimit countlimit
            now).1 = -1) ∧
        (block_silent_error env i = true →
          (state_scrub_process env infoarr need_write blockstart blockmax timelimit countlimit
            now).1 = -1))) ∧
    (∀ tl cl, scrub_plan infoarr blockmax now = some (tl, cl) →
      env.parity_open_ret ≠ -1 → ¬(2 ≤ env.level ∧ env.qarity_open_ret = -1) →
      ∃ st, state_scrub env infoarr need_write blockmax now
        = .ret (if (state_scrub_process env infoarr need_write 0 blockmax tl cl now).1 = -1 ∨
            env.parity_close_ret = -1 ∨ (2 ≤ env.level ∧ env.qarity_close_ret = -1)
          then -1 else 0) st) := by
  obtain ⟨⟨e1, e2⟩, -, e3⟩ := process_err env infoarr need_write blockstart blockmax timelimit
    countlimit now
  have key : (state_scrub_process env infoarr need_write blockstart blockmax timelimit
      countlimit now).1 = -1 ↔
      ∃ e ∈ (state_scrub_process env infoarr need_write blockstart blockmax timelimit countlimit
        now).2.trace, Event.is_error env e = true := by
    rw [e3, e1, e2, Nat.mod_eq_of_lt hw]
    constructor
    · intro h
      have hpos : 0 < List.countP (Event.is_error env) (state_scrub_process env infoarr
          need_write blockstart blockmax timelimit countlimit now).2.trace := by
        by_contra hc
        simp only [not_lt, Nat.le_zero] at hc
        rw [hc] at h
        simp at h
      exact List.countP_pos_iff.mp hpos
    · intro h
      have hpos := List.countP_pos_iff.mpr h
      rw [if_pos (by omega)]
  have counted : 0 < (state_scrub_process env infoarr need_write blockstart blockmax timelimit
      countlimit now).2.error_total →
      (state_scrub_process env infoarr need_write blockstart blockmax timelimit countlimit
        now).1 = -1 := by
    intro hpos
    rw [e3, e1, Nat.mod_eq_of_lt (by rw [e2]; exact hw), if_pos (by omega)]
  refine ⟨?_, key, ?_, ?_⟩
  · rw [e3]
    split_ifs <;> simp
  · intro hl
    obtain ⟨c1, c2, c3⟩ := process_cause env infoarr need_write blockstart blockmax timelimit
      countlimit now hl
    have classified : ∀ i, processed (state_scrub_process env infoarr need_write blockstart
        blockmax timelimit countlimit now).2.trace i = true → block_error env i = true →
        (state_scrub_process env infoarr need_write blockstart blockmax timelimit countlimit
          now).1 = -1 := fun i hp hb => counted (c1 i hp hb)
    refine ⟨⟨?_, ?_⟩, ?_⟩
    · intro hret
      obtain ⟨e, he, herr⟩ := key.mp hret
      cases e with
      | log i src kind =>
        rcases c2 _ he rfl with ⟨k, hk1, hk2⟩ | hc
        · exact Or.inr (Or.inr ⟨k, hk1, hk2⟩)
        · exact Or.inr (Or.inl hc)
      | handle_close i j =>
        exact Or.inr (Or.inl ⟨i, j, he, by simpa [Event.is_error] using herr⟩)
      | teardown_close j =>
        exact Or.inl ⟨j, (c3 j).mp he, by simpa [Event.is_error] using herr⟩
      | _ => simp [Event.is_error] at herr
    · rintro (⟨j, hj, hf⟩ | ⟨i, j, hm, hf⟩ | ⟨i, hp, hb⟩)
      · exact key.mpr ⟨_, (c3 j).mpr hj, by simp [Event.is_error, hf]⟩
      · exact key.mpr ⟨_, hm, by simp [Event.is_error, hf]⟩
      · exact classified i hp hb
    · intro i hp
      refine ⟨?_, ?_, ?_⟩
      · rintro ⟨j, hj, hs | hs⟩
        · refine classified i hp ?_
          simp [block_error, block_io_error, data_io_error,
            any_range_true env.diskmax _ j hj hs]
        · refine classified i hp ?_
          simp [block_error, block_silent_error, data_hash_error,
            any_range_true env.diskmax _ j hj hs]
      · intro hio hha hpar
        refine classified i hp ?_
        rcases hpar with hpar | hpar <;>
          simp [block_error, block_io_error, block_silent_error, hio, hha, hpar]
      · intro hs
        exact classified i hp (by simp [block_error, hs])
  · intro tl cl hplan g1 g2
    unfold state_scrub
    rw [hplan]
    simp only []
    rw [if_neg g1, if_neg g2]
    refine ⟨{ (state_scrub_process env infoarr need_write 0 blockmax tl cl now).2 with
      trace := (if 2 ≤ env.level then [Event.parity_open, Event.qarity_open]
          else [Event.parity_open])
        ++ (state_scrub_process env infoarr need_write 0 blockmax tl cl now).2.trace
        ++ (if 2 ≤ env.level then [Event.parity_close, Event.qarity_close]
          else [Event.parity_close]) }, ?_⟩
    congr 1
    by_cases c1 : (state_scrub_process env infoarr need_write 0 blockmax tl cl now).1 = -1 <;>
      by_cases c2 : env.parity_close_ret = -1 <;>
      by_cases c3 : (2 ≤ env.level ∧ env.qarity_close_ret = -1) <;>
      simp [c1, c2, c3]

set_option maxRecDepth 1000000 in
theorem scrub_return_code_witness :
    (scrub_stripe_size env_s2 ≠ 0 ∧
      (state_scrub_process env_s2 arr_s1 0 0 10 100 10 500).2.trace.countP
        (Event.is_error env_s2) < 2 ^ 32 ∧
      processed (state_scrub_process env_s2 arr_s1 0 0 10 100 10 500).2.trace 4 = true ∧
      block_silent_error env_s2 4 = true ∧ block_io_error env_s2 4 = false) ∧
    (state_scrub_process env_s2 arr_s1 0 0 10 100 10 500).1 = -1 ∧
    (env_tclose.teardown_close_ret 2 = -1 ∧
      (state_scrub_process env_tclose arr_s1 0 0 10 100 10 500).1 = -1) ∧
    (scrub_plan arr_s1 24 1000000 = some (12, 2) ∧
      (state_scrub_process env_pclose arr_s1 0 0 24 12 2 1000000).1 = 0 ∧
      ∃ st, state_scrub env_pclose arr_s1 0 24 1000000 = .ret (-1) st) ∧
    (∃ st, state_scrub env_s1 arr_s1 0 24 1000000 = .ret 0 st) :=
  ⟨⟨by decide, by decide, by decide, by decide, by decide⟩,
    (((scrub_return_code env_s2 arr_s1 0 0 10 100 10 500 (by decide) (by decide)).2.2.1
      (by decide)).2 4 (by decide)).2.2 (by decide),
    ⟨by decide,
      ((scrub_return_code env_tclose arr_s1 0 0 10 100 10 500 (by decide) (by decide)).2.2.1
        (by decide)).1.mpr (Or.inl ⟨2, by decide, by decide⟩)⟩,
    ⟨by decide, by decide, by
      have h := (scrub_return_code env_pclose arr_s1 0 0 24 12 2 1000000 (by decide)
        (by decide)).2.2.2 12 2 (by decide) (by decide) (by decide)
      rw [if_pos (Or.inr (Or.inl (by decide)))] at h
      exact h⟩,
    by
      have h := (scrub_return_code env_s1 arr_s1 0 0 24 12 2 1000000 (by decide)
        (by decide)).2.2.2 12 2 (by decide) (by decide) (by decide)
      rw [if_neg (by decide)] at h
      exact h⟩

theorem scrub_block_dirty (env : ScrubEnv) (timelimit now : Int) (countmax al i : Nat)
    (nw : Int) (st : ScrubState) (hlen : st.buffer.length = env.diskmax + env.level * 2)
    (hI : DirtyInv env nw st) :
    DirtyInv env nw (scrub_block env timelimit now countmax al i st).state := by
  by_cases helig : eligible st.infoarr timelimit i = true
  · rcases scrub_block_detail env timelimit now countmax al i st helig hlen with
      ⟨st1, pre, cs, b1, -, b3, b4, -, -, -, b8⟩ |
      ⟨st1, pre, cs, b1, -, b3, b4, -, b6⟩ |
      ⟨st1, j, pre, b1, -, -, b4, b5, -, b7, -⟩
    · rw [b1]
      simp only [BlockResult.state]
      have hp : processed st1.trace i = true := by
        rw [b3]
        simp [processed, Event.is_progress_at]
      have ht : save_ticks st1.trace = save_ticks st.trace ++
          (SaveTick.processed (st.countpos + 1) ::
            if env.autosave ≠ 0 ∧ st.autosavedone + 1 ≥ al ∧
              (st.autosavemissing + (2 ^ 32 - 1)) % 2 ^ 32 ≥ al then [SaveTick.saved]
            else []) := by
        have hpre := save_ticks_work env i pre b4
        unfold save_ticks at hpre ⊢
        rw [b3, List.filterMap_append, List.filterMap_append, hpre, List.append_nil]
        split_ifs <;> rfl
      refine ⟨fun h => ?_, ?_, ?_⟩
      · rw [h i] at hp
        cases hp
      · intro k hk
        rw [ht] at hk
        rw [b8]
        split_ifs at hk ⊢ with hc
        · simp at hk
        · rfl
      · intro hk
        rw [ht] at hk
        rw [b8]
        split_ifs at hk ⊢ with hc
        · rfl
        · simp at hk
    · rw [b1]
      simp only [BlockResult.state]
      have hp : processed st1.trace i = true := by
        rw [b3]
        simp [processed, Event.is_progress_at]
      have ht : save_ticks st1.trace = save_ticks st.trace ++
          [SaveTick.processed (st.countpos + 1)] := by
        have hpre := save_ticks_work env i pre b4
        unfold save_ticks at hpre ⊢
        rw [b3, List.filterMap_append, List.filterMap_append, hpre, List.append_nil]
        rfl
      refine ⟨fun h => ?_, fun _ _ => b6, ?_⟩
      · rw [h i] at hp
        cases hp
      · intro hk
        rw [ht] at hk
        simp at hk
    · rw [b1]
      simp only [BlockResult.state]
      have ht : save_ticks st1.trace = save_ticks st.trace := by
        have hpre := save_ticks_work env i pre b5
        unfold save_ticks at hpre ⊢
        rw [b4, List.filterMap_append, List.filterMap_append, hpre, List.append_nil]
        simp [Event.tick]
      have hp : ∀ k, processed st1.trace k = processed st.trace k := by
        intro k
        have hpre : pre.any (Event.is_progress_at k) = false := by
          rw [List.any_eq_false]
          intro e he
          simp [work_event_not_progress env i k e (b5 e he)]
        rw [b4]
        simp [processed, hpre, Event.is_progress_at]
      unfold DirtyInv
      rw [ht, b7]
      simp only [hp]
      exact hI
  · rw [scrub_block_skip env timelimit now countmax al i st (by simpa using helig)]
    exact hI

theorem scrub_loop_dirty (env : ScrubEnv) (timelimit now : Int) (countmax al : Nat) (nw : Int)
    (n i0 : Nat) (st : ScrubState) (hlen : st.buffer.length = env.diskmax + env.level * 2)
    (hI : DirtyInv env nw st) :
    DirtyInv env nw (scrub_loop env timelimit now countmax al n i0 st).state := by
  refine scrub_loop_rule env timelimit now countmax al (fun _ s => DirtyInv env nw s)
    (DirtyInv env nw) (i0 + n) (fun _ h => h) ?_ n i0 st rfl hlen hI
  intro i s _ hl hs
  have h := scrub_block_dirty env timelimit now countmax al i nw s hl hs
  refine ⟨?_, ?_, ?_⟩ <;> intro s1 hb <;> rw [hb] at h <;> exact h

/-- The dirty flag at the exit of `state_scrub_process`. -/
theorem process_dirty (env : ScrubEnv) (infoarr : Nat → snapraid_info) (need_write : Int)
    (blockstart blockmax : Nat) (timelimit : Int) (countlimit : Nat) (now : Int) :
    DirtyInv env need_write (state_scrub_process env infoarr need_write blockstart blockmax
      timelimit countlimit now).2 := by
  obtain ⟨-, e2, -, evs, e4, e5⟩ := process_exit env infoarr need_write blockstart blockmax
    timelimit countlimit now
  have hp : ∀ k, processed (state_scrub_process env infoarr need_write blockstart blockmax
      timelimit countlimit now).2.trace k
      = processed (scrub_loop_state env infoarr need_write blockstart blockmax timelimit
          countlimit now).trace k :=
    fun k => processed_ext k ⟨evs, e4, e5⟩ (exit_event_not_progress k)
  have ht : save_ticks (state_scrub_process env infoarr need_write blockstart blockmax
      timelimit countlimit now).2.trace
      = save_ticks (scrub_loop_state env infoarr need_write blockstart blockmax timelimit
          countlimit now).trace := by
    have hx := save_ticks_exit evs e5
    unfold save_ticks at hx ⊢
    rw [e4, List.filterMap_append, hx, List.append_nil]
  unfold DirtyInv
  rw [e2, ht]
  simp only [hp]
  unfold scrub_loop_state
  refine scrub_loop_dirty env timelimit now _ _ need_write _ _ _ (by simp [scrub_init]) ?_
  refine ⟨fun _ => ⟨rfl, rfl⟩, ?_, ?_⟩
  · intro k hk
    simp [scrub_init, save_ticks, Event.tick] at hk
  · intro hk
    simp [scrub_init, save_ticks, Event.tick] at hk

/-- The autosave schedule of a run with no close failure and no stop request, for the limit
`L = scrub_autosavelimit env` that the code computes. -/
theorem process_saves (env : ScrubEnv) (infoarr : Nat → snapraid_info)
    (need_write : Int) (blockstart blockmax : Nat) (timelimit : Int) (countlimit : Nat)
    (now : Int) (hu : uninterrupted env) (ha : env.autosave ≠ 0)
    (hL : 1 ≤ scrub_autosavelimit env) (hcl : countlimit < 2 ^ 32) :
    (state_scrub_process env infoarr need_write blockstart blockmax timelimit countlimit
      now).2.countpos = scrub_countmax infoarr blockstart blockmax timelimit countlimit ∧
    save_ticks (state_scrub_process env infoarr need_write blockstart blockmax timelimit
      countlimit now).2.trace
      = save_schedule (scrub_autosavelimit env)
          (scrub_countmax infoarr blockstart blockmax timelimit countlimit)
          (scrub_countmax infoarr blockstart blockmax timelimit countlimit) ∧
    (∀ e ∈ (state_scrub_process env infoarr need_write blockstart blockmax timelimit
        countlimit now).2.trace,
      Event.done_ok (scrub_autosavelimit env)
        (scrub_countmax infoarr blockstart blockmax timelimit countlimit) e = true) := by
  obtain ⟨p1, p2, -, -, -⟩ := scrub_prepass infoarr blockstart blockmax timelimit countlimit
  obtain ⟨-, -, e3, evs, e4, e5⟩ := process_exit env infoarr need_write blockstart blockmax
    timelimit countlimit now
  have hcm : scrub_countmax infoarr blockstart blockmax timelimit countlimit < 2 ^ 32 := by
    rw [p1]
    exact lt_of_le_of_lt (Nat.min_le_left _ _) hcl
  generalize hal : scrub_autosavelimit env = L at hL ⊢
  have hloop :
      (scrub_loop_state env infoarr need_write blockstart blockmax timelimit countlimit
        now).countpos = scrub_countmax infoarr blockstart blockmax timelimit countlimit ∧
      SaveInv L (scrub_countmax infoarr blockstart blockmax timelimit countlimit)
        (scrub_loop_state env infoarr need_write blockstart blockmax timelimit countlimit
          now) := by
    unfold scrub_loop_state
    rw [hal]
    refine scrub_loop_rule env timelimit now _ _
      (fun i s => CountInv timelimit
        (scrub_countmax infoarr blockstart blockmax timelimit countlimit)
        (blockstart + (scrub_blocklimit infoarr blockstart blockmax timelimit countlimit
          - blockstart)) i s ∧
        SaveInv L (scrub_countmax infoarr blockstart blockmax timelimit countlimit) s)
      (fun s => s.countpos = scrub_countmax infoarr blockstart blockmax timelimit countlimit ∧
        SaveInv L (scrub_countmax infoarr blockstart blockmax timelimit countlimit) s) _
      ?_ ?_ _ _ _ rfl (by simp [scrub_init]) ⟨⟨?_, rfl, ?_⟩, ?_, ?_, ?_⟩
    · rintro st ⟨⟨h1, -, -⟩, hS⟩
      simp only [Nat.sub_self, eligible_count, List.range'_zero, List.countP_nil,
        Nat.add_zero] at h1
      exact ⟨h1, hS⟩
    · intro i st hi hlen hI
      obtain ⟨s0, hs0⟩ := scrub_block_uninterrupted env timelimit now
        (scrub_countmax infoarr blockstart blockmax timelimit countlimit) L i st hu
      refine ⟨fun s hs => ⟨(scrub_block_counted env timelimit now _ _ _ i st hi hlen hcm
        hI.1).1 s hs, scrub_block_saves env timelimit now _ L _ i st hi hlen hcm hu ha hL
        hI.1 hI.2 s hs⟩, fun s hs => (by rw [hs0] at hs; cases hs),
        fun s hs => (by rw [hs0] at hs; cases hs)⟩
    · simp only [scrub_init, Nat.zero_add, Nat.add_sub_cancel_left]
      exact p2.symm
    · intro e he
      simp only [scrub_init, List.mem_singleton] at he
      rw [he]
      rfl
    · rfl
    · intro _
      simp [scrub_init]
    · intro e he
      simp only [scrub_init, List.mem_singleton] at he
      rw [he]
      rfl
  obtain ⟨l1, l2, l3, l4⟩ := hloop
  have hticks : save_ticks (state_scrub_process env infoarr need_write blockstart blockmax
      timelimit countlimit now).2.trace
      = save_schedule L (scrub_countmax infoarr blockstart blockmax timelimit countlimit)
          (scrub_countmax infoarr blockstart blockmax timelimit countlimit) := by
    have hx := save_ticks_exit evs e5
    unfold save_ticks at hx l2 ⊢
    rw [e4, List.filterMap_append, hx, List.append_nil, l2, l1]
  refine ⟨by rw [e3]; exact l1, hticks, ?_⟩
  intro e hmem
  rw [e4] at hmem
  rcases List.mem_append.mp hmem with hx | hx
  · exact l4 _ hx
  · have := e5 _ hx
    cases e <;> first | rfl | simp [Event.is_exit_event] at this

/-- C11: with `autosave != 0` and the limit `L` that the code computes, the 32-bit
`autosavelimit = (autosave / ((diskmax * block_size) mod 2 ^ 32)) mod 2 ^ 32`, at least `1`
(`L` is `autosave / (diskmax * block_size)` when the product and the quotient fit in 32
bits), a run with no close failure and no stop request (`countlimit` a `block_off_t`)
processes `countmax` blocks and calls `state_write` exactly after the `k`-th processed block
for the multiples `k` of `L` with `countmax - k >= L`, that is `countmax / L - 1` times (`0`
when `countmax < L`); the counter `autosavedone` restarts at each save: while a save is still
possible, the call of `state_progress` for the `k`-th block reports `(k - 1) % L + 1`. -/
theorem scrub_autosave_schedule (env : ScrubEnv) (infoarr : Nat → snapraid_info)
    (need_write : Int) (blockstart blockmax : Nat) (timelimit : Int) (countlimit : Nat)
    (now : Int) (hu : uninterrupted env) (ha : env.autosave ≠ 0)
    (hL : 1 ≤ scrub_autosavelimit env) (hcl : countlimit < 2 ^ 32) :
    (env.diskmax * env.block_size < 2 ^ 32 →
      env.autosave / (env.diskmax * env.block_size) < 2 ^ 32 →
      scrub_autosavelimit env = env.autosave / (env.diskmax * env.block_size)) ∧
    (state_scrub_process env infoarr need_write blockstart blockmax timelimit countlimit
      now).2.countpos = scrub_countmax infoarr blockstart blockmax timelimit countlimit ∧
    save_ticks (state_scrub_process env infoarr need_write blockstart blockmax timelimit
      countlimit now).2.trace
      = save_schedule (scrub_autosavelimit env)
          (scrub_countmax infoarr blockstart blockmax timelimit countlimit)
          (scrub_countmax infoarr blockstart blockmax timelimit countlimit) ∧
    (state_scrub_process env infoarr need_write blockstart blockmax timelimit countlimit
      now).2.trace.countP Event.is_save
      = scrub_countmax infoarr blockstart blockmax timelimit countlimit
          / scrub_autosavelimit env - 1 ∧
    (∀ i cp cm cs d m, Event.state_progress i cp cm cs d m
        ∈ (state_scrub_process env infoarr need_write blockstart blockmax timelimit countlimit
          now).2.trace →
      scrub_autosavelimit env
        ≤ scrub_countmax infoarr blockstart blockmax timelimit countlimit - (cp - 1) →
      d = (cp - 1) % scrub_autosavelimit env + 1) := by
  obtain ⟨h1, h2, h3⟩ := process_saves env infoarr need_write blockstart blockmax timelimit
    countlimit now hu ha hL hcl
  refine ⟨?_, h1, h2, ?_, ?_⟩
  · intro hprod hL32
    unfold scrub_autosavelimit scrub_stripe_size
    rw [Nat.mod_eq_of_lt hprod, Nat.mod_eq_of_lt hL32]
  · rw [← save_ticks_count, h2]
    exact save_schedule_total _ _ hL
  · intro i cp cm cs d m hmem
    have hok := h3 _ hmem
    simp only [Event.done_ok, decide_eq_true_eq] at hok
    exact hok

set_option maxRecDepth 1000000 in
theorem scrub_autosave_schedule_witness :
    (env_s6.autosave ≠ 0 ∧ scrub_autosavelimit env_s6 = 4 ∧
      env_s6.autosave / (env_s6.diskmax * env_s6.block_size) = 4 ∧
      scrub_countmax arr_s6 0 20 100 20 = 20) ∧
    save_ticks (state_scrub_process env_s6 arr_s6 0 0 20 100 20 500).2.trace
      = [.processed 1, .processed 2, .processed 3, .processed 4, .saved,
         .processed 5, .processed 6, .processed 7, .processed 8, .saved,
         .processed 9, .processed 10, .processed 11, .processed 12, .saved,
         .processed 13, .processed 14, .processed 15, .processed 16, .saved,
         .processed 17, .processed 18, .processed 19, .processed 20] ∧
    (state_scrub_process env_s6 arr_s6 0 0 20 100 20 500).2.trace.countP Event.is_save = 4 :=
  ⟨⟨by decide, by decide, by decide, by decide⟩,
    (scrub_autosave_schedule env_s6 arr_s6 0 0 20 100 20 500 env_s6_uninterrupted
      (by decide) (by decide) (by decide)).2.2.1.trans (by decide),
    (scrub_autosave_schedule env_s6 arr_s6 0 0 20 100 20 500 env_s6_uninterrupted
      (by decide) (by decide) (by decide)).2.2.2.1.trans (by decide)⟩

set_option maxRecDepth 1000000 in
/-- C11, counterexample: with `diskmax * block_size = 6` and `autosave = 6 * (2 ^ 32 + 2)` the
quotient `L = autosave / (diskmax * block_size)` is `2 ^ 32 + 2 >= 1`, and the run of ten
blocks has no close failure and no stop request; no `k <= 10` has `10 - k >= L`, so the
schedule of the claim holds no save, but the code stores `2` in its 32-bit `autosavelimit`
and calls `state_write` after the blocks 2, 4, 6 and 8. -/
theorem scrub_autosave_wrap_counterexample :
    uninterrupted env_wrap ∧ env_wrap.autosave ≠ 0 ∧
    env_wrap.autosave / (env_wrap.diskmax * env_wrap.block_size) = 2 ^ 32 + 2 ∧
    scrub_autosavelimit env_wrap = 2 ∧
    scrub_countmax arr_s1 0 10 100 10 = 10 ∧
    (state_scrub_process env_wrap arr_s1 0 0 10 100 10 500).2.countpos = 10 ∧
    save_schedule (env_wrap.autosave / (env_wrap.diskmax * env_wrap.block_size)) 10 10
      = [.processed 1, .processed 2, .processed 3, .processed 4, .processed 5, .processed 6,
         .processed 7, .processed 8, .processed 9, .processed 10] ∧
    save_ticks (state_scrub_process env_wrap arr_s1 0 0 10 100 10 500).2.trace
      = [.processed 1, .processed 2, .saved, .processed 3, .processed 4, .saved,
         .processed 5, .processed 6, .saved, .processed 7, .processed 8, .saved,
         .processed 9, .processed 10] ∧
    save_ticks (state_scrub_process env_wrap arr_s1 0 0 10 100 10 500).2.trace
      ≠ save_schedule (env_wrap.autosave / (env_wrap.diskmax * env_wrap.block_size)) 10 10 ∧
    (state_scrub_process env_wrap arr_s1 0 0 10 100 10 500).2.trace.countP Event.is_save = 4 :=
  ⟨⟨fun _ _ => (by decide : (0 : Int) ≠ -1), fun _ _ _ _ => rfl⟩, by decide, by decide,
    by decide, by decide, by decide, by decide, by decide, by decide, by decide⟩

/-- C19: the pre-pass sets `countmax` to the smaller of `countlimit` and the number of blocks
of `[blockstart, blockmax)` that pass the skip filter, and `blocklimit` to `blockmax` when at
most `countlimit` blocks pass it, otherwise to the block that passes it with exactly
`countlimit` such blocks before it.  With `countlimit` in the range of a `block_off_t`
(below `2 ^ 32`), every call of `state_progress` reports that `countmax`,
a `countpos` at most `countmax` and `autosavemissing = countmax - countpos` (the decrement
never wraps); a run that reaches the main pass (the divisor of the autosave limit is not `0`)
and has no close failure and no stop request ends with `countpos = countmax` and visits
exactly `countmax` blocks. -/
theorem scrub_counters (env : ScrubEnv) (infoarr : Nat → snapraid_info) (need_write : Int)
    (blockstart blockmax : Nat) (timelimit : Int) (countlimit : Nat) (now : Int)
    (hcl : countlimit < 2 ^ 32) :
    scrub_countmax infoarr blockstart blockmax timelimit countlimit
      = min countlimit (eligible_count infoarr timelimit blockstart (blockmax - blockstart)) ∧
    (eligible_count infoarr timelimit blockstart (blockmax - blockstart) ≤ countlimit →
      scrub_blocklimit infoarr blockstart blockmax timelimit countlimit = blockmax) ∧
    (countlimit < eligible_count infoarr timelimit blockstart (blockmax - blockstart) →
      blockstart ≤ scrub_blocklimit infoarr blockstart blockmax timelimit countlimit ∧
      scrub_blocklimit infoarr blockstart blockmax timelimit countlimit < blockmax ∧
      eligible infoarr timelimit
        (scrub_blocklimit infoarr blockstart blockmax timelimit countlimit) = true ∧
      eligible_count infoarr timelimit blockstart
        (scrub_blocklimit infoarr blockstart blockmax timelimit countlimit - blockstart)
        = countlimit) ∧
    (∀ i cp cm cs d m, Event.state_progress i cp cm cs d m
        ∈ (state_scrub_process env infoarr need_write blockstart blockmax timelimit countlimit
          now).2.trace →
      cm = scrub_countmax infoarr blockstart blockmax timelimit countlimit ∧
      cp ≤ scrub_countmax infoarr blockstart blockmax timelimit countlimit ∧
      m = scrub_countmax infoarr blockstart blockmax timelimit countlimit - cp) ∧
    (scrub_stripe_size env ≠ 0 → uninterrupted env →
      (state_scrub_process env infoarr need_write blockstart blockmax timelimit countlimit
        now).2.countpos = scrub_countmax infoarr blockstart blockmax timelimit countlimit ∧
      visited_count (state_scrub_process env infoarr need_write blockstart blockmax timelimit
        countlimit now).2.trace blockmax
        = scrub_countmax infoarr blockstart blockmax timelimit countlimit) := by
  obtain ⟨p1, -, -, p4, p5⟩ := scrub_prepass infoarr blockstart blockmax timelimit countlimit
  obtain ⟨q1, -, q3⟩ := process_counters env infoarr need_write blockstart blockmax timelimit
    countlimit now hcl
  refine ⟨p1, p4, p5, ?_, fun _ hu => ⟨q3 hu, visited_count_uninterrupted env infoarr
    need_write blockstart blockmax timelimit countlimit now hu⟩⟩
  intro i cp cm cs d m hmem
  have h := q1 _ hmem
  simp only [Event.progress_ok, decide_eq_true_eq] at h
  obtain ⟨h1, h2, h3⟩ := h
  exact ⟨h1, h2, by omega⟩

set_option maxRecDepth 1000000 in
theorem scrub_counters_witness :
    ((4 : Nat) < 2 ^ 32 ∧ scrub_stripe_size env_s1 = 6) ∧
    scrub_countmax arr_s1 0 10 100 4 = 4 ∧
    scrub_blocklimit arr_s1 0 10 100 4 = 4 ∧
    (state_scrub_process env_s1 arr_s1 0 0 10 100 4 500).2.countpos = 4 ∧
    visited_count (state_scrub_process env_s1 arr_s1 0 0 10 100 4 500).2.trace 10 = 4 :=
  ⟨⟨by decide, by decide⟩, by decide, by decide,
    (scrub_counters env_s1 arr_s1 0 0 10 100 4 500 (by decide)).2.2.2.2 (by decide)
      ⟨fun _ _ => (by decide : (0 : Int) ≠ -1), fun _ _ _ _ => rfl⟩⟩

theorem processed_tick (trace : List Event) (i : Nat) (h : processed trace i = true) :
    ∃ k, SaveTick.processed k ∈ save_ticks trace := by
  unfold processed at h
  rw [List.any_eq_true] at h
  obtain ⟨e, he, hi⟩ := h
  cases e <;> first
    | exact ⟨_, List.mem_filterMap.mpr ⟨_, he, rfl⟩⟩
    | simp [Event.is_progress_at] at hi

theorem saved_tick (trace : List Event) (h : SaveTick.saved ∈ save_ticks trace) :
    Event.state_write ∈ trace := by
  unfold save_ticks at h
  obtain ⟨e, he, ht⟩ := List.mem_filterMap.mp h
  cases e <;> first
    | exact he
    | simp [Event.tick] at ht

/-- The last of the classifications and saves of a trace that ends with a call of
`state_progress` followed by exit events only is that call. -/
theorem save_ticks_stop (b : Event) (pre : List Event) (i cp cm cs d m : Nat)
    (tail : List Event) (h : ∀ e ∈ tail, Event.is_exit_event e = true) :
    (save_ticks (b :: pre ++ Event.state_progress i cp cm cs d m :: tail)).getLast?
      = some (.processed cp) := by
  have hx := save_ticks_exit tail h
  have ht : save_ticks (b :: pre ++ Event.state_progress i cp cm cs d m :: tail)
      = save_ticks (b :: pre) ++ [SaveTick.processed cp] := by
    unfold save_ticks at hx ⊢
    rw [show b :: pre ++ Event.state_progress i cp cm cs d m :: tail
      = (b :: pre) ++ ([Event.state_progress i cp cm cs d m] ++ tail) by simp,
      List.filterMap_append, List.filterMap_append, hx, List.append_nil]
    rfl
  rw [ht, List.getLast?_concat]

/-- The schedule of the spec for a whole plan ends with the last processed block: no save
follows it. -/
theorem save_schedule_last (L n : Nat) (hL : 1 ≤ L) :
    (save_schedule L (n + 1) (n + 1)).getLast? = some (.processed (n + 1)) := by
  rw [save_schedule_succ]
  have hc : ¬(L ∣ (n + 1) ∧ L ≤ n + 1 - (n + 1)) := by
    rintro ⟨-, h⟩
    omega
  rw [if_neg hc, List.getLast?_concat]

/-- With `autosave = 0` the run calls no `state_write`. -/
theorem process_nosave (env : ScrubEnv) (infoarr : Nat → snapraid_info) (need_write : Int)
    (blockstart blockmax : Nat) (timelimit : Int) (countlimit : Nat) (now : Int)
    (ha : env.autosave = 0) :
    Event.state_write ∉ (state_scrub_process env infoarr need_write blockstart blockmax
      timelimit countlimit now).2.trace := by
  obtain ⟨-, -, -, evs, e1, e2⟩ := process_exit env infoarr need_write blockstart blockmax
    timelimit countlimit now
  rw [e1]
  intro hmem
  rcases List.mem_append.mp hmem with h | h
  · revert h
    unfold scrub_loop_state
    refine scrub_loop_rule env timelimit now _ _ (fun _ s => Event.state_write ∉ s.trace)
      (fun s => Event.state_write ∉ s.trace) _ (fun _ h => h) ?_ _ _ _ rfl
      (by simp [scrub_init]) (by simp [scrub_init])
    intro i s _ hl hs
    have h := scrub_block_nosave env timelimit now
      (scrub_countmax infoarr blockstart blockmax timelimit countlimit)
      (scrub_autosavelimit env) i s hl ha hs
    refine ⟨?_, ?_, ?_⟩ <;> intro s1 hb <;> rw [hb] at h <;> exact h
  · have := e2 _ h
    simp [Event.is_exit_event] at this

/-- The dirty flag after a run in which a block was classified is `1` when the run calls no
`state_write`, when `state_write` leaves a flag `1` at `1`, or when the run has no close
failure and no stop request and the autosave limit is at least `1`. -/
theorem process_dirty_set (env : ScrubEnv) (infoarr : Nat → snapraid_info) (need_write : Int)
    (blockstart blockmax : Nat) (timelimit : Int) (countlimit : Nat) (now : Int)
    (hex : ∃ i, processed (state_scrub_process env infoarr need_write blockstart blockmax
      timelimit countlimit now).2.trace i = true)
    (hc : env.autosave = 0 ∨ env.state_write_need_write 1 = 1 ∨
      (uninterrupted env ∧ 1 ≤ scrub_autosavelimit env ∧ countlimit < 2 ^ 32)) :
    (state_scrub_process env infoarr need_write blockstart blockmax timelimit countlimit
      now).2.need_write = 1 := by
  obtain ⟨-, hB, hC⟩ := process_dirty env infoarr need_write blockstart blockmax timelimit
    countlimit now
  obtain ⟨i, hi⟩ := hex
  obtain ⟨k, hk⟩ := processed_tick _ i hi
  have hne : save_ticks (state_scrub_process env infoarr need_write blockstart blockmax
      timelimit countlimit now).2.trace ≠ [] := List.ne_nil_of_mem hk
  have hlast := List.getLast?_eq_getLast _ hne
  have hoff : env.autosave = 0 → (state_scrub_process env infoarr need_write blockstart
      blockmax timelimit countlimit now).2.need_write = 1 := by
    intro ha
    have hns := process_nosave env infoarr need_write blockstart blockmax timelimit
      countlimit now ha
    cases hx : List.getLast _ hne with
    | processed k1 =>
      rw [hx] at hlast
      exact hB k1 hlast
    | saved =>
      rw [hx] at hlast
      exact absurd (saved_tick _ (List.mem_of_getLast?_eq_some hlast)) hns
  rcases hc with ha | hf | ⟨hu, hL, hcl⟩
  · exact hoff ha
  · cases hx : List.getLast _ hne with
    | processed k1 =>
      rw [hx] at hlast
      exact hB k1 hlast
    | saved =>
      rw [hx] at hlast
      rw [hC hlast, hf]
  · by_cases ha : env.autosave = 0
    · exact hoff ha
    · obtain ⟨-, h2, -⟩ := process_saves env infoarr need_write blockstart blockmax timelimit
        countlimit now hu ha hL hcl
      rw [h2] at hne
      cases hcm : scrub_countmax infoarr blockstart blockmax timelimit countlimit with
      | zero =>
        rw [hcm] at hne
        exact absurd rfl hne
      | succ n =>
        refine hB (n + 1) ?_
        rw [h2, hcm]
        exact save_schedule_last _ n hL

/-- C17: if `state_progress` asks to stop at its call for block `i`, the trace ends with that
call followed only by `state_progress_end` and the `handle_close` of every slot of
`[0, diskmax)` in the teardown (no `state_write`), every earlier event belongs to a block up
to `i`, block `i` is classified and carries the info of its classification, and the blocks
after `i` are not visited and keep their pre-run info. -/
theorem scrub_stop_request (env : ScrubEnv) (infoarr : Nat → snapraid_info)
    (need_write : Int) (blockstart blockmax : Nat) (timelimit : Int) (countlimit : Nat)
    (now : Int) (i cp cm cs d m : Nat)
    (hp : Event.state_progress i cp cm cs d m ∈ (state_scrub_process env infoarr need_write
      blockstart blockmax timelimit countlimit now).2.trace)
    (hs : env.state_progress_ret i cp cm cs ≠ 0) :
    (∃ pre cpe cse,
      (state_scrub_process env infoarr need_write blockstart blockmax timelimit countlimit
        now).2.trace
        = Event.state_progress_begin blockstart blockmax
            (scrub_countmax infoarr blockstart blockmax timelimit countlimit) :: pre ++
          Event.state_progress i cp cm cs d m ::
          Event.state_progress_end cpe cm cse ::
          (List.range' 0 env.diskmax).map Event.teardown_close ∧
      ∀ e ∈ pre, Event.is_upto i e = true ∧ Event.is_stopper env e = false) ∧
    (∃ fl : BlockFlags,
      (state_scrub_process env infoarr need_write blockstart blockmax timelimit
        countlimit now).2.infoarr i =
        class_info now fl.error_on_this_block fl.silent_error_on_this_block (infoarr i) ∧
      (env.level = 1 ∨ env.level = 2 →
        fl.error_on_this_block = block_io_error env i ∧
        fl.silent_error_on_this_block = block_silent_error env i)) ∧
    (state_scrub_process env infoarr need_write blockstart blockmax timelimit countlimit
      now).2.need_write = 1 ∧
    (∀ k, i < k →
      (state_scrub_process env infoarr need_write blockstart blockmax timelimit countlimit
        now).2.infoarr k = infoarr k ∧
      processed (state_scrub_process env infoarr need_write blockstart blockmax timelimit
        countlimit now).2.trace k = false) := by
  have hstop : Event.is_stopper env (Event.state_progress i cp cm cs d m) = true := by
    simp [Event.is_stopper, hs]
  have hproc : processed (state_scrub_process env infoarr need_write blockstart blockmax
      timelimit countlimit now).2.trace i = true := by
    unfold processed
    rw [List.any_eq_true]
    exact ⟨_, hp, by simp [Event.is_progress_at]⟩
  obtain ⟨-, -, -, hfl⟩ := (process_spec env infoarr need_write blockstart blockmax timelimit
    countlimit now i).1 hproc
  rcases process_ends env infoarr need_write blockstart blockmax timelimit countlimit now with
    ⟨mid, cp1, cs1, a1, a2⟩ |
    ⟨i1, pre, cp1, cs1, d1, m1, cpe, cse, -, -, a1, -, a2, a3⟩ |
    ⟨i1, j1, pre, -, -, -, -, a1, a2, -, -⟩
  · rw [a1] at hp
    simp at hp
    rw [a2 _ hp] at hstop
    cases hstop
  · have heq : Event.state_progress i cp cm cs d m = Event.state_progress i1 cp1
        (scrub_countmax infoarr blockstart blockmax timelimit countlimit) cs1 d1 m1 := by
      rw [a1] at hp
      simp at hp
      rcases hp with hp | hp
      · rw [(a2 _ hp).1] at hstop
        cases hstop
      · obtain ⟨h1, h2, h3, h4, h5, h6⟩ := hp
        rw [h1, h2, h3, h4, h5, h6]
    injection heq with h1 h2 h3 h4 h5 h6
    subst h1 h2 h4 h5 h6
    refine ⟨⟨pre, cpe, cse, by rw [a1, h3], fun e he => ⟨(a2 e he).2, (a2 e he).1⟩⟩, hfl,
      ?_, ?_⟩
    · refine (process_dirty env infoarr need_write blockstart blockmax timelimit countlimit
        now).2.1 cp ?_
      rw [a1]
      exact save_ticks_stop _ pre _ _ _ _ _ _ _ (by
        intro e he
        simp only [List.mem_cons, List.mem_map] at he
        rcases he with rfl | ⟨j, -, rfl⟩ <;> rfl)
    · intro k hk
      refine ⟨a3 k hk, ?_⟩
      rw [a1]
      have h1 : pre.any (Event.is_progress_at k) = false := by
        rw [List.any_eq_false]
        intro e he
        simp [upto_not_progress i k hk e (a2 e he).2]
      simp only [processed, List.any_cons, List.any_append, List.any_map]
      rw [h1]
      have hne : i ≠ k := by omega
      simp [Event.is_progress_at, Function.comp_def, hne]
  · rw [a1] at hp
    simp at hp
    rw [(a2 _ hp).1] at hstop
    cases hstop

set_option maxRecDepth 1000000 in
theorem scrub_stop_request_witness :
    (Event.state_progress 5 6 10 36 6 4
        ∈ (state_scrub_process env_stop arr_s1 0 0 10 100 10 500).2.trace ∧
      env_stop.state_progress_ret 5 6 10 36 ≠ 0) ∧
    (state_scrub_process env_stop arr_s1 0 0 10 100 10 500).2.infoarr 5 = info_make 500 0 ∧
    (∀ k, 5 < k →
      (state_scrub_process env_stop arr_s1 0 0 10 100 10 500).2.infoarr k = arr_s1 k ∧
      processed (state_scrub_process env_stop arr_s1 0 0 10 100 10 500).2.trace k = false) :=
  ⟨⟨by decide, by decide⟩, by decide,
    (scrub_stop_request env_stop arr_s1 0 0 10 100 10 500 5 6 10 36 6 4 (by decide)
      (by decide)).2.2.2⟩

/-- C18: the core assigns `need_write` only at the classification of a block, where it sets it
to `1`, and never clears it; the only other writer is the `state_write` that the autosave
calls.  After a run the flag keeps its pre-run value when no block reached classification;
it is `1` when the last of the classifications and saves of the run is a classification; it
is what `state_write` left of a flag `1` when the run ends with a save.  So, when a block
reached classification, the flag is `1` after the run if `autosave = 0`, or if `state_write`
leaves a flag `1` at `1`, or if the run has no close failure and no stop request and the
autosave limit is at least `1` (a block follows every save); under the same conditions a
pre-run value of `1` stays `1`. -/
theorem scrub_need_write (env : ScrubEnv) (infoarr : Nat → snapraid_info) (need_write : Int)
    (blockstart blockmax : Nat) (timelimit : Int) (countlimit : Nat) (now : Int) :
    ((∀ i, processed (state_scrub_process env infoarr need_write blockstart blockmax timelimit
        countlimit now).2.trace i = false) →
      (state_scrub_process env infoarr need_write blockstart blockmax timelimit countlimit
        now).2.need_write = need_write) ∧
    (∀ k, (save_ticks (state_scrub_process env infoarr need_write blockstart blockmax
        timelimit countlimit now).2.trace).getLast? = some (.processed k) →
      (state_scrub_process env infoarr need_write blockstart blockmax timelimit countlimit
        now).2.need_write = 1) ∧
    ((save_ticks (state_scrub_process env infoarr need_write blockstart blockmax
        timelimit countlimit now).2.trace).getLast? = some .saved →
      (state_scrub_process env infoarr need_write blockstart blockmax timelimit countlimit
        now).2.need_write = env.state_write_need_write 1) ∧
    (env.autosave = 0 ∨ env.state_write_need_write 1 = 1 ∨
        (uninterrupted env ∧ 1 ≤ scrub_autosavelimit env ∧ countlimit < 2 ^ 32) →
      ((∃ i, processed (state_scrub_process env infoarr need_write blockstart blockmax
          timelimit countlimit now).2.trace i = true) →
        (state_scrub_process env infoarr need_write blockstart blockmax timelimit countlimit
          now).2.need_write = 1) ∧
      (need_write = 1 →
        (state_scrub_process env infoarr need_write blockstart blockmax timelimit countlimit
          now).2.need_write = 1)) := by
  obtain ⟨hA, hB, hC⟩ := process_dirty env infoarr need_write blockstart blockmax timelimit
    countlimit now
  refine ⟨fun h => (hA h).1, hB, hC, fun hc => ⟨fun hex => process_dirty_set env infoarr
    need_write blockstart blockmax timelimit countlimit now hex hc, fun hnw => ?_⟩⟩
  by_cases hex : ∃ i, processed (state_scrub_process env infoarr need_write blockstart blockmax
      timelimit countlimit now).2.trace i = true
  · exact process_dirty_set env infoarr need_write blockstart blockmax timelimit countlimit
      now hex hc
  · rw [(hA (fun i => by
      cases hp : processed (state_scrub_process env infoarr need_write blockstart blockmax
        timelimit countlimit now).2.trace i with
      | false => rfl
      | true => exact absurd ⟨i, hp⟩ hex)).1, hnw]

set_option maxRecDepth 1000000 in
theorem scrub_need_write_witness :
    (env_s6.autosave = 24 ∧ env_s6.state_write_need_write 1 = 0 ∧
      scrub_autosavelimit env_s6 = 4 ∧
      Event.state_write ∈ (state_scrub_process env_s6 arr_s6 0 0 20 100 20 500).2.trace) ∧
    (state_scrub_process env_s6 arr_s6 0 0 20 100 20 500).2.need_write = 1 ∧
    (state_scrub_process env_save_close arr_s1 1 0 10 100 10 500).2.need_write
      = env_save_close.state_write_need_write 1 ∧
    (state_scrub_process env_s6 arr_s1 7 0 10 5 10 500).2.need_write = 7 :=
  ⟨⟨rfl, rfl, by decide, by decide⟩,
    ((scrub_need_write env_s6 arr_s6 0 0 20 100 20 500).2.2.2
      (Or.inr (Or.inr ⟨env_s6_uninterrupted, by decide, by decide⟩))).1 ⟨3, by decide⟩,
    (scrub_need_write env_save_close arr_s1 1 0 10 100 10 500).2.2.1 (by decide),
    (scrub_need_write env_s6 arr_s1 7 0 10 5 10 500).1 (fun i => by
      have htr : (state_scrub_process env_s6 arr_s1 7 0 10 5 10 500).2.trace
          = [.state_progress_begin 0 10 0, .state_progress_end 0 0 0, .teardown_close 0,
            .teardown_close 1, .teardown_close 2] := by decide
      rw [htr]
      rfl)⟩

set_option maxRecDepth 1000000 in
/-- C18, counterexample: with an autosave budget of three stripes and a `state_write` that
leaves the flag at `0`, the run that starts with `need_write = 1` classifies the blocks 0, 1
and 2, saves after the third, and is cut by the failing `handle_close` of block 3: it ends
with `need_write = 0`, although blocks reached classification and the pre-run value was `1`.
With a budget below one stripe (limit `0`) a save follows every block, the last one
included, and a run with no close failure and no stop request ends with `need_write = 0`. -/
theorem scrub_need_write_counterexample :
    (processed (state_scrub_process env_save_close arr_s1 1 0 10 100 10 500).2.trace 2 = true ∧
      save_ticks (state_scrub_process env_save_close arr_s1 1 0 10 100 10 500).2.trace
        = [.processed 1, .processed 2, .processed 3, .saved] ∧
      (state_scrub_process env_save_close arr_s1 1 0 10 100 10 500).2.need_write = 0) ∧
    (uninterrupted env_save_all ∧
      (∀ i, i < 10 →
        processed (state_scrub_process env_save_all arr_s1 1 0 10 100 10 500).2.trace i
          = true) ∧
      (state_scrub_process env_save_all arr_s1 1 0 10 100 10 500).1 = 0 ∧
      (state_scrub_process env_save_all arr_s1 1 0 10 100 10 500).2.need_write = 0) :=
  ⟨⟨by decide, by decide, by decide⟩,
    ⟨fun _ _ => (by decide : (0 : Int) ≠ -1), fun _ _ _ _ => rfl⟩, by decide, by decide,
    by decide⟩

end Snapraid
